import Mathlib

/-! # Pixel transfer in `src/OpenGL/common/Image.cpp`

A shallow embedding of the size calculators, the row transcoders and the upload entry
points of `Image.cpp`, followed by the properties proved about them.

Conventions of the embedding.

* `GLenum` values are natural numbers; the named constants carry the values of the
  Khronos headers the source includes.
* `int`, `GLint` and `GLsizei` are 32-bit: a value is an `Int`, and every addition,
  subtraction and multiplication of the size calculators is followed by `wrap32`,
  the reduction modulo `2^32` into `[-2^31, 2^31)`.
* `float` is IEEE 754 binary32: a value is its bit pattern, and the integer conversions
  and the division of the depth transcoders round to nearest, ties to even.
* `ASSERT` and `UNREACHABLE` raise a fault; a `Checked` result records the fault
  together with the value the function goes on to return.
-/

namespace egl

/-! ## GLenum constants -/

/-- Values of the pixel type constants of `GLES3/gl3.h` and `GLES2/gl2ext.h`. -/
def GL_BYTE : Nat := 0x1400
def GL_UNSIGNED_BYTE : Nat := 0x1401
def GL_SHORT : Nat := 0x1402
def GL_UNSIGNED_SHORT : Nat := 0x1403
def GL_INT : Nat := 0x1404
def GL_UNSIGNED_INT : Nat := 0x1405
def GL_FLOAT : Nat := 0x1406
def GL_HALF_FLOAT : Nat := 0x140B
def GL_HALF_FLOAT_OES : Nat := 0x8D61
def GL_UNSIGNED_SHORT_4_4_4_4 : Nat := 0x8033
def GL_UNSIGNED_SHORT_5_5_5_1 : Nat := 0x8034
def GL_UNSIGNED_SHORT_5_6_5 : Nat := 0x8363
def GL_UNSIGNED_SHORT_4_4_4_4_REV_EXT : Nat := 0x8365
def GL_UNSIGNED_SHORT_1_5_5_5_REV_EXT : Nat := 0x8366
def GL_UNSIGNED_INT_2_10_10_10_REV : Nat := 0x8368
def GL_UNSIGNED_INT_24_8 : Nat := 0x84FA
def GL_UNSIGNED_INT_24_8_OES : Nat := 0x84FA
def GL_UNSIGNED_INT_10F_11F_11F_REV : Nat := 0x8C3B
def GL_UNSIGNED_INT_5_9_9_9_REV : Nat := 0x8C3E
def GL_FLOAT_32_UNSIGNED_INT_24_8_REV : Nat := 0x8DAD

/-- Values of the client pixel format constants of `GLES3/gl3.h` and `GLES2/gl2ext.h`. -/
def GL_DEPTH_COMPONENT : Nat := 0x1902
def GL_RED : Nat := 0x1903
def GL_ALPHA : Nat := 0x1906
def GL_RGB : Nat := 0x1907
def GL_RGBA : Nat := 0x1908
def GL_LUMINANCE : Nat := 0x1909
def GL_LUMINANCE_ALPHA : Nat := 0x190A
def GL_BGRA_EXT : Nat := 0x80E1
def GL_RG : Nat := 0x8227
def GL_RG_INTEGER : Nat := 0x8228
def GL_DEPTH_STENCIL : Nat := 0x84F9
def GL_RED_INTEGER : Nat := 0x8D94
def GL_RGB_INTEGER : Nat := 0x8D98
def GL_RGBA_INTEGER : Nat := 0x8D99

/-- Values of the compressed format constants of `GLES3/gl3.h` and `GLES2/gl2ext.h`. -/
def GL_COMPRESSED_RGB_S3TC_DXT1_EXT : Nat := 0x83F0
def GL_COMPRESSED_RGBA_S3TC_DXT1_EXT : Nat := 0x83F1
def GL_COMPRESSED_RGBA_S3TC_DXT3_ANGLE : Nat := 0x83F2
def GL_COMPRESSED_RGBA_S3TC_DXT5_ANGLE : Nat := 0x83F3
def GL_ETC1_RGB8_OES : Nat := 0x8D64
def GL_COMPRESSED_R11_EAC : Nat := 0x9270
def GL_COMPRESSED_SIGNED_R11_EAC : Nat := 0x9271
def GL_COMPRESSED_RG11_EAC : Nat := 0x9272
def GL_COMPRESSED_SIGNED_RG11_EAC : Nat := 0x9273
def GL_COMPRESSED_RGB8_ETC2 : Nat := 0x9274
def GL_COMPRESSED_SRGB8_ETC2 : Nat := 0x9275
def GL_COMPRESSED_RGB8_PUNCHTHROUGH_ALPHA1_ETC2 : Nat := 0x9276
def GL_COMPRESSED_SRGB8_PUNCHTHROUGH_ALPHA1_ETC2 : Nat := 0x9277
def GL_COMPRESSED_RGBA8_ETC2_EAC : Nat := 0x9278
def GL_COMPRESSED_SRGB8_ALPHA8_ETC2_EAC : Nat := 0x9279
def GL_COMPRESSED_RGBA_ASTC_4x4_KHR : Nat := 0x93B0
def GL_COMPRESSED_RGBA_ASTC_5x4_KHR : Nat := 0x93B1
def GL_COMPRESSED_RGBA_ASTC_5x5_KHR : Nat := 0x93B2
def GL_COMPRESSED_RGBA_ASTC_6x5_KHR : Nat := 0x93B3
def GL_COMPRESSED_RGBA_ASTC_6x6_KHR : Nat := 0x93B4
def GL_COMPRESSED_RGBA_ASTC_8x5_KHR : Nat := 0x93B5
def GL_COMPRESSED_RGBA_ASTC_8x6_KHR : Nat := 0x93B6
def GL_COMPRESSED_RGBA_ASTC_8x8_KHR : Nat := 0x93B7
def GL_COMPRESSED_RGBA_ASTC_10x5_KHR : Nat := 0x93B8
def GL_COMPRESSED_RGBA_ASTC_10x6_KHR : Nat := 0x93B9
def GL_COMPRESSED_RGBA_ASTC_10x8_KHR : Nat := 0x93BA
def GL_COMPRESSED_RGBA_ASTC_10x10_KHR : Nat := 0x93BB
def GL_COMPRESSED_RGBA_ASTC_12x10_KHR : Nat := 0x93BC
def GL_COMPRESSED_RGBA_ASTC_12x12_KHR : Nat := 0x93BD
def GL_COMPRESSED_SRGB8_ALPHA8_ASTC_4x4_KHR : Nat := 0x93D0
def GL_COMPRESSED_SRGB8_ALPHA8_ASTC_5x4_KHR : Nat := 0x93D1
def GL_COMPRESSED_SRGB8_ALPHA8_ASTC_5x5_KHR : Nat := 0x93D2
def GL_COMPRESSED_SRGB8_ALPHA8_ASTC_6x5_KHR : Nat := 0x93D3
def GL_COMPRESSED_SRGB8_ALPHA8_ASTC_6x6_KHR : Nat := 0x93D4
def GL_COMPRESSED_SRGB8_ALPHA8_ASTC_8x5_KHR : Nat := 0x93D5
def GL_COMPRESSED_SRGB8_ALPHA8_ASTC_8x6_KHR : Nat := 0x93D6
def GL_COMPRESSED_SRGB8_ALPHA8_ASTC_8x8_KHR : Nat := 0x93D7
def GL_COMPRESSED_SRGB8_ALPHA8_ASTC_10x5_KHR : Nat := 0x93D8
def GL_COMPRESSED_SRGB8_ALPHA8_ASTC_10x6_KHR : Nat := 0x93D9
def GL_COMPRESSED_SRGB8_ALPHA8_ASTC_10x8_KHR : Nat := 0x93DA
def GL_COMPRESSED_SRGB8_ALPHA8_ASTC_10x10_KHR : Nat := 0x93DB
def GL_COMPRESSED_SRGB8_ALPHA8_ASTC_12x10_KHR : Nat := 0x93DC
def GL_COMPRESSED_SRGB8_ALPHA8_ASTC_12x12_KHR : Nat := 0x93DD

/-- Values of the sized internal format constants of `GLES3/gl3.h` and `GLES2/gl2ext.h`,
and of the `SW_YV12` constants of `Image.hpp`. -/
def GL_ALPHA8_EXT : Nat := 0x803C
def GL_LUMINANCE8_EXT : Nat := 0x8040
def GL_LUMINANCE8_ALPHA8_EXT : Nat := 0x8045
def GL_RGB8 : Nat := 0x8051
def GL_RGBA8 : Nat := 0x8058
def GL_DEPTH_COMPONENT16 : Nat := 0x81A5
def GL_DEPTH_COMPONENT24 : Nat := 0x81A6
def GL_DEPTH_COMPONENT32_OES : Nat := 0x81A7
def GL_R8 : Nat := 0x8229
def GL_RG8 : Nat := 0x822B
def GL_R16F : Nat := 0x822D
def GL_R32F : Nat := 0x822E
def GL_RG16F : Nat := 0x822F
def GL_RG32F : Nat := 0x8230
def GL_R8I : Nat := 0x8231
def GL_R8UI : Nat := 0x8232
def GL_R16I : Nat := 0x8233
def GL_R16UI : Nat := 0x8234
def GL_R32I : Nat := 0x8235
def GL_R32UI : Nat := 0x8236
def GL_RG8I : Nat := 0x8237
def GL_RG8UI : Nat := 0x8238
def GL_RG16I : Nat := 0x8239
def GL_RG16UI : Nat := 0x823A
def GL_RG32I : Nat := 0x823B
def GL_RG32UI : Nat := 0x823C
def GL_RGBA32F : Nat := 0x8814
def GL_RGB32F : Nat := 0x8815
def GL_ALPHA32F_EXT : Nat := 0x8816
def GL_LUMINANCE32F_EXT : Nat := 0x8818
def GL_LUMINANCE_ALPHA32F_EXT : Nat := 0x8819
def GL_RGBA16F : Nat := 0x881A
def GL_RGB16F : Nat := 0x881B
def GL_ALPHA16F_EXT : Nat := 0x881C
def GL_LUMINANCE16F_EXT : Nat := 0x881E
def GL_LUMINANCE_ALPHA16F_EXT : Nat := 0x881F
def GL_DEPTH24_STENCIL8 : Nat := 0x88F0
def GL_R11F_G11F_B10F : Nat := 0x8C3A
def GL_RGB9_E5 : Nat := 0x8C3D
def GL_SRGB8 : Nat := 0x8C41
def GL_SRGB8_ALPHA8 : Nat := 0x8C43
def GL_DEPTH_COMPONENT32F : Nat := 0x8CAC
def GL_DEPTH32F_STENCIL8 : Nat := 0x8CAD
def GL_RGBA32UI : Nat := 0x8D70
def GL_RGB32UI : Nat := 0x8D71
def GL_RGBA16UI : Nat := 0x8D76
def GL_RGB16UI : Nat := 0x8D77
def GL_RGBA8UI : Nat := 0x8D7C
def GL_RGB8UI : Nat := 0x8D7D
def GL_RGBA32I : Nat := 0x8D82
def GL_RGB32I : Nat := 0x8D83
def GL_RGBA16I : Nat := 0x8D88
def GL_RGB16I : Nat := 0x8D89
def GL_RGBA8I : Nat := 0x8D8E
def GL_RGB8I : Nat := 0x8D8F
def GL_R8_SNORM : Nat := 0x8F94
def GL_RG8_SNORM : Nat := 0x8F95
def GL_RGB8_SNORM : Nat := 0x8F96
def GL_RGBA8_SNORM : Nat := 0x8F97
def GL_RGB10_A2UI : Nat := 0x906F
def GL_BGRA8_EXT : Nat := 0x93A1
def SW_YV12_BT601 : Nat := 0x32315659
def SW_YV12_BT709 : Nat := 0x48315659
def SW_YV12_JFIF : Nat := 0x4A315659

/-! ## Machine integers and faults -/

/-- The unsigned 32-bit pattern of a two's-complement `int`. -/
def toU32 (x : Int) : Nat := (x % 4294967296).toNat

/-- The `int` denoted by an unsigned 32-bit pattern. -/
def toI32 (u : Nat) : Int :=
  if u % 4294967296 < 2147483648 then ((u % 4294967296 : Nat) : Int)
  else ((u % 4294967296 : Nat) : Int) - 4294967296

/-- Result of an `int` operation, reduced modulo `2^32` into `[-2^31, 2^31)`. -/
def wrap32 (x : Int) : Int := toI32 (toU32 x)

/-- The operator `&` on two `int` operands. -/
def and32 (x y : Int) : Int := toI32 (toU32 x &&& toU32 y)

/-- The operator `~` on an `int` operand. -/
def not32 (x : Int) : Int := toI32 (4294967295 - toU32 x)

/-- Conversion of an `int` to `size_t` (64-bit, modulo `2^64`). -/
def toSizeT (x : Int) : Nat := (x % 18446744073709551616).toNat

/-- A value lies in the range of `int`. -/
def InInt32 (x : Int) : Prop := -2147483648 ≤ x ∧ x < 2147483648

instance (x : Int) : Decidable (InInt32 x) := by
  unfold InInt32; exact inferInstance

/-- Modelled from the spec: the macros `ASSERT` and `UNREACHABLE` are defined in
`common/debug.h`, which is not among the sources; the spec calls what they raise a fatal
fault. A `Checked` result keeps the flag `faulted` and, in `value`, what the function
returns when execution goes on past the macro (the statements after it in the source). -/
structure Checked (α : Type) where
  value : α
  faulted : Bool
deriving DecidableEq, Repr

/-- A plain `return v`. -/
def Checked.ok {α : Type} (v : α) : Checked α := ⟨v, false⟩

/-- The path `UNREACHABLE(..)` followed by `return v`. -/
def Checked.unreachable {α : Type} (v : α) : Checked α := ⟨v, true⟩

/-- Modelled from the spec: `sw::isPow2` is declared in `Common/Math.hpp`, which is not
among the sources; the spec asks for an alignment that is "a power of two". The test
holds exactly for the powers of two an `int` can hold, `2^0` to `2^30`. -/
def isPow2 (x : Int) : Bool := (List.range 31).any fun k => decide (x = 2 ^ k)

/-! ## Size calculators -/

/-- Inner `switch(type)` of `ComputePixelSize` for the one-channel formats (lines 912-924). -/
def ComputePixelSize.switchR (type : Nat) : Checked Int :=
  if type = GL_BYTE then .ok 1
  else if type = GL_UNSIGNED_BYTE then .ok 1
  else if type = GL_FLOAT then .ok 4
  else if type = GL_HALF_FLOAT then .ok 2
  else if type = GL_HALF_FLOAT_OES then .ok 2
  else if type = GL_SHORT then .ok 2
  else if type = GL_UNSIGNED_SHORT then .ok 2
  else if type = GL_INT then .ok 4
  else if type = GL_UNSIGNED_INT then .ok 4
  else .unreachable 0

/-- Inner `switch(type)` of `ComputePixelSize` for the two-channel formats (lines 929-941). -/
def ComputePixelSize.switchRG (type : Nat) : Checked Int :=
  if type = GL_BYTE then .ok 2
  else if type = GL_UNSIGNED_BYTE then .ok 2
  else if type = GL_FLOAT then .ok 8
  else if type = GL_HALF_FLOAT then .ok 4
  else if type = GL_HALF_FLOAT_OES then .ok 4
  else if type = GL_SHORT then .ok 4
  else if type = GL_UNSIGNED_SHORT then .ok 4
  else if type = GL_INT then .ok 8
  else if type = GL_UNSIGNED_INT then .ok 8
  else .unreachable 0

/-- Inner `switch(type)` of `ComputePixelSize` for `GL_RGB` and `GL_RGB_INTEGER`
(lines 945-960). -/
def ComputePixelSize.switchRGB (type : Nat) : Checked Int :=
  if type = GL_BYTE then .ok 3
  else if type = GL_UNSIGNED_BYTE then .ok 3
  else if type = GL_UNSIGNED_SHORT_5_6_5 then .ok 2
  else if type = GL_UNSIGNED_INT_10F_11F_11F_REV then .ok 4
  else if type = GL_UNSIGNED_INT_5_9_9_9_REV then .ok 4
  else if type = GL_FLOAT then .ok 12
  else if type = GL_HALF_FLOAT then .ok 6
  else if type = GL_HALF_FLOAT_OES then .ok 6
  else if type = GL_SHORT then .ok 6
  else if type = GL_UNSIGNED_SHORT then .ok 6
  else if type = GL_INT then .ok 12
  else if type = GL_UNSIGNED_INT then .ok 12
  else .unreachable 0

/-- Inner `switch(type)` of `ComputePixelSize` for `GL_RGBA`, `GL_RGBA_INTEGER` and
`GL_BGRA_EXT` (lines 965-982). -/
def ComputePixelSize.switchRGBA (type : Nat) : Checked Int :=
  if type = GL_BYTE then .ok 4
  else if type = GL_UNSIGNED_BYTE then .ok 4
  else if type = GL_UNSIGNED_SHORT_4_4_4_4 then .ok 2
  else if type = GL_UNSIGNED_SHORT_4_4_4_4_REV_EXT then .ok 2
  else if type = GL_UNSIGNED_SHORT_5_5_5_1 then .ok 2
  else if type = GL_UNSIGNED_SHORT_1_5_5_5_REV_EXT then .ok 2
  else if type = GL_UNSIGNED_INT_2_10_10_10_REV then .ok 4
  else if type = GL_FLOAT then .ok 16
  else if type = GL_HALF_FLOAT then .ok 8
  else if type = GL_HALF_FLOAT_OES then .ok 8
  else if type = GL_SHORT then .ok 8
  else if type = GL_UNSIGNED_SHORT then .ok 8
  else if type = GL_INT then .ok 16
  else if type = GL_UNSIGNED_INT then .ok 16
  else .unreachable 0

/-- Inner `switch(type)` of `ComputePixelSize` for `GL_DEPTH_COMPONENT` (lines 985-991). -/
def ComputePixelSize.switchDepth (type : Nat) : Checked Int :=
  if type = GL_FLOAT then .ok 4
  else if type = GL_UNSIGNED_SHORT then .ok 2
  else if type = GL_UNSIGNED_INT then .ok 4
  else .unreachable 0

/-- Inner `switch(type)` of `ComputePixelSize` for `GL_DEPTH_STENCIL` (lines 994-999). -/
def ComputePixelSize.switchDepthStencil (type : Nat) : Checked Int :=
  if type = GL_UNSIGNED_INT_24_8 then .ok 4
  else if type = GL_FLOAT_32_UNSIGNED_INT_24_8_REV then .ok 8
  else .unreachable 0

/-- `ComputePixelSize(format, type)`: the size in bytes of one client pixel
(`Image.cpp`, lines 904-1006). Every `UNREACHABLE` is followed by `break` and the final
`return 0`. -/
def ComputePixelSize (format type : Nat) : Checked Int :=
  if format = GL_RED ∨ format = GL_RED_INTEGER ∨ format = GL_ALPHA ∨ format = GL_LUMINANCE then
    ComputePixelSize.switchR type
  else if format = GL_RG ∨ format = GL_RG_INTEGER ∨ format = GL_LUMINANCE_ALPHA then
    ComputePixelSize.switchRG type
  else if format = GL_RGB ∨ format = GL_RGB_INTEGER then
    ComputePixelSize.switchRGB type
  else if format = GL_RGBA ∨ format = GL_RGBA_INTEGER ∨ format = GL_BGRA_EXT then
    ComputePixelSize.switchRGBA type
  else if format = GL_DEPTH_COMPONENT then
    ComputePixelSize.switchDepth type
  else if format = GL_DEPTH_STENCIL then
    ComputePixelSize.switchDepthStencil type
  else .unreachable 0

/-- `ComputePitch(width, format, type, alignment)` (`Image.cpp`, lines 1008-1014): the
assertion on the alignment, then `(rawPitch + alignment - 1) & ~(alignment - 1)`. -/
def ComputePitch (width : Int) (format type : Nat) (alignment : Int) : Checked Int :=
  let asserted : Bool := decide (alignment > 0) && isPow2 alignment
  let size := ComputePixelSize format type
  let rawPitch := wrap32 (size.value * width)
  { value := and32 (wrap32 (wrap32 (rawPitch + alignment) - 1)) (not32 (wrap32 (alignment - 1)))
    faulted := !asserted || size.faulted }

/-- Modelled from the spec: `PixelStorageModes` is declared in `Image.hpp`, which is not
among the sources. The spec lists the unpack parameters: "alignment (power of two,
default 4), row length override, image-height override, and skip-pixels/skip-rows/
skip-images counts"; each field is a `GLint`. -/
structure PixelStorageModes where
  rowLength : Int := 0
  skipRows : Int := 0
  skipPixels : Int := 0
  alignment : Int := 4
  imageHeight : Int := 0
  skipImages : Int := 0
deriving DecidableEq, Repr

/-- `ComputePackingOffset(format, type, width, height, storageModes)` (`Image.cpp`, lines
1016-1020): the expression is evaluated in `int` and converted to `size_t` on return. -/
def ComputePackingOffset (format type : Nat) (width height : Int)
    (storageModes : PixelStorageModes) : Checked Nat :=
  let pitch := ComputePitch width format type storageModes.alignment
  let pitchB := pitch.value
  let size := ComputePixelSize format type
  { value := toSizeT (wrap32 (
      wrap32 (wrap32 (wrap32 (storageModes.skipImages * height) + storageModes.skipRows) * pitchB)
        + wrap32 (storageModes.skipPixels * size.value)))
    faulted := pitch.faulted || size.faulted }

/-- `getNumBlocks(w, h, blockSizeX, blockSizeY)` (`Image.cpp`, lines 29-32); `/` is the
truncating division of `int`. -/
def getNumBlocks (w h blockSizeX blockSizeY : Int) : Int :=
  wrap32 (Int.tdiv (wrap32 (wrap32 (w + blockSizeX) - 1)) blockSizeX
    * Int.tdiv (wrap32 (wrap32 (h + blockSizeY) - 1)) blockSizeY)

/-- `ComputeCompressedSize(width, height, format)` (`Image.cpp`, lines 1027-1092). -/
def ComputeCompressedSize (width height : Int) (format : Nat) : Int :=
  if format = GL_COMPRESSED_RGB_S3TC_DXT1_EXT ∨ format = GL_COMPRESSED_RGBA_S3TC_DXT1_EXT ∨
      format = GL_ETC1_RGB8_OES ∨ format = GL_COMPRESSED_R11_EAC ∨
      format = GL_COMPRESSED_SIGNED_R11_EAC ∨ format = GL_COMPRESSED_RGB8_ETC2 ∨
      format = GL_COMPRESSED_SRGB8_ETC2 ∨
      format = GL_COMPRESSED_RGB8_PUNCHTHROUGH_ALPHA1_ETC2 ∨
      format = GL_COMPRESSED_SRGB8_PUNCHTHROUGH_ALPHA1_ETC2 then
    wrap32 (8 * getNumBlocks width height 4 4)
  else if format = GL_COMPRESSED_RGBA_S3TC_DXT3_ANGLE ∨
      format = GL_COMPRESSED_RGBA_S3TC_DXT5_ANGLE ∨ format = GL_COMPRESSED_RG11_EAC ∨
      format = GL_COMPRESSED_SIGNED_RG11_EAC ∨ format = GL_COMPRESSED_RGBA8_ETC2_EAC ∨
      format = GL_COMPRESSED_SRGB8_ALPHA8_ETC2_EAC ∨
      format = GL_COMPRESSED_RGBA_ASTC_4x4_KHR ∨
      format = GL_COMPRESSED_SRGB8_ALPHA8_ASTC_4x4_KHR then
    wrap32 (16 * getNumBlocks width height 4 4)
  else if format = GL_COMPRESSED_RGBA_ASTC_5x4_KHR ∨
      format = GL_COMPRESSED_SRGB8_ALPHA8_ASTC_5x4_KHR then
    wrap32 (16 * getNumBlocks width height 5 4)
  else if format = GL_COMPRESSED_RGBA_ASTC_5x5_KHR ∨
      format = GL_COMPRESSED_SRGB8_ALPHA8_ASTC_5x5_KHR then
    wrap32 (16 * getNumBlocks width height 5 5)
  else if format = GL_COMPRESSED_RGBA_ASTC_6x5_KHR ∨
      format = GL_COMPRESSED_SRGB8_ALPHA8_ASTC_6x5_KHR then
    wrap32 (16 * getNumBlocks width height 6 5)
  else if format = GL_COMPRESSED_RGBA_ASTC_6x6_KHR ∨
      format = GL_COMPRESSED_SRGB8_ALPHA8_ASTC_6x6_KHR then
    wrap32 (16 * getNumBlocks width height 6 6)
  else if format = GL_COMPRESSED_RGBA_ASTC_8x5_KHR ∨
      format = GL_COMPRESSED_SRGB8_ALPHA8_ASTC_8x5_KHR then
    wrap32 (16 * getNumBlocks width height 8 5)
  else if format = GL_COMPRESSED_RGBA_ASTC_8x6_KHR ∨
      format = GL_COMPRESSED_SRGB8_ALPHA8_ASTC_8x6_KHR then
    wrap32 (16 * getNumBlocks width height 8 6)
  else if format = GL_COMPRESSED_RGBA_ASTC_8x8_KHR ∨
      format = GL_COMPRESSED_SRGB8_ALPHA8_ASTC_8x8_KHR then
    wrap32 (16 * getNumBlocks width height 8 8)
  else if format = GL_COMPRESSED_RGBA_ASTC_10x5_KHR ∨
      format = GL_COMPRESSED_SRGB8_ALPHA8_ASTC_10x5_KHR then
    wrap32 (16 * getNumBlocks width height 10 5)
  else if format = GL_COMPRESSED_RGBA_ASTC_10x6_KHR ∨
      format = GL_COMPRESSED_SRGB8_ALPHA8_ASTC_10x6_KHR then
    wrap32 (16 * getNumBlocks width height 10 6)
  else if format = GL_COMPRESSED_RGBA_ASTC_10x8_KHR ∨
      format = GL_COMPRESSED_SRGB8_ALPHA8_ASTC_10x8_KHR then
    wrap32 (16 * getNumBlocks width height 10 8)
  else if format = GL_COMPRESSED_RGBA_ASTC_10x10_KHR ∨
      format = GL_COMPRESSED_SRGB8_ALPHA8_ASTC_10x10_KHR then
    wrap32 (16 * getNumBlocks width height 10 10)
  else if format = GL_COMPRESSED_RGBA_ASTC_12x10_KHR ∨
      format = GL_COMPRESSED_SRGB8_ALPHA8_ASTC_12x10_KHR then
    wrap32 (16 * getNumBlocks width height 12 10)
  else if format = GL_COMPRESSED_RGBA_ASTC_12x12_KHR ∨
      format = GL_COMPRESSED_SRGB8_ALPHA8_ASTC_12x12_KHR then
    wrap32 (16 * getNumBlocks width height 12 12)
  else 0

/-- `ComputeCompressedPitch(width, format)` (`Image.cpp`, lines 1022-1025). -/
def ComputeCompressedPitch (width : Int) (format : Nat) : Int :=
  ComputeCompressedSize width 1 format

/-! ## Memory and row transcoders

Client memory and a locked plane are lists of bytes; a pointer is an offset into such a
list, and adding an `int` to a pointer adds its value exactly. An access outside the list
has no result (`none`). The `int` expressions that address memory are evaluated as `int`:
the byte count `width * N` passed to `memcpy`, and the row and slice offsets
`z * inputPitch * inputHeight`, `y * inputPitch`, `z * destSlice` and `y * destPitch` of
`LoadImageData`. Inside a row loop pixel `x` is reached by indexing the typed row pointer,
and its index is the exact integer. Lanes wider than a byte are read and written in
little-endian order, the order of the hosts the library is built for. -/

/-- An `unsigned char`. -/
abbrev Byte := Fin 256

/-- Conversion of an integer value to `unsigned char`. -/
def toByte (e : Nat) : Byte := Fin.ofNat e

/-- The value of a lane, from its bytes in memory order. -/
def wordLE (p : List Byte) : Nat := p.foldr (fun b acc => b.val + 256 * acc) 0

/-- The `n` bytes of a lane holding `v`, in memory order. -/
def bytesLE (n v : Nat) : List Byte := (List.range n).map fun i => toByte (v / 256 ^ i)

/-- State threaded through a transcoder: the destination plane, and the log of the client
addresses read so far, oldest first. -/
structure Run where
  dest : List Byte
  reads : List Int
deriving DecidableEq, Repr

/-- The addresses `a, a + 1, .., a + n - 1`. -/
def addresses (a : Int) (n : Nat) : List Int :=
  (List.range n).map fun (i : Nat) => a + (i : Int)

/-- The `n` bytes at address `a` of `client`. -/
def readBytes (client : List Byte) (a : Int) (n : Nat) : Option (List Byte) :=
  if 0 ≤ a ∧ a.toNat + n ≤ client.length then some ((client.drop a.toNat).take n) else none

/-- The plane `m` after the bytes `bs` are stored at address `a`. -/
def writeBytes (m : List Byte) (a : Int) (bs : List Byte) : Option (List Byte) :=
  if 0 ≤ a ∧ a.toNat + bs.length ≤ m.length then
    some (m.take a.toNat ++ bs ++ m.drop (a.toNat + bs.length))
  else none

/-- One step of a transcoder: read `n` client bytes at `source`, store `f` of them at
`dest`, log the addresses read. -/
def transfer (client : List Byte) (source : Int) (n : Nat) (f : List Byte → List Byte)
    (dest : Int) (r : Run) : Option Run :=
  match readBytes client source n with
  | none => none
  | some ins =>
    match writeBytes r.dest dest (f ins) with
    | none => none
    | some d => some { dest := d, reads := r.reads ++ addresses source n }

/-- The call `memcpy(dest, source, n)` from client memory into the destination plane; `n`
is the value of the `int` argument. The conversion to `size_t` leaves it unchanged when
it is not negative; a negative `n` becomes a count of at least `2^64 - 2^31` bytes, more
than a buffer holds, and the call has no result. -/
def memcpy (client : List Byte) (dest source : Int) (n : Int) (r : Run) : Option Run :=
  if n < 0 then none else transfer client source n.toNat id dest r

/-- The loop `for(int x = 0; x < n; x++) body(x)`. -/
def forLoop (n : Int) (body : Int → Run → Option Run) (r : Run) : Option Run :=
  (List.range n.toNat).foldlM (fun (r : Run) (x : Nat) => body (x : Int) r) r

/-- One step of the binary search of `ilog2`: when `2^s` does not exceed the running
quotient, divide by it and count `s` more bits. -/
def ilog2Step (acc : Nat × Nat) (s : Nat) : Nat × Nat :=
  if 2 ^ s ≤ acc.1 then (acc.1 / 2 ^ s, acc.2 + s) else acc

/-- The position of the highest set bit of `x < 2^256` (`0` for `x = 0`); `255` for a
larger `x`. -/
def ilog2 (x : Nat) : Nat := ([128, 64, 32, 16, 8, 4, 2, 1].foldl ilog2Step (x, 0)).2

/-- The quotient `n / d` rounded to the nearest integer, a tie going to the even one. -/
def roundHalfEven (n d : Nat) : Nat :=
  let q := n / d
  let r := n % d
  if 2 * r < d then q else if d < 2 * r then q + 1 else if q % 2 = 0 then q else q + 1

/-- Bits of the `float` nearest to the quotient `n / d` (with `d` not zero), a tie going
to the even significand: the rounding of IEEE 754 binary32 arithmetic in its default
mode, by which a conversion to `float` and a `float` division deliver their results on
the hosts the library is built for. `E` is the biased exponent of the binade the
quotient lies in (`1` below the normal range) and `m` the quotient in units of the
spacing `2^(E - 150)` of that binade, rounded; a significand that rounds up to `2^24`
carries into the exponent field, and a result past the largest finite value is the
infinity `0x7F800000`. -/
def roundBinary32 (n d : Nat) : Nat :=
  let E := max (ilog2 (n * 2 ^ 127 / d)) 1
  let m := if E ≤ 150 then roundHalfEven (n * 2 ^ (150 - E)) d
    else roundHalfEven n (d * 2 ^ (E - 150))
  min ((E - 1) * 2 ^ 23 + m) 0x7F800000

/-- The magnitude of a finite `float` of the given bits, in units of `2^-149`. -/
def binary32Scaled (bits : Nat) : Nat :=
  if bits / 2 ^ 23 % 256 = 0 then bits % 2 ^ 23
  else (2 ^ 23 + bits % 2 ^ 23) * 2 ^ (bits / 2 ^ 23 % 256 - 1)

/-- Bits of `(float)x` for an unsigned integer `x`, and of the `float` an unsigned
integer constant converts to as the right operand of a `float` division. -/
def toFloat (x : Nat) : Nat := roundBinary32 x 1

/-- Bits of `a / b` for the finite, non-negative `float` values of bits `a` and `b`, the
divisor not zero (`Image.cpp`, lines 282, 294 and 306: a converted unsigned integer over
a converted positive constant). -/
def floatDiv (a b : Nat) : Nat := roundBinary32 (binary32Scaled a) (binary32Scaled b)

/-- Modelled from the spec: `sw::clamp`, `sw::half` and the decoders
`sw::R11G11B10F::toRGB16F` and `sw::RGB9E5::toRGB16F` live in `Common/Math.hpp` and
`Common/Half.hpp`, which are not among the sources. The spec names what they compute
("clamped to [0,1]", "unpack to four half-float lanes ... with the alpha lane forced to
1.0"); the embedding takes the bit patterns they produce as parameters. -/
structure FloatOps where
  /-- Bits of `sw::clamp(f, 0.0f, 1.0f)` for the float of bits `f`. -/
  clamp01 : Nat → Nat
  /-- The three half lanes written by `sw::R11G11B10F::toRGB16F`. -/
  r11g11b10f : Nat → Nat × Nat × Nat
  /-- The three half lanes written by `sw::RGB9E5::toRGB16F`. -/
  rgb9e5 : Nat → Nat × Nat × Nat
  /-- Bits of the `sw::half` assigned from `1.0f`. -/
  halfOfOne : Nat

/-- Bits of the `float` constant `1.0f` (IEEE 754 binary32). -/
def floatOne : Nat := 0x3F800000

/-- The enumeration `DataType` (`Image.cpp`, lines 34-60). -/
inductive DataType where
  | Bytes_1 | Bytes_2 | Bytes_4 | Bytes_8 | Bytes_16
  | ByteRGB | UByteRGB | ShortRGB | UShortRGB | IntRGB | UIntRGB | FloatRGB | HalfFloatRGB
  | RGBA4444 | RGBA5551 | R11G11B10F | RGB9E5
  | D16 | D24 | D32 | D32F | D32FS8 | S8 | S24_8
deriving DecidableEq, Repr

/-- The four bytes `LoadImageRow<RGBA4444>` stores for the source pixel `rgba`
(`Image.cpp`, lines 225-228). -/
def unpackRGBA4444 (rgba : Nat) : List Byte :=
  [toByte (((rgba &&& 0x00F0) <<< 0) ||| ((rgba &&& 0x00F0) >>> 4)),
   toByte (((rgba &&& 0x0F00) >>> 4) ||| ((rgba &&& 0x0F00) >>> 8)),
   toByte (((rgba &&& 0xF000) >>> 8) ||| ((rgba &&& 0xF000) >>> 12)),
   toByte (((rgba &&& 0x000F) <<< 4) ||| ((rgba &&& 0x000F) >>> 0))]

/-- The four bytes `LoadImageRow<RGBA5551>` stores for the source pixel `rgba`
(`Image.cpp`, lines 241-244). -/
def unpackRGBA5551 (rgba : Nat) : List Byte :=
  [toByte (((rgba &&& 0x003E) <<< 2) ||| ((rgba &&& 0x003E) >>> 3)),
   toByte (((rgba &&& 0x07C0) >>> 3) ||| ((rgba &&& 0x07C0) >>> 8)),
   toByte (((rgba &&& 0xF800) >>> 8) ||| ((rgba &&& 0xF800) >>> 13)),
   toByte (if rgba &&& 0x0001 ≠ 0 then 0xFF else 0)]

/-- The half lanes a packed-float decoder yields, followed by the alpha lane `1.0f`
(`Image.cpp`, lines 256-257 and 269-270). -/
def halfLanes (fp : FloatOps) (rgb : Nat × Nat × Nat) : List Byte :=
  bytesLE 2 rgb.1 ++ bytesLE 2 rgb.2.1 ++ bytesLE 2 rgb.2.2 ++ bytesLE 2 fp.halfOfOne

/-- `LoadImageRow<dataType>(source, dest, width)` (`Image.cpp`, lines 68-358). The
`Bytes_N` cases pass the `int` product `width * N` to `memcpy`. In each loop body the
client bytes of pixel `x` are read at the address of the first source lane used and the
lanes stored for pixel `x` are written at the address of the first destination lane, in
index order. -/
def LoadImageRow (fp : FloatOps) (dataType : DataType) (client : List Byte)
    (source dest : Int) (width : Int) (r : Run) : Option Run :=
  match dataType with
  | .Bytes_1 => memcpy client dest source width r
  | .Bytes_2 => memcpy client dest source (wrap32 (width * 2)) r
  | .Bytes_4 => memcpy client dest source (wrap32 (width * 4)) r
  | .Bytes_8 => memcpy client dest source (wrap32 (width * 8)) r
  | .Bytes_16 => memcpy client dest source (wrap32 (width * 16)) r
  | .ByteRGB =>
    forLoop width (fun x => transfer client (source + (x * 3 + 0)) 3
      (fun p => p ++ [0x7F]) (dest + (4 * x + 0))) r
  | .UByteRGB =>
    forLoop width (fun x => transfer client (source + (x * 3 + 0)) 3
      (fun p => p ++ [0xFF]) (dest + (4 * x + 0))) r
  | .ShortRGB =>
    forLoop width (fun x => transfer client (source + 2 * (x * 3 + 0)) 6
      (fun p => p ++ bytesLE 2 0x7FFF) (dest + 2 * (4 * x + 0))) r
  | .UShortRGB =>
    forLoop width (fun x => transfer client (source + 2 * (x * 3 + 0)) 6
      (fun p => p ++ bytesLE 2 0xFFFF) (dest + 2 * (4 * x + 0))) r
  | .IntRGB =>
    forLoop width (fun x => transfer client (source + 4 * (x * 3 + 0)) 12
      (fun p => p ++ bytesLE 4 0x7FFFFFFF) (dest + 4 * (4 * x + 0))) r
  | .UIntRGB =>
    forLoop width (fun x => transfer client (source + 4 * (x * 3 + 0)) 12
      (fun p => p ++ bytesLE 4 0xFFFFFFFF) (dest + 4 * (4 * x + 0))) r
  | .FloatRGB =>
    forLoop width (fun x => transfer client (source + 4 * (x * 3 + 0)) 12
      (fun p => p ++ bytesLE 4 floatOne) (dest + 4 * (4 * x + 0))) r
  | .HalfFloatRGB =>
    forLoop width (fun x => transfer client (source + 2 * (x * 3 + 0)) 6
      (fun p => p ++ bytesLE 2 0x3C00) (dest + 2 * (4 * x + 0))) r
  | .RGBA4444 =>
    forLoop width (fun x => transfer client (source + 2 * x) 2
      (fun p => unpackRGBA4444 (wordLE p)) (dest + (4 * x + 0))) r
  | .RGBA5551 =>
    forLoop width (fun x => transfer client (source + 2 * x) 2
      (fun p => unpackRGBA5551 (wordLE p)) (dest + (4 * x + 0))) r
  | .R11G11B10F =>
    forLoop width (fun x => transfer client (source + 4 * x) 4
      (fun p => halfLanes fp (fp.r11g11b10f (wordLE p))) (dest + 2 * (4 * x))) r
  | .RGB9E5 =>
    forLoop width (fun x => transfer client (source + 4 * x) 4
      (fun p => halfLanes fp (fp.rgb9e5 (wordLE p))) (dest + 2 * (4 * x))) r
  | .D16 =>
    forLoop width (fun x => transfer client (source + 2 * x) 2
      (fun p => bytesLE 4 (floatDiv (toFloat (wordLE p)) (toFloat 0xFFFF))) (dest + 4 * x)) r
  | .D24 =>
    forLoop width (fun x => transfer client (source + 4 * x) 4
      (fun p => bytesLE 4 (floatDiv (toFloat (wordLE p &&& 0xFFFFFF00)) (toFloat 0xFFFFFF00)))
      (dest + 4 * x)) r
  | .D32 =>
    forLoop width (fun x => transfer client (source + 4 * x) 4
      (fun p => bytesLE 4 (floatDiv (toFloat (wordLE p)) (toFloat 0xFFFFFFFF))) (dest + 4 * x)) r
  | .S8 =>
    forLoop width (fun x => transfer client (source + 4 * x) 4
      (fun p => [toByte (wordLE p &&& 0x000000FF)]) (dest + x)) r
  | .D32F =>
    forLoop width (fun x => transfer client (source + 4 * x) 4
      (fun p => bytesLE 4 (fp.clamp01 (wordLE p))) (dest + 4 * x)) r
  | .D32FS8 =>
    forLoop width (fun x => transfer client (source + 8 * x) 4
      (fun p => bytesLE 4 (fp.clamp01 (wordLE p))) (dest + 4 * x)) r
  | .S24_8 =>
    forLoop width (fun x => transfer client (source + (8 * x + 4)) 4
      (fun p => [toByte (wordLE p &&& 0x000000FF)]) (dest + x)) r

/-- `LoadImageData<dataType>(width, height, depth, inputPitch, inputHeight, destPitch,
destSlice, input, buffer)` (`Image.cpp`, lines 360-375). The four offsets are products of
`int` operands, evaluated as `int` before they are added to the pointers. -/
def LoadImageData (fp : FloatOps) (dataType : DataType) (client : List Byte)
    (width height depth inputPitch inputHeight destPitch destSlice : Int)
    (input buffer : Int) (r : Run) : Option Run :=
  forLoop depth (fun z r =>
    let inputStart := input + wrap32 (wrap32 (z * inputPitch) * inputHeight)
    let destStart := buffer + wrap32 (z * destSlice)
    forLoop height (fun y r =>
      let source := inputStart + wrap32 (y * inputPitch)
      let dest := destStart + wrap32 (y * destPitch)
      LoadImageRow fp dataType client source dest width r) r) r

/-- Modelled from the spec: the enumeration `sw::Format` is declared in
`Renderer/Surface.hpp`, which is not among the sources. Its values named in `Image.cpp`
are the constructors below; `FORMAT_OTHER` stands for the internal formats `Image.cpp`
never names. Formats are only ever compared with a named one. -/
inductive Format where
  | FORMAT_NULL | FORMAT_L8 | FORMAT_L16F | FORMAT_L32F | FORMAT_A8L8 | FORMAT_A16L16F
  | FORMAT_A32L32F | FORMAT_A8B8G8R8 | FORMAT_R4G4B4A4 | FORMAT_R5G5B5A1 | FORMAT_A16B16G16R16F
  | FORMAT_A32B32G32R32F | FORMAT_A8R8G8B8 | FORMAT_A4R4G4B4 | FORMAT_A1R5G5B5 | FORMAT_B8G8R8
  | FORMAT_R5G6B5 | FORMAT_B16G16R16F | FORMAT_B32G32R32F | FORMAT_G8R8 | FORMAT_G16R16F
  | FORMAT_G32R32F | FORMAT_R8 | FORMAT_R16F | FORMAT_R32F | FORMAT_A8 | FORMAT_A16F
  | FORMAT_A32F | FORMAT_R32I | FORMAT_R32UI | FORMAT_G32R32I | FORMAT_G32R32UI
  | FORMAT_A32B32G32R32I | FORMAT_A32B32G32R32UI | FORMAT_A2B10G10R10UI | FORMAT_D16
  | FORMAT_D24S8 | FORMAT_D32 | FORMAT_D32F_LOCKABLE | FORMAT_ETC1 | FORMAT_R11_EAC
  | FORMAT_SIGNED_R11_EAC | FORMAT_RG11_EAC | FORMAT_SIGNED_RG11_EAC | FORMAT_RGB8_ETC2
  | FORMAT_SRGB8_ETC2 | FORMAT_RGB8_PUNCHTHROUGH_ALPHA1_ETC2
  | FORMAT_SRGB8_PUNCHTHROUGH_ALPHA1_ETC2 | FORMAT_RGBA8_ETC2_EAC
  | FORMAT_SRGB8_ALPHA8_ETC2_EAC | FORMAT_RGBA_ASTC_4x4_KHR | FORMAT_RGBA_ASTC_5x4_KHR
  | FORMAT_RGBA_ASTC_5x5_KHR | FORMAT_RGBA_ASTC_6x5_KHR | FORMAT_RGBA_ASTC_6x6_KHR
  | FORMAT_RGBA_ASTC_8x5_KHR | FORMAT_RGBA_ASTC_8x6_KHR | FORMAT_RGBA_ASTC_8x8_KHR
  | FORMAT_RGBA_ASTC_10x5_KHR | FORMAT_RGBA_ASTC_10x6_KHR | FORMAT_RGBA_ASTC_10x8_KHR
  | FORMAT_RGBA_ASTC_10x10_KHR | FORMAT_RGBA_ASTC_12x10_KHR | FORMAT_RGBA_ASTC_12x12_KHR
  | FORMAT_SRGB8_ALPHA8_ASTC_4x4_KHR | FORMAT_SRGB8_ALPHA8_ASTC_5x4_KHR
  | FORMAT_SRGB8_ALPHA8_ASTC_5x5_KHR | FORMAT_SRGB8_ALPHA8_ASTC_6x5_KHR
  | FORMAT_SRGB8_ALPHA8_ASTC_6x6_KHR | FORMAT_SRGB8_ALPHA8_ASTC_8x5_KHR
  | FORMAT_SRGB8_ALPHA8_ASTC_8x6_KHR | FORMAT_SRGB8_ALPHA8_ASTC_8x8_KHR
  | FORMAT_SRGB8_ALPHA8_ASTC_10x5_KHR | FORMAT_SRGB8_ALPHA8_ASTC_10x6_KHR
  | FORMAT_SRGB8_ALPHA8_ASTC_10x8_KHR | FORMAT_SRGB8_ALPHA8_ASTC_10x10_KHR
  | FORMAT_SRGB8_ALPHA8_ASTC_12x10_KHR | FORMAT_SRGB8_ALPHA8_ASTC_12x12_KHR | FORMAT_DXT1
  | FORMAT_DXT3 | FORMAT_DXT5 | FORMAT_X32B32G32R32F | FORMAT_X16B16G16R16F_UNSIGNED
  | FORMAT_X16B16G16R16F | FORMAT_D32F | FORMAT_R8_SNORM | FORMAT_R8I | FORMAT_G8R8_SNORM
  | FORMAT_G8R8I | FORMAT_X8B8G8R8_SNORM | FORMAT_X8B8G8R8I | FORMAT_A8B8G8R8_SNORM
  | FORMAT_A8B8G8R8I | FORMAT_R8UI | FORMAT_G8R8UI | FORMAT_X8B8G8R8 | FORMAT_SRGB8_X8
  | FORMAT_X8B8G8R8UI | FORMAT_SRGB8_A8 | FORMAT_A8B8G8R8UI | FORMAT_YV12_BT601
  | FORMAT_YV12_BT709 | FORMAT_YV12_JFIF | FORMAT_R16I | FORMAT_G16R16I | FORMAT_X16B16G16R16I
  | FORMAT_A16B16G16R16I | FORMAT_R16UI | FORMAT_G16R16UI | FORMAT_X16B16G16R16UI
  | FORMAT_A16B16G16R16UI | FORMAT_X32B32G32R32I | FORMAT_X32B32G32R32UI
  | FORMAT_D32FS8_TEXTURE | FORMAT_A2B10G10R10
  | FORMAT_OTHER
deriving DecidableEq, Repr

/-- The path on which an `UNREACHABLE` was passed before the result `c` was produced. -/
def Checked.fault {α : Type} (c : Checked α) : Checked α := ⟨c.value, true⟩

/-- `ConvertFormatType(format, type)` (`Image.cpp`, lines 380-525). Every `UNREACHABLE`
is followed by `break` and the final `return sw::FORMAT_NULL`. -/
def ConvertFormatType (format type : Nat) : Checked Format :=
  if format = GL_LUMINANCE then
    if type = GL_UNSIGNED_BYTE then .ok .FORMAT_L8
    else if type = GL_HALF_FLOAT then .ok .FORMAT_L16F
    else if type = GL_HALF_FLOAT_OES then .ok .FORMAT_L16F
    else if type = GL_FLOAT then .ok .FORMAT_L32F
    else .unreachable .FORMAT_NULL
  else if format = GL_LUMINANCE8_EXT then .ok .FORMAT_L8
  else if format = GL_LUMINANCE16F_EXT then .ok .FORMAT_L16F
  else if format = GL_LUMINANCE32F_EXT then .ok .FORMAT_L32F
  else if format = GL_LUMINANCE_ALPHA then
    if type = GL_UNSIGNED_BYTE then .ok .FORMAT_A8L8
    else if type = GL_HALF_FLOAT then .ok .FORMAT_A16L16F
    else if type = GL_HALF_FLOAT_OES then .ok .FORMAT_A16L16F
    else if type = GL_FLOAT then .ok .FORMAT_A32L32F
    else .unreachable .FORMAT_NULL
  else if format = GL_LUMINANCE8_ALPHA8_EXT then .ok .FORMAT_A8L8
  else if format = GL_LUMINANCE_ALPHA16F_EXT then .ok .FORMAT_A16L16F
  else if format = GL_LUMINANCE_ALPHA32F_EXT then .ok .FORMAT_A32L32F
  else if format = GL_RGBA then
    if type = GL_UNSIGNED_BYTE then .ok .FORMAT_A8B8G8R8
    else if type = GL_UNSIGNED_SHORT_4_4_4_4 then .ok .FORMAT_R4G4B4A4
    else if type = GL_UNSIGNED_SHORT_5_5_5_1 then .ok .FORMAT_R5G5B5A1
    else if type = GL_HALF_FLOAT then .ok .FORMAT_A16B16G16R16F
    else if type = GL_HALF_FLOAT_OES then .ok .FORMAT_A16B16G16R16F
    else if type = GL_FLOAT then .ok .FORMAT_A32B32G32R32F
    else .unreachable .FORMAT_NULL
  else if format = GL_BGRA_EXT ∨ format = GL_BGRA8_EXT then
    if type = GL_UNSIGNED_BYTE then .ok .FORMAT_A8R8G8B8
    else if type = GL_UNSIGNED_SHORT_4_4_4_4_REV_EXT then .ok .FORMAT_A4R4G4B4
    else if type = GL_UNSIGNED_SHORT_1_5_5_5_REV_EXT then .ok .FORMAT_A1R5G5B5
    else .unreachable .FORMAT_NULL
  else if format = GL_RGB then
    if type = GL_UNSIGNED_BYTE then .ok .FORMAT_B8G8R8
    else if type = GL_UNSIGNED_SHORT_5_6_5 then .ok .FORMAT_R5G6B5
    else if type = GL_HALF_FLOAT then .ok .FORMAT_B16G16R16F
    else if type = GL_HALF_FLOAT_OES then .ok .FORMAT_B16G16R16F
    else if type = GL_FLOAT then .ok .FORMAT_B32G32R32F
    else .unreachable .FORMAT_NULL
  else if format = GL_RG then
    if type = GL_UNSIGNED_BYTE then .ok .FORMAT_G8R8
    else if type = GL_HALF_FLOAT then .ok .FORMAT_G16R16F
    else if type = GL_HALF_FLOAT_OES then .ok .FORMAT_G16R16F
    else if type = GL_FLOAT then .ok .FORMAT_G32R32F
    else .unreachable .FORMAT_NULL
  else if format = GL_RED then
    if type = GL_UNSIGNED_BYTE then .ok .FORMAT_R8
    else if type = GL_HALF_FLOAT then .ok .FORMAT_R16F
    else if type = GL_HALF_FLOAT_OES then .ok .FORMAT_R16F
    else if type = GL_FLOAT then .ok .FORMAT_R32F
    else .unreachable .FORMAT_NULL
  else if format = GL_ALPHA then
    if type = GL_UNSIGNED_BYTE then .ok .FORMAT_A8
    else if type = GL_HALF_FLOAT then .ok .FORMAT_A16F
    else if type = GL_HALF_FLOAT_OES then .ok .FORMAT_A16F
    else if type = GL_FLOAT then .ok .FORMAT_A32F
    else .unreachable .FORMAT_NULL
  else if format = GL_ALPHA8_EXT then .ok .FORMAT_A8
  else if format = GL_ALPHA16F_EXT then .ok .FORMAT_A16F
  else if format = GL_ALPHA32F_EXT then .ok .FORMAT_A32F
  else if format = GL_RED_INTEGER then
    if type = GL_INT then .ok .FORMAT_R32I
    else if type = GL_UNSIGNED_INT then .ok .FORMAT_R32UI
    else .unreachable .FORMAT_NULL
  else if format = GL_RG_INTEGER then
    if type = GL_INT then .ok .FORMAT_G32R32I
    else if type = GL_UNSIGNED_INT then .ok .FORMAT_G32R32UI
    else .unreachable .FORMAT_NULL
  else if format = GL_RGBA_INTEGER then
    if type = GL_INT then .ok .FORMAT_A32B32G32R32I
    else if type = GL_UNSIGNED_INT then .ok .FORMAT_A32B32G32R32UI
    else if type = GL_UNSIGNED_INT_2_10_10_10_REV then .ok .FORMAT_A2B10G10R10UI
    else .unreachable .FORMAT_NULL
  else if format = GL_DEPTH_COMPONENT then
    if type = GL_UNSIGNED_SHORT then .ok .FORMAT_D16
    else if type = GL_UNSIGNED_INT_24_8_OES then .ok .FORMAT_D24S8
    else if type = GL_UNSIGNED_INT then .ok .FORMAT_D32
    else if type = GL_FLOAT then .ok .FORMAT_D32F_LOCKABLE
    else .unreachable .FORMAT_NULL
  else .unreachable .FORMAT_NULL

/-- The case `GL_FLOAT_32_UNSIGNED_INT_24_8_REV` of `SelectInternalFormat` (lines 871-876);
past its `UNREACHABLE` execution falls into the case `GL_UNSIGNED_SHORT_4_4_4_4`. -/
def SelectInternalFormat.caseFloat32UnsignedInt248Rev (format : Nat) : Checked Format :=
  if format = GL_DEPTH_STENCIL ∨ format = GL_DEPTH32F_STENCIL8 then .ok .FORMAT_D32FS8_TEXTURE
  else (Checked.ok Format.FORMAT_A8R8G8B8).fault

/-- The case `GL_UNSIGNED_INT_24_8_OES` of `SelectInternalFormat` (lines 865-870); past its
`UNREACHABLE` execution falls into the next case. -/
def SelectInternalFormat.caseUnsignedInt248 (format : Nat) : Checked Format :=
  if format = GL_DEPTH_STENCIL ∨ format = GL_DEPTH24_STENCIL8 then .ok .FORMAT_D32FS8_TEXTURE
  else (SelectInternalFormat.caseFloat32UnsignedInt248Rev format).fault

/-- The case `GL_UNSIGNED_INT` of `SelectInternalFormat` (lines 842-864): the inner
`switch(format)` has no `break` after its `UNREACHABLE`, so execution falls into the next
case of `switch(type)`. -/
def SelectInternalFormat.caseUnsignedInt (format : Nat) : Checked Format :=
  if format = GL_RED_INTEGER ∨ format = GL_R32UI then .ok .FORMAT_R32UI
  else if format = GL_RG_INTEGER ∨ format = GL_RG32UI then .ok .FORMAT_G32R32UI
  else if format = GL_RGB_INTEGER ∨ format = GL_RGB32UI then .ok .FORMAT_X32B32G32R32UI
  else if format = GL_RGBA_INTEGER ∨ format = GL_RGBA32UI then .ok .FORMAT_A32B32G32R32UI
  else if format = GL_DEPTH_COMPONENT ∨ format = GL_DEPTH_COMPONENT16 ∨
      format = GL_DEPTH_COMPONENT24 ∨ format = GL_DEPTH_COMPONENT32_OES then
    .ok .FORMAT_D32F_LOCKABLE
  else (SelectInternalFormat.caseUnsignedInt248 format).fault

/-- The case `GL_INT` of `SelectInternalFormat` (lines 824-841): the inner
`switch(format)` has no `break` after its `UNREACHABLE`, so execution falls into the next
case of `switch(type)`. -/
def SelectInternalFormat.caseInt (format : Nat) : Checked Format :=
  if format = GL_RED_INTEGER ∨ format = GL_R32I then .ok .FORMAT_R32I
  else if format = GL_RG_INTEGER ∨ format = GL_RG32I then .ok .FORMAT_G32R32I
  else if format = GL_RGB_INTEGER ∨ format = GL_RGB32I then .ok .FORMAT_X32B32G32R32I
  else if format = GL_RGBA_INTEGER ∨ format = GL_RGBA32I then .ok .FORMAT_A32B32G32R32I
  else (SelectInternalFormat.caseUnsignedInt format).fault

/-- The case `GL_UNSIGNED_SHORT` of `SelectInternalFormat` (lines 803-823): the inner
`switch(format)` has no `break` after its `UNREACHABLE`, so execution falls into the next
case of `switch(type)`. -/
def SelectInternalFormat.caseUnsignedShort (format : Nat) : Checked Format :=
  if format = GL_R16UI ∨ format = GL_RED_INTEGER then .ok .FORMAT_R16UI
  else if format = GL_RG16UI ∨ format = GL_RG_INTEGER then .ok .FORMAT_G16R16UI
  else if format = GL_RGB16UI ∨ format = GL_RGB_INTEGER then .ok .FORMAT_X16B16G16R16UI
  else if format = GL_RGBA16UI ∨ format = GL_RGBA_INTEGER then .ok .FORMAT_A16B16G16R16UI
  else if format = GL_DEPTH_COMPONENT ∨ format = GL_DEPTH_COMPONENT16 then
    .ok .FORMAT_D32F_LOCKABLE
  else (SelectInternalFormat.caseInt format).fault

/-- The case `GL_SHORT` of `SelectInternalFormat` (lines 785-802): the inner
`switch(format)` has no `break` after its `UNREACHABLE`, so execution falls into the next
case of `switch(type)`. -/
def SelectInternalFormat.caseShort (format : Nat) : Checked Format :=
  if format = GL_R16I ∨ format = GL_RED_INTEGER then .ok .FORMAT_R16I
  else if format = GL_RG16I ∨ format = GL_RG_INTEGER then .ok .FORMAT_G16R16I
  else if format = GL_RGB16I ∨ format = GL_RGB_INTEGER then .ok .FORMAT_X16B16G16R16I
  else if format = GL_RGBA16I ∨ format = GL_RGBA_INTEGER then .ok .FORMAT_A16B16G16R16I
  else (SelectInternalFormat.caseUnsignedShort format).fault

/-- The case `GL_UNSIGNED_BYTE` of `SelectInternalFormat` (lines 728-784): the inner
`switch(format)` has no `break` after its `UNREACHABLE`, so execution falls into the next
case of `switch(type)`. -/
def SelectInternalFormat.caseUnsignedByte (format : Nat) : Checked Format :=
  if format = GL_LUMINANCE ∨ format = GL_LUMINANCE8_EXT then .ok .FORMAT_L8
  else if format = GL_LUMINANCE_ALPHA ∨ format = GL_LUMINANCE8_ALPHA8_EXT then .ok .FORMAT_A8L8
  else if format = GL_R8_SNORM then .ok .FORMAT_R8_SNORM
  else if format = GL_R8 ∨ format = GL_RED then .ok .FORMAT_R8
  else if format = GL_R8UI ∨ format = GL_RED_INTEGER then .ok .FORMAT_R8UI
  else if format = GL_RG8_SNORM ∨ format = GL_RG8 ∨ format = GL_RG then .ok .FORMAT_G8R8
  else if format = GL_RG8UI ∨ format = GL_RG_INTEGER then .ok .FORMAT_G8R8UI
  else if format = GL_RGB8_SNORM ∨ format = GL_RGB8 ∨ format = GL_RGB then .ok .FORMAT_X8B8G8R8
  else if format = GL_SRGB8 then .ok .FORMAT_SRGB8_X8
  else if format = GL_RGB8UI ∨ format = GL_RGB_INTEGER then .ok .FORMAT_X8B8G8R8UI
  else if format = GL_RGBA8_SNORM ∨ format = GL_RGBA8 ∨ format = GL_RGBA then
    .ok .FORMAT_A8B8G8R8
  else if format = GL_SRGB8_ALPHA8 then .ok .FORMAT_SRGB8_A8
  else if format = GL_RGBA8UI ∨ format = GL_RGBA_INTEGER then .ok .FORMAT_A8B8G8R8UI
  else if format = GL_BGRA_EXT ∨ format = GL_BGRA8_EXT then .ok .FORMAT_A8R8G8B8
  else if format = GL_ALPHA ∨ format = GL_ALPHA8_EXT then .ok .FORMAT_A8
  else if format = SW_YV12_BT601 then .ok .FORMAT_YV12_BT601
  else if format = SW_YV12_BT709 then .ok .FORMAT_YV12_BT709
  else if format = SW_YV12_JFIF then .ok .FORMAT_YV12_JFIF
  else (SelectInternalFormat.caseShort format).fault

/-- The case `GL_BYTE` of `SelectInternalFormat` (lines 694-727): the inner
`switch(format)` has no `break` after its `UNREACHABLE`, so execution falls into the next
case of `switch(type)`. -/
def SelectInternalFormat.caseByte (format : Nat) : Checked Format :=
  if format = GL_R8_SNORM ∨ format = GL_R8 ∨ format = GL_RED then .ok .FORMAT_R8_SNORM
  else if format = GL_R8I ∨ format = GL_RED_INTEGER then .ok .FORMAT_R8I
  else if format = GL_RG8_SNORM ∨ format = GL_RG8 ∨ format = GL_RG then .ok .FORMAT_G8R8_SNORM
  else if format = GL_RG8I ∨ format = GL_RG_INTEGER then .ok .FORMAT_G8R8I
  else if format = GL_RGB8_SNORM ∨ format = GL_RGB8 ∨ format = GL_RGB then
    .ok .FORMAT_X8B8G8R8_SNORM
  else if format = GL_RGB8I ∨ format = GL_RGB_INTEGER then .ok .FORMAT_X8B8G8R8I
  else if format = GL_RGBA8_SNORM ∨ format = GL_RGBA8 ∨ format = GL_RGBA then
    .ok .FORMAT_A8B8G8R8_SNORM
  else if format = GL_RGBA8I ∨ format = GL_RGBA_INTEGER then .ok .FORMAT_A8B8G8R8I
  else (SelectInternalFormat.caseUnsignedByte format).fault

/-- The case `GL_HALF_FLOAT` of `SelectInternalFormat` (lines 663-693): the inner
`switch(format)` has no `break` after its `UNREACHABLE`, so execution falls into the next
case of `switch(type)`. -/
def SelectInternalFormat.caseHalfFloat (format : Nat) : Checked Format :=
  if format = GL_ALPHA ∨ format = GL_ALPHA16F_EXT then .ok .FORMAT_A16F
  else if format = GL_LUMINANCE ∨ format = GL_LUMINANCE16F_EXT then .ok .FORMAT_L16F
  else if format = GL_LUMINANCE_ALPHA ∨ format = GL_LUMINANCE_ALPHA16F_EXT then
    .ok .FORMAT_A16L16F
  else if format = GL_RED ∨ format = GL_R16F then .ok .FORMAT_R16F
  else if format = GL_RG ∨ format = GL_RG16F then .ok .FORMAT_G16R16F
  else if format = GL_RGBA ∨ format = GL_RGBA16F then .ok .FORMAT_A16B16G16R16F
  else if format = GL_RGB ∨ format = GL_RGB16F then .ok .FORMAT_X16B16G16R16F
  else if format = GL_R11F_G11F_B10F ∨ format = GL_RGB9_E5 then
    .ok .FORMAT_X16B16G16R16F_UNSIGNED
  else (SelectInternalFormat.caseByte format).fault

/-- The case `GL_FLOAT` of `SelectInternalFormat` (lines 622-662): the inner
`switch(format)` has no `break` after its `UNREACHABLE`, so execution falls into the next
case of `switch(type)`. -/
def SelectInternalFormat.caseFloat (format : Nat) : Checked Format :=
  if format = GL_ALPHA ∨ format = GL_ALPHA32F_EXT then .ok .FORMAT_A32F
  else if format = GL_LUMINANCE ∨ format = GL_LUMINANCE32F_EXT then .ok .FORMAT_L32F
  else if format = GL_LUMINANCE_ALPHA ∨ format = GL_LUMINANCE_ALPHA32F_EXT then
    .ok .FORMAT_A32L32F
  else if format = GL_RED ∨ format = GL_R32F then .ok .FORMAT_R32F
  else if format = GL_RG ∨ format = GL_RG32F then .ok .FORMAT_G32R32F
  else if format = GL_RGB ∨ format = GL_RGB32F then .ok .FORMAT_X32B32G32R32F
  else if format = GL_R11F_G11F_B10F ∨ format = GL_RGB9_E5 then
    .ok .FORMAT_X16B16G16R16F_UNSIGNED
  else if format = GL_RGBA ∨ format = GL_RGBA32F then .ok .FORMAT_A32B32G32R32F
  else if format = GL_R16F then .ok .FORMAT_R16F
  else if format = GL_RG16F then .ok .FORMAT_G16R16F
  else if format = GL_RGB16F then .ok .FORMAT_X16B16G16R16F
  else if format = GL_RGBA16F then .ok .FORMAT_A16B16G16R16F
  else if format = GL_DEPTH_COMPONENT ∨ format = GL_DEPTH_COMPONENT32F then .ok .FORMAT_D32F
  else (SelectInternalFormat.caseHalfFloat format).fault

/-- `SelectInternalFormat(format, type)` (`Image.cpp`, lines 527-900). -/
def SelectInternalFormat (format type : Nat) : Checked Format :=
  if format = GL_ETC1_RGB8_OES then .ok .FORMAT_ETC1
  else if format = GL_COMPRESSED_R11_EAC then .ok .FORMAT_R11_EAC
  else if format = GL_COMPRESSED_SIGNED_R11_EAC then .ok .FORMAT_SIGNED_R11_EAC
  else if format = GL_COMPRESSED_RG11_EAC then .ok .FORMAT_RG11_EAC
  else if format = GL_COMPRESSED_SIGNED_RG11_EAC then .ok .FORMAT_SIGNED_RG11_EAC
  else if format = GL_COMPRESSED_RGB8_ETC2 then .ok .FORMAT_RGB8_ETC2
  else if format = GL_COMPRESSED_SRGB8_ETC2 then .ok .FORMAT_SRGB8_ETC2
  else if format = GL_COMPRESSED_RGB8_PUNCHTHROUGH_ALPHA1_ETC2 then
    .ok .FORMAT_RGB8_PUNCHTHROUGH_ALPHA1_ETC2
  else if format = GL_COMPRESSED_SRGB8_PUNCHTHROUGH_ALPHA1_ETC2 then
    .ok .FORMAT_SRGB8_PUNCHTHROUGH_ALPHA1_ETC2
  else if format = GL_COMPRESSED_RGBA8_ETC2_EAC then .ok .FORMAT_RGBA8_ETC2_EAC
  else if format = GL_COMPRESSED_SRGB8_ALPHA8_ETC2_EAC then .ok .FORMAT_SRGB8_ALPHA8_ETC2_EAC
  else if format = GL_COMPRESSED_RGBA_ASTC_4x4_KHR then .ok .FORMAT_RGBA_ASTC_4x4_KHR
  else if format = GL_COMPRESSED_RGBA_ASTC_5x4_KHR then .ok .FORMAT_RGBA_ASTC_5x4_KHR
  else if format = GL_COMPRESSED_RGBA_ASTC_5x5_KHR then .ok .FORMAT_RGBA_ASTC_5x5_KHR
  else if format = GL_COMPRESSED_RGBA_ASTC_6x5_KHR then .ok .FORMAT_RGBA_ASTC_6x5_KHR
  else if format = GL_COMPRESSED_RGBA_ASTC_6x6_KHR then .ok .FORMAT_RGBA_ASTC_6x6_KHR
  else if format = GL_COMPRESSED_RGBA_ASTC_8x5_KHR then .ok .FORMAT_RGBA_ASTC_8x5_KHR
  else if format = GL_COMPRESSED_RGBA_ASTC_8x6_KHR then .ok .FORMAT_RGBA_ASTC_8x6_KHR
  else if format = GL_COMPRESSED_RGBA_ASTC_8x8_KHR then .ok .FORMAT_RGBA_ASTC_8x8_KHR
  else if format = GL_COMPRESSED_RGBA_ASTC_10x5_KHR then .ok .FORMAT_RGBA_ASTC_10x5_KHR
  else if format = GL_COMPRESSED_RGBA_ASTC_10x6_KHR then .ok .FORMAT_RGBA_ASTC_10x6_KHR
  else if format = GL_COMPRESSED_RGBA_ASTC_10x8_KHR then .ok .FORMAT_RGBA_ASTC_10x8_KHR
  else if format = GL_COMPRESSED_RGBA_ASTC_10x10_KHR then .ok .FORMAT_RGBA_ASTC_10x10_KHR
  else if format = GL_COMPRESSED_RGBA_ASTC_12x10_KHR then .ok .FORMAT_RGBA_ASTC_12x10_KHR
  else if format = GL_COMPRESSED_RGBA_ASTC_12x12_KHR then .ok .FORMAT_RGBA_ASTC_12x12_KHR
  else if format = GL_COMPRESSED_SRGB8_ALPHA8_ASTC_4x4_KHR then
    .ok .FORMAT_SRGB8_ALPHA8_ASTC_4x4_KHR
  else if format = GL_COMPRESSED_SRGB8_ALPHA8_ASTC_5x4_KHR then
    .ok .FORMAT_SRGB8_ALPHA8_ASTC_5x4_KHR
  else if format = GL_COMPRESSED_SRGB8_ALPHA8_ASTC_5x5_KHR then
    .ok .FORMAT_SRGB8_ALPHA8_ASTC_5x5_KHR
  else if format = GL_COMPRESSED_SRGB8_ALPHA8_ASTC_6x5_KHR then
    .ok .FORMAT_SRGB8_ALPHA8_ASTC_6x5_KHR
  else if format = GL_COMPRESSED_SRGB8_ALPHA8_ASTC_6x6_KHR then
    .ok .FORMAT_SRGB8_ALPHA8_ASTC_6x6_KHR
  else if format = GL_COMPRESSED_SRGB8_ALPHA8_ASTC_8x5_KHR then
    .ok .FORMAT_SRGB8_ALPHA8_ASTC_8x5_KHR
  else if format = GL_COMPRESSED_SRGB8_ALPHA8_ASTC_8x6_KHR then
    .ok .FORMAT_SRGB8_ALPHA8_ASTC_8x6_KHR
  else if format = GL_COMPRESSED_SRGB8_ALPHA8_ASTC_8x8_KHR then
    .ok .FORMAT_SRGB8_ALPHA8_ASTC_8x8_KHR
  else if format = GL_COMPRESSED_SRGB8_ALPHA8_ASTC_10x5_KHR then
    .ok .FORMAT_SRGB8_ALPHA8_ASTC_10x5_KHR
  else if format = GL_COMPRESSED_SRGB8_ALPHA8_ASTC_10x6_KHR then
    .ok .FORMAT_SRGB8_ALPHA8_ASTC_10x6_KHR
  else if format = GL_COMPRESSED_SRGB8_ALPHA8_ASTC_10x8_KHR then
    .ok .FORMAT_SRGB8_ALPHA8_ASTC_10x8_KHR
  else if format = GL_COMPRESSED_SRGB8_ALPHA8_ASTC_10x10_KHR then
    .ok .FORMAT_SRGB8_ALPHA8_ASTC_10x10_KHR
  else if format = GL_COMPRESSED_SRGB8_ALPHA8_ASTC_12x10_KHR then
    .ok .FORMAT_SRGB8_ALPHA8_ASTC_12x10_KHR
  else if format = GL_COMPRESSED_SRGB8_ALPHA8_ASTC_12x12_KHR then
    .ok .FORMAT_SRGB8_ALPHA8_ASTC_12x12_KHR
  else if format = GL_COMPRESSED_RGB_S3TC_DXT1_EXT ∨
      format = GL_COMPRESSED_RGBA_S3TC_DXT1_EXT then .ok .FORMAT_DXT1
  else if format = GL_COMPRESSED_RGBA_S3TC_DXT3_ANGLE then .ok .FORMAT_DXT3
  else if format = GL_COMPRESSED_RGBA_S3TC_DXT5_ANGLE then .ok .FORMAT_DXT5
  else
    if type = GL_FLOAT then SelectInternalFormat.caseFloat format
    else if type = GL_HALF_FLOAT ∨ type = GL_HALF_FLOAT_OES then
      SelectInternalFormat.caseHalfFloat format
    else if type = GL_BYTE then SelectInternalFormat.caseByte format
    else if type = GL_UNSIGNED_BYTE then SelectInternalFormat.caseUnsignedByte format
    else if type = GL_SHORT then SelectInternalFormat.caseShort format
    else if type = GL_UNSIGNED_SHORT then SelectInternalFormat.caseUnsignedShort format
    else if type = GL_INT then SelectInternalFormat.caseInt format
    else if type = GL_UNSIGNED_INT then SelectInternalFormat.caseUnsignedInt format
    else if type = GL_UNSIGNED_INT_24_8_OES then SelectInternalFormat.caseUnsignedInt248 format
    else if type = GL_FLOAT_32_UNSIGNED_INT_24_8_REV then
      SelectInternalFormat.caseFloat32UnsignedInt248Rev format
    else if type = GL_UNSIGNED_SHORT_4_4_4_4 then .ok .FORMAT_A8R8G8B8
    else if type = GL_UNSIGNED_SHORT_5_5_5_1 then .ok .FORMAT_A8R8G8B8
    else if type = GL_UNSIGNED_SHORT_5_6_5 then .ok .FORMAT_R5G6B5
    else if type = GL_UNSIGNED_INT_2_10_10_10_REV then
      if format = GL_RGB10_A2UI then .ok .FORMAT_A2B10G10R10UI else .ok .FORMAT_A2B10G10R10
    else if type = GL_UNSIGNED_INT_10F_11F_11F_REV ∨ type = GL_UNSIGNED_INT_5_9_9_9_REV then
      .ok .FORMAT_X16B16G16R16F_UNSIGNED
    else .unreachable .FORMAT_NULL

/-! ## The upload entry point -/

/-- What the `switch` of `Image::loadImageData` runs for a (format, type) pair: one
`LoadImageData<dataType>`, one of the two depth/stencil loaders, or nothing past an
`UNREACHABLE`. -/
inductive Transcode where
  | row (dataType : DataType)
  | d24s8
  | d32fs8
  | nothing
deriving DecidableEq, Repr

/-- The statement `ASSERT(c);` followed by the transcoder `t`. -/
def asserted (c : Prop) [Decidable c] (t : Transcode) : Checked Transcode := ⟨t, !decide c⟩

/-- The `switch(format)` of `Image::loadImageData` (`Image.cpp`, lines 1226-1419). -/
def loadImageData.dispatch (format type : Nat) : Checked Transcode :=
  if format = GL_RED ∨ format = GL_RED_INTEGER ∨ format = GL_ALPHA ∨ format = GL_LUMINANCE then
    if type = GL_BYTE ∨ type = GL_UNSIGNED_BYTE then .ok (.row .Bytes_1)
    else if type = GL_FLOAT then asserted (format ≠ GL_RED_INTEGER) (.row .Bytes_4)
    else if type = GL_HALF_FLOAT ∨ type = GL_HALF_FLOAT_OES then
      asserted (format ≠ GL_RED_INTEGER) (.row .Bytes_2)
    else if type = GL_SHORT ∨ type = GL_UNSIGNED_SHORT then .ok (.row .Bytes_2)
    else if type = GL_INT ∨ type = GL_UNSIGNED_INT then .ok (.row .Bytes_4)
    else .unreachable .nothing
  else if format = GL_RG ∨ format = GL_RG_INTEGER ∨ format = GL_LUMINANCE_ALPHA then
    if type = GL_BYTE ∨ type = GL_UNSIGNED_BYTE then .ok (.row .Bytes_2)
    else if type = GL_FLOAT then asserted (format ≠ GL_RG_INTEGER) (.row .Bytes_8)
    else if type = GL_HALF_FLOAT ∨ type = GL_HALF_FLOAT_OES then
      asserted (format ≠ GL_RG_INTEGER) (.row .Bytes_4)
    else if type = GL_SHORT ∨ type = GL_UNSIGNED_SHORT then .ok (.row .Bytes_4)
    else if type = GL_INT ∨ type = GL_UNSIGNED_INT then .ok (.row .Bytes_8)
    else .unreachable .nothing
  else if format = GL_RGB ∨ format = GL_RGB_INTEGER then
    if type = GL_BYTE then .ok (.row .ByteRGB)
    else if type = GL_UNSIGNED_BYTE then .ok (.row .UByteRGB)
    else if type = GL_UNSIGNED_SHORT_5_6_5 then asserted (format = GL_RGB) (.row .Bytes_2)
    else if type = GL_UNSIGNED_INT_10F_11F_11F_REV then
      asserted (format = GL_RGB) (.row .R11G11B10F)
    else if type = GL_UNSIGNED_INT_5_9_9_9_REV then asserted (format = GL_RGB) (.row .RGB9E5)
    else if type = GL_FLOAT then asserted (format = GL_RGB) (.row .FloatRGB)
    else if type = GL_HALF_FLOAT ∨ type = GL_HALF_FLOAT_OES then
      asserted (format = GL_RGB) (.row .HalfFloatRGB)
    else if type = GL_SHORT then .ok (.row .ShortRGB)
    else if type = GL_UNSIGNED_SHORT then .ok (.row .UShortRGB)
    else if type = GL_INT then .ok (.row .IntRGB)
    else if type = GL_UNSIGNED_INT then .ok (.row .UIntRGB)
    else .unreachable .nothing
  else if format = GL_RGBA ∨ format = GL_RGBA_INTEGER ∨ format = GL_BGRA_EXT then
    if type = GL_BYTE ∨ type = GL_UNSIGNED_BYTE then .ok (.row .Bytes_4)
    else if type = GL_UNSIGNED_SHORT_4_4_4_4 then asserted (format = GL_RGBA) (.row .RGBA4444)
    else if type = GL_UNSIGNED_SHORT_5_5_5_1 then asserted (format = GL_RGBA) (.row .RGBA5551)
    else if type = GL_UNSIGNED_INT_2_10_10_10_REV then
      asserted (format ≠ GL_BGRA_EXT) (.row .Bytes_4)
    else if type = GL_FLOAT then asserted (format = GL_RGBA) (.row .Bytes_16)
    else if type = GL_HALF_FLOAT ∨ type = GL_HALF_FLOAT_OES then
      asserted (format = GL_RGBA) (.row .Bytes_8)
    else if type = GL_SHORT ∨ type = GL_UNSIGNED_SHORT then
      asserted (format ≠ GL_BGRA_EXT) (.row .Bytes_8)
    else if type = GL_INT ∨ type = GL_UNSIGNED_INT then
      asserted (format ≠ GL_BGRA_EXT) (.row .Bytes_16)
    else .unreachable .nothing
  else if format = GL_DEPTH_COMPONENT then
    if type = GL_FLOAT then .ok (.row .D32F)
    else if type = GL_UNSIGNED_SHORT then .ok (.row .D16)
    else if type = GL_UNSIGNED_INT then .ok (.row .D32)
    else .unreachable .nothing
  else if format = GL_DEPTH_STENCIL then
    if type = GL_UNSIGNED_INT_24_8 then .ok .d24s8
    else if type = GL_FLOAT_32_UNSIGNED_INT_24_8_REV then .ok .d32fs8
    else .unreachable .nothing
  else .unreachable .nothing

/-- Modelled from the spec: the members of `Image` and of its base `sw::Surface` are
declared in `Image.hpp` and `Renderer/Surface.hpp`, which are not among the sources. The
spec lists the attributes of an image: "width, height, depth/sample-count, internal
storage format, row pitch, slice stride, an optional secondary stencil-plane pitch".
The record holds what the uploads read through `getPitch()`, `getSlice()`,
`getStencilPitchB()` and `getHeight()`, the members `format` and `internalFormat`, and
the bytes of the two planes. -/
structure Image where
  format : Nat
  internalFormat : Format
  pitch : Int
  slice : Int
  stencilPitchB : Int
  height : Int
  colour : List Byte
  stencil : List Byte
deriving DecidableEq, Repr

/-- Modelled from the spec: `lock` and `lockStencil` are implemented by `sw::Surface`,
which is not among the sources; the spec gives "lock(region, intent) → writable/readable
pointer or null". The embedding takes their answers as parameters: for the coordinates
passed, the address inside the plane of the pointer returned, or `none` for null. -/
structure Locking where
  lock : Int → Int → Int → Option Int
  lockStencil : Int → Int → Int → Option Int

/-- The calls an upload makes on the image, its stencil plane and the context. -/
inductive Event where
  | lock (x y z : Int)
  | unlock
  | lockStencil (x y z : Int)
  | unlockStencil
  | createSurface (width height depth : Int) (format : Format) (input : Int)
      (pitch slice : Int)
  | blit (x0 y0 x1 y1 : Int)
  | deleteSurface
deriving DecidableEq, Repr

/-- What an upload leaves behind: the two planes, the client addresses read (relative to
`pixels`, oldest first), the calls made, and whether an `ASSERT` or `UNREACHABLE` was
passed. -/
structure Upload where
  colour : List Byte
  stencil : List Byte
  reads : List Int
  events : List Event
  faulted : Bool
deriving DecidableEq, Repr

/-- The condition of the `if` at lines 1216-1219 of `Image.cpp`. -/
def directPath (uploadFormat internalFormat : Format) : Prop :=
  uploadFormat = internalFormat ∨
  (uploadFormat = .FORMAT_A8B8G8R8 ∧ internalFormat = .FORMAT_SRGB8_A8) ∨
  (uploadFormat = .FORMAT_X8B8G8R8 ∧ internalFormat = .FORMAT_SRGB8_X8) ∨
  (uploadFormat = .FORMAT_A2B10G10R10 ∧ internalFormat = .FORMAT_A2B10G10R10UI)

instance (u i : Format) : Decidable (directPath u i) := by
  unfold directPath; exact inferInstance

/-- `Image::loadD24S8ImageData` and `Image::loadD32FS8ImageData` (`Image.cpp`, lines
1434-1460), which differ in the two strategy tags only: the depth plane is loaded into
the locked buffer, then the stencil plane is locked at `(0, 0, 0)` and, if the lock
succeeds, loaded with the row pitch `getStencilPitchB()` and with `getHeight()` in the
place of the slice stride. The result is the two planes, the reads and the calls. -/
def loadDepthStencilImageData (fp : FloatOps) (depthType stencilType : DataType)
    (locks : Locking) (img : Image) (client : List Byte)
    (width height depth inputPitch inputHeight : Int) (input buffer : Int) :
    Option (List Byte × List Byte × List Int × List Event) :=
  match LoadImageData fp depthType client width height depth inputPitch inputHeight
      img.pitch img.slice input buffer ⟨img.colour, []⟩ with
  | none => none
  | some r1 =>
    match locks.lockStencil 0 0 0 with
    | none => some (r1.dest, img.stencil, r1.reads, [.lockStencil 0 0 0])
    | some stencil =>
      match LoadImageData fp stencilType client width height depth inputPitch inputHeight
          img.stencilPitchB img.height input stencil ⟨img.stencil, []⟩ with
      | none => none
      | some r2 =>
        some (r1.dest, r2.dest, r1.reads ++ r2.reads, [.lockStencil 0 0 0, .unlockStencil])

/-- `Image::loadImageData(context, xoffset, yoffset, zoffset, width, height, depth,
format, type, unpackParameters, pixels)` (`Image.cpp`, lines 1203-1432). `client` is the
memory at `pixels`. On the fallback path the temporary surface and the blit are recorded
as calls; what the blit writes belongs to the context and is not part of the result. -/
def loadImageData (fp : FloatOps) (locks : Locking) (img : Image)
    (xoffset yoffset zoffset width height depth : Int) (format type : Nat)
    (unpackParameters : PixelStorageModes) (client : List Byte) : Option Upload :=
  let uploadFormat := SelectInternalFormat format type
  if uploadFormat.value = .FORMAT_NULL then
    some ⟨img.colour, img.stencil, [], [], uploadFormat.faulted⟩
  else
    let inputWidth := if unpackParameters.rowLength = 0 then width else unpackParameters.rowLength
    let inputPitch := ComputePitch inputWidth format type unpackParameters.alignment
    let inputHeight :=
      if unpackParameters.imageHeight = 0 then height else unpackParameters.imageHeight
    let offset := ComputePackingOffset format type inputWidth inputHeight unpackParameters
    let input : Int := (offset.value : Int)
    let faults := uploadFormat.faulted || inputPitch.faulted || offset.faulted
    if directPath uploadFormat.value img.internalFormat then
      match locks.lock xoffset yoffset zoffset with
      | none =>
        some ⟨img.colour, img.stencil, [], [.lock xoffset yoffset zoffset, .unlock], faults⟩
      | some buffer =>
        let action := loadImageData.dispatch format type
        match action.value with
        | .row dataType =>
          match LoadImageData fp dataType client width height depth inputPitch.value
              inputHeight img.pitch img.slice input buffer ⟨img.colour, []⟩ with
          | none => none
          | some r =>
            some ⟨r.dest, img.stencil, r.reads, [.lock xoffset yoffset zoffset, .unlock],
              faults || action.faulted⟩
        | .d24s8 =>
          match loadDepthStencilImageData fp .D24 .S8 locks img client width height depth
              inputPitch.value inputHeight input buffer with
          | none => none
          | some (colour, stencil, reads, events) =>
            some ⟨colour, stencil, reads,
              [.lock xoffset yoffset zoffset] ++ events ++ [.unlock], faults || action.faulted⟩
        | .d32fs8 =>
          match loadDepthStencilImageData fp .D32FS8 .S24_8 locks img client width height
              depth inputPitch.value inputHeight input buffer with
          | none => none
          | some (colour, stencil, reads, events) =>
            some ⟨colour, stencil, reads,
              [.lock xoffset yoffset zoffset] ++ events ++ [.unlock], faults || action.faulted⟩
        | .nothing =>
          some ⟨img.colour, img.stencil, [], [.lock xoffset yoffset zoffset, .unlock],
            faults || action.faulted⟩
    else
      let source := ConvertFormatType format type
      some ⟨img.colour, img.stencil, [],
        [.createSurface width height depth source.value input inputPitch.value
            (wrap32 (inputPitch.value * inputHeight)),
          .blit xoffset yoffset (wrap32 (xoffset + width)) (wrap32 (yoffset + height)),
          .deleteSurface],
        faults || source.faulted⟩

/-- `Image::loadCompressedData(xoffset, yoffset, zoffset, width, height, depth, imageSize,
pixels)` (`Image.cpp`, lines 1462-1484). `client` is the memory at `pixels`. The two
divisions are the truncating division of `int`; a division by zero has no result. The
four offsets of a row are products of `int` operands, evaluated as `int` before they are
added to the pointers. -/
def loadCompressedData (locks : Locking) (img : Image)
    (xoffset yoffset zoffset width height depth imageSize : Int) (client : List Byte) :
    Option Upload :=
  let inputPitch := ComputeCompressedPitch width img.format
  if depth = 0 then none
  else
    let inputSlice := wrap32 (Int.tdiv imageSize depth)
    if inputPitch = 0 then none
    else
      let rows := wrap32 (Int.tdiv inputSlice inputPitch)
      match locks.lock xoffset yoffset zoffset with
      | none =>
        some ⟨img.colour, img.stencil, [], [.lock xoffset yoffset zoffset, .unlock], false⟩
      | some buffer =>
        match forLoop depth (fun z r => forLoop rows (fun y r =>
            memcpy client (buffer + wrap32 (y * img.pitch) + wrap32 (z * img.slice))
              (wrap32 (y * inputPitch) + wrap32 (z * inputSlice)) inputPitch r) r)
            ⟨img.colour, []⟩ with
        | none => none
        | some r =>
          some ⟨r.dest, img.stencil, r.reads, [.lock xoffset yoffset zoffset, .unlock], false⟩

/-! ## Reference counting and destruction -/

/-- Modelled from the spec: `egl::Texture` is declared in `Texture.hpp`, which is not
among the sources. A texture is known here by its identity only; `none` is `nullptr`. -/
abbrev Texture := Nat

/-- The calls and checks an image makes while it is released, unbound or destroyed, in the
order they are made. -/
inductive Call where
  /-- The call `parentTexture->sweep()` in `Image::release`. -/
  | sweep (t : Texture)
  /-- The call `parentTexture->release()` in `Image::~Image`. -/
  | textureRelease (t : Texture)
  /-- The statement `delete this` in `Image::release`. -/
  | deleteThis
  /-- The call `sync()` in `~ImageImplementation`. -/
  | sync
  /-- The check `ASSERT(isUnlocked())` in `Image::~Image`. -/
  | assertIsUnlocked
  /-- The check `ASSERT(!shared)` in `Image::~Image`. -/
  | assertNotShared
deriving DecidableEq, Repr

/-- Modelled from the spec: the reference count lives in the base class `gl::Object`
(`common/Object.hpp`), which is not among the sources; the spec says of `release()`:
"decrement reference count; at zero, destroy". The record holds the members of an image
that `release`, `unbind`, `isChildOf` and the destructors read or write: the count, the
back-reference `parentTexture`, whether the object still exists, and the calls made so
far. -/
structure Lifetime where
  referenceCount : Int
  parentTexture : Option Texture
  alive : Bool
  calls : List Call
deriving DecidableEq, Repr

/-- The body of `Image::~Image()` (`Image.cpp`, lines 1147-1159). -/
def Image.destructor (s : Lifetime) : Lifetime :=
  let released : List Call :=
    match s.parentTexture with
    | some t => [.textureRelease t]
    | none => []
  { s with calls := s.calls ++ [.assertIsUnlocked] ++ released ++ [.assertNotShared]
           alive := false }

/-- Destruction of a concrete image: the body of `~ImageImplementation()` (`Image.cpp`,
lines 1106-1109), then, as for every C++ object, the destructor of the base class. -/
def ImageImplementation.destructor (s : Lifetime) : Lifetime :=
  Image.destructor { s with calls := s.calls ++ [.sync] }

/-- `Image::release()` (`Image.cpp`, lines 1171-1186). `dereference()` decrements the
count and returns the new value; every image is created as an `ImageImplementation`
(lines 1127-1145), so `delete this` runs the destructor of that class. -/
def Image.release (s : Lifetime) : Lifetime :=
  let refs := s.referenceCount - 1
  let s1 : Lifetime := { s with referenceCount := refs }
  if refs > 0 then
    match s1.parentTexture with
    | some t => { s1 with calls := s1.calls ++ [.sweep t] }
    | none => s1
  else
    ImageImplementation.destructor { s1 with calls := s1.calls ++ [.deleteThis] }

/-- `Image::unbind(parent)` (`Image.cpp`, lines 1188-1196). -/
def Image.unbind (s : Lifetime) (parent : Option Texture) : Lifetime :=
  Image.release (if s.parentTexture = parent then { s with parentTexture := none } else s)

/-- `Image::isChildOf(parent)` (`Image.cpp`, lines 1198-1201). -/
def Image.isChildOf (s : Lifetime) (parent : Option Texture) : Bool :=
  decide (s.parentTexture = parent)

/-! ## Reference definitions, following the wording of the specification -/

/-- The smallest integer not below `w / b`, for a positive `b`. -/
def ceilDiv (w b : Int) : Int := -((-w) / b)

/-- Block geometry `(blockW, blockH, blockBytes)` of a compressed format, as the
specification words it: 4x4 blocks of 8 bytes for DXT1, ETC1, R11 EAC, RGB8 ETC2 and the
punch-through variants; 4x4 blocks of 16 bytes for DXT3, DXT5, RG11 EAC, RGBA8 ETC2 EAC
and ASTC 4x4; 16 bytes and the named block for every other ASTC format up to 12x12. -/
def blockGeometry (format : Nat) : Option (Int × Int × Int) :=
  if format = GL_COMPRESSED_RGB_S3TC_DXT1_EXT ∨ format = GL_COMPRESSED_RGBA_S3TC_DXT1_EXT ∨
      format = GL_ETC1_RGB8_OES ∨ format = GL_COMPRESSED_R11_EAC ∨
      format = GL_COMPRESSED_SIGNED_R11_EAC ∨ format = GL_COMPRESSED_RGB8_ETC2 ∨
      format = GL_COMPRESSED_SRGB8_ETC2 ∨
      format = GL_COMPRESSED_RGB8_PUNCHTHROUGH_ALPHA1_ETC2 ∨
      format = GL_COMPRESSED_SRGB8_PUNCHTHROUGH_ALPHA1_ETC2 then
    some (4, 4, 8)
  else if format = GL_COMPRESSED_RGBA_S3TC_DXT3_ANGLE ∨
      format = GL_COMPRESSED_RGBA_S3TC_DXT5_ANGLE ∨ format = GL_COMPRESSED_RG11_EAC ∨
      format = GL_COMPRESSED_SIGNED_RG11_EAC ∨ format = GL_COMPRESSED_RGBA8_ETC2_EAC ∨
      format = GL_COMPRESSED_SRGB8_ALPHA8_ETC2_EAC ∨
      format = GL_COMPRESSED_RGBA_ASTC_4x4_KHR ∨
      format = GL_COMPRESSED_SRGB8_ALPHA8_ASTC_4x4_KHR then
    some (4, 4, 16)
  else if format = GL_COMPRESSED_RGBA_ASTC_5x4_KHR ∨
      format = GL_COMPRESSED_SRGB8_ALPHA8_ASTC_5x4_KHR then
    some (5, 4, 16)
  else if format = GL_COMPRESSED_RGBA_ASTC_5x5_KHR ∨
      format = GL_COMPRESSED_SRGB8_ALPHA8_ASTC_5x5_KHR then
    some (5, 5, 16)
  else if format = GL_COMPRESSED_RGBA_ASTC_6x5_KHR ∨
      format = GL_COMPRESSED_SRGB8_ALPHA8_ASTC_6x5_KHR then
    some (6, 5, 16)
  else if format = GL_COMPRESSED_RGBA_ASTC_6x6_KHR ∨
      format = GL_COMPRESSED_SRGB8_ALPHA8_ASTC_6x6_KHR then
    some (6, 6, 16)
  else if format = GL_COMPRESSED_RGBA_ASTC_8x5_KHR ∨
      format = GL_COMPRESSED_SRGB8_ALPHA8_ASTC_8x5_KHR then
    some (8, 5, 16)
  else if format = GL_COMPRESSED_RGBA_ASTC_8x6_KHR ∨
      format = GL_COMPRESSED_SRGB8_ALPHA8_ASTC_8x6_KHR then
    some (8, 6, 16)
  else if format = GL_COMPRESSED_RGBA_ASTC_8x8_KHR ∨
      format = GL_COMPRESSED_SRGB8_ALPHA8_ASTC_8x8_KHR then
    some (8, 8, 16)
  else if format = GL_COMPRESSED_RGBA_ASTC_10x5_KHR ∨
      format = GL_COMPRESSED_SRGB8_ALPHA8_ASTC_10x5_KHR then
    some (10, 5, 16)
  else if format = GL_COMPRESSED_RGBA_ASTC_10x6_KHR ∨
      format = GL_COMPRESSED_SRGB8_ALPHA8_ASTC_10x6_KHR then
    some (10, 6, 16)
  else if format = GL_COMPRESSED_RGBA_ASTC_10x8_KHR ∨
      format = GL_COMPRESSED_SRGB8_ALPHA8_ASTC_10x8_KHR then
    some (10, 8, 16)
  else if format = GL_COMPRESSED_RGBA_ASTC_10x10_KHR ∨
      format = GL_COMPRESSED_SRGB8_ALPHA8_ASTC_10x10_KHR then
    some (10, 10, 16)
  else if format = GL_COMPRESSED_RGBA_ASTC_12x10_KHR ∨
      format = GL_COMPRESSED_SRGB8_ALPHA8_ASTC_12x10_KHR then
    some (12, 10, 16)
  else if format = GL_COMPRESSED_RGBA_ASTC_12x12_KHR ∨
      format = GL_COMPRESSED_SRGB8_ALPHA8_ASTC_12x12_KHR then
    some (12, 12, 16)
  else none

/-- The plain scalar types named by the specification. -/
def isPlainScalarType (type : Nat) : Prop :=
  type = GL_BYTE ∨ type = GL_UNSIGNED_BYTE ∨ type = GL_SHORT ∨ type = GL_UNSIGNED_SHORT ∨
    type = GL_INT ∨ type = GL_UNSIGNED_INT ∨ type = GL_HALF_FLOAT ∨
    type = GL_HALF_FLOAT_OES ∨ type = GL_FLOAT

instance (type : Nat) : Decidable (isPlainScalarType type) := by
  unfold isPlainScalarType; exact inferInstance

/-- The packed types named by the specification. -/
def isPackedType (type : Nat) : Prop :=
  type = GL_UNSIGNED_SHORT_5_6_5 ∨ type = GL_UNSIGNED_SHORT_4_4_4_4 ∨
    type = GL_UNSIGNED_SHORT_5_5_5_1 ∨ type = GL_UNSIGNED_SHORT_4_4_4_4_REV_EXT ∨
    type = GL_UNSIGNED_SHORT_1_5_5_5_REV_EXT ∨ type = GL_UNSIGNED_INT_10F_11F_11F_REV ∨
    type = GL_UNSIGNED_INT_5_9_9_9_REV ∨ type = GL_UNSIGNED_INT_2_10_10_10_REV ∨
    type = GL_UNSIGNED_INT_24_8 ∨ type = GL_FLOAT_32_UNSIGNED_INT_24_8_REV

instance (type : Nat) : Decidable (isPackedType type) := by
  unfold isPackedType; exact inferInstance

/-- Channel count of a client format, as the specification lists it: 1 for RED,
RED_INTEGER, ALPHA, LUMINANCE and DEPTH_COMPONENT; 2 for RG, RG_INTEGER and
LUMINANCE_ALPHA; 3 for RGB and RGB_INTEGER; 4 for RGBA, RGBA_INTEGER and BGRA_EXT. -/
def channelCount (format : Nat) : Int :=
  if format = GL_RED ∨ format = GL_RED_INTEGER ∨ format = GL_ALPHA ∨ format = GL_LUMINANCE ∨
      format = GL_DEPTH_COMPONENT then 1
  else if format = GL_RG ∨ format = GL_RG_INTEGER ∨ format = GL_LUMINANCE_ALPHA then 2
  else if format = GL_RGB ∨ format = GL_RGB_INTEGER then 3
  else if format = GL_RGBA ∨ format = GL_RGBA_INTEGER ∨ format = GL_BGRA_EXT then 4
  else 0

/-- Width in bytes of a plain scalar type: 1, 2 or 4. -/
def scalarWidth (type : Nat) : Int :=
  if type = GL_BYTE ∨ type = GL_UNSIGNED_BYTE then 1
  else if type = GL_SHORT ∨ type = GL_UNSIGNED_SHORT ∨ type = GL_HALF_FLOAT ∨
      type = GL_HALF_FLOAT_OES then 2
  else if type = GL_INT ∨ type = GL_UNSIGNED_INT ∨ type = GL_FLOAT then 4
  else 0

/-- Size in bytes of the word of a packed type, as the specification lists it: 2 for
5-6-5, 4-4-4-4, 5-5-5-1 and their REV forms; 4 for 10F_11F_11F, 5_9_9_9, 2_10_10_10 and
24_8; 8 for FLOAT_32_UNSIGNED_INT_24_8_REV. -/
def packedWordSize (type : Nat) : Int :=
  if type = GL_UNSIGNED_SHORT_5_6_5 ∨ type = GL_UNSIGNED_SHORT_4_4_4_4 ∨
      type = GL_UNSIGNED_SHORT_5_5_5_1 ∨ type = GL_UNSIGNED_SHORT_4_4_4_4_REV_EXT ∨
      type = GL_UNSIGNED_SHORT_1_5_5_5_REV_EXT then 2
  else if type = GL_UNSIGNED_INT_10F_11F_11F_REV ∨ type = GL_UNSIGNED_INT_5_9_9_9_REV ∨
      type = GL_UNSIGNED_INT_2_10_10_10_REV ∨ type = GL_UNSIGNED_INT_24_8 then 4
  else if type = GL_FLOAT_32_UNSIGNED_INT_24_8_REV then 8
  else 0

/-- What the specification says of a result `r` of `ComputePixelSize` for a format of
`c` channels: when no fault is raised, the type is a plain scalar type or a packed type;
for a plain scalar type the size is `c * scalarWidth type`, for a packed type it is the
size of the packed word. -/
def PixelSizeSpec (c : Int) (type : Nat) (r : Checked Int) : Prop :=
  r.faulted = false →
    (isPlainScalarType type → r.value = c * scalarWidth type) ∧
    (isPackedType type → r.value = packedWordSize type) ∧
    (isPlainScalarType type ∨ isPackedType type)

instance (c : Int) (type : Nat) (r : Checked Int) : Decidable (PixelSizeSpec c type r) := by
  unfold PixelSizeSpec; exact inferInstance

/-- The bytes a row loop has stored after `w` pixels: for each pixel `x < w`, in order,
`f` of the `n` client bytes at offset `s + ss * x`. -/
def pixelsOut (client : List Byte) (s ss n : Nat) (f : List Byte → List Byte) :
    Nat → List Byte
  | 0 => []
  | w + 1 => pixelsOut client s ss n f w ++ f ((client.drop (s + ss * w)).take n)

/-- The client addresses a row loop has read after `w` pixels. -/
def pixelsRead (s : Int) (ss : Int) (n : Nat) (w : Nat) : List Int :=
  (List.range w).flatMap fun x => addresses (s + ss * (x : Int)) n

/-- The verbatim strategies with their number of bytes per pixel. -/
def verbatimTable : List (DataType × Nat) :=
  [(.Bytes_1, 1), (.Bytes_2, 2), (.Bytes_4, 4), (.Bytes_8, 8), (.Bytes_16, 16)]

/-- A choice of the floating-point parameters, for evaluating the transcoders on
concrete rows. -/
def sampleFloatOps : FloatOps :=
  ⟨id, fun _ => (0, 0, 0), fun _ => (0, 0, 0), 0x3C00⟩

/-- The compressed client formats of the first `switch` of `SelectInternalFormat`, each
with the internal format of the same name ("the matching compressed internal format");
the two DXT1 formats share `FORMAT_DXT1`. -/
def compressedTable : List (Nat × Format) :=
  [(GL_ETC1_RGB8_OES, .FORMAT_ETC1), (GL_COMPRESSED_R11_EAC, .FORMAT_R11_EAC),
   (GL_COMPRESSED_SIGNED_R11_EAC, .FORMAT_SIGNED_R11_EAC),
   (GL_COMPRESSED_RG11_EAC, .FORMAT_RG11_EAC),
   (GL_COMPRESSED_SIGNED_RG11_EAC, .FORMAT_SIGNED_RG11_EAC),
   (GL_COMPRESSED_RGB8_ETC2, .FORMAT_RGB8_ETC2), (GL_COMPRESSED_SRGB8_ETC2, .FORMAT_SRGB8_ETC2),
   (GL_COMPRESSED_RGB8_PUNCHTHROUGH_ALPHA1_ETC2, .FORMAT_RGB8_PUNCHTHROUGH_ALPHA1_ETC2),
   (GL_COMPRESSED_SRGB8_PUNCHTHROUGH_ALPHA1_ETC2, .FORMAT_SRGB8_PUNCHTHROUGH_ALPHA1_ETC2),
   (GL_COMPRESSED_RGBA8_ETC2_EAC, .FORMAT_RGBA8_ETC2_EAC),
   (GL_COMPRESSED_SRGB8_ALPHA8_ETC2_EAC, .FORMAT_SRGB8_ALPHA8_ETC2_EAC),
   (GL_COMPRESSED_RGBA_ASTC_4x4_KHR, .FORMAT_RGBA_ASTC_4x4_KHR),
   (GL_COMPRESSED_RGBA_ASTC_5x4_KHR, .FORMAT_RGBA_ASTC_5x4_KHR),
   (GL_COMPRESSED_RGBA_ASTC_5x5_KHR, .FORMAT_RGBA_ASTC_5x5_KHR),
   (GL_COMPRESSED_RGBA_ASTC_6x5_KHR, .FORMAT_RGBA_ASTC_6x5_KHR),
   (GL_COMPRESSED_RGBA_ASTC_6x6_KHR, .FORMAT_RGBA_ASTC_6x6_KHR),
   (GL_COMPRESSED_RGBA_ASTC_8x5_KHR, .FORMAT_RGBA_ASTC_8x5_KHR),
   (GL_COMPRESSED_RGBA_ASTC_8x6_KHR, .FORMAT_RGBA_ASTC_8x6_KHR),
   (GL_COMPRESSED_RGBA_ASTC_8x8_KHR, .FORMAT_RGBA_ASTC_8x8_KHR),
   (GL_COMPRESSED_RGBA_ASTC_10x5_KHR, .FORMAT_RGBA_ASTC_10x5_KHR),
   (GL_COMPRESSED_RGBA_ASTC_10x6_KHR, .FORMAT_RGBA_ASTC_10x6_KHR),
   (GL_COMPRESSED_RGBA_ASTC_10x8_KHR, .FORMAT_RGBA_ASTC_10x8_KHR),
   (GL_COMPRESSED_RGBA_ASTC_10x10_KHR, .FORMAT_RGBA_ASTC_10x10_KHR),
   (GL_COMPRESSED_RGBA_ASTC_12x10_KHR, .FORMAT_RGBA_ASTC_12x10_KHR),
   (GL_COMPRESSED_RGBA_ASTC_12x12_KHR, .FORMAT_RGBA_ASTC_12x12_KHR),
   (GL_COMPRESSED_SRGB8_ALPHA8_ASTC_4x4_KHR, .FORMAT_SRGB8_ALPHA8_ASTC_4x4_KHR),
   (GL_COMPRESSED_SRGB8_ALPHA8_ASTC_5x4_KHR, .FORMAT_SRGB8_ALPHA8_ASTC_5x4_KHR),
   (GL_COMPRESSED_SRGB8_ALPHA8_ASTC_5x5_KHR, .FORMAT_SRGB8_ALPHA8_ASTC_5x5_KHR),
   (GL_COMPRESSED_SRGB8_ALPHA8_ASTC_6x5_KHR, .FORMAT_SRGB8_ALPHA8_ASTC_6x5_KHR),
   (GL_COMPRESSED_SRGB8_ALPHA8_ASTC_6x6_KHR, .FORMAT_SRGB8_ALPHA8_ASTC_6x6_KHR),
   (GL_COMPRESSED_SRGB8_ALPHA8_ASTC_8x5_KHR, .FORMAT_SRGB8_ALPHA8_ASTC_8x5_KHR),
   (GL_COMPRESSED_SRGB8_ALPHA8_ASTC_8x6_KHR, .FORMAT_SRGB8_ALPHA8_ASTC_8x6_KHR),
   (GL_COMPRESSED_SRGB8_ALPHA8_ASTC_8x8_KHR, .FORMAT_SRGB8_ALPHA8_ASTC_8x8_KHR),
   (GL_COMPRESSED_SRGB8_ALPHA8_ASTC_10x5_KHR, .FORMAT_SRGB8_ALPHA8_ASTC_10x5_KHR),
   (GL_COMPRESSED_SRGB8_ALPHA8_ASTC_10x6_KHR, .FORMAT_SRGB8_ALPHA8_ASTC_10x6_KHR),
   (GL_COMPRESSED_SRGB8_ALPHA8_ASTC_10x8_KHR, .FORMAT_SRGB8_ALPHA8_ASTC_10x8_KHR),
   (GL_COMPRESSED_SRGB8_ALPHA8_ASTC_10x10_KHR, .FORMAT_SRGB8_ALPHA8_ASTC_10x10_KHR),
   (GL_COMPRESSED_SRGB8_ALPHA8_ASTC_12x10_KHR, .FORMAT_SRGB8_ALPHA8_ASTC_12x10_KHR),
   (GL_COMPRESSED_SRGB8_ALPHA8_ASTC_12x12_KHR, .FORMAT_SRGB8_ALPHA8_ASTC_12x12_KHR),
   (GL_COMPRESSED_RGB_S3TC_DXT1_EXT, .FORMAT_DXT1),
   (GL_COMPRESSED_RGBA_S3TC_DXT1_EXT, .FORMAT_DXT1),
   (GL_COMPRESSED_RGBA_S3TC_DXT3_ANGLE, .FORMAT_DXT3),
   (GL_COMPRESSED_RGBA_S3TC_DXT5_ANGLE, .FORMAT_DXT5)]

/-- The event is a call of `lock`. -/
def Event.isLock : Event → Bool
  | .lock _ _ _ => true
  | _ => false

/-- The event is a call of `unlock`. -/
def Event.isUnlock : Event → Bool
  | .unlock => true
  | _ => false

/-- The event belongs to the blit fallback: a temporary surface or the blit itself. -/
def Event.isFallback : Event → Bool
  | .createSurface _ _ _ _ _ _ _ => true
  | .blit _ _ _ _ => true
  | .deleteSurface => true
  | _ => false

/-- The (source, destination) row addresses of an upload, slice by slice and row by row:
"source and destination row base addresses as base + z * sliceStride + y * rowPitch". -/
def rowCalls (height depth inputPitch inputHeight destPitch destSlice input buffer : Int) :
    List (Int × Int) :=
  (List.range depth.toNat).flatMap fun (z : Nat) =>
    (List.range height.toNat).map fun (y : Nat) =>
      (input + (z : Int) * inputPitch * inputHeight + (y : Int) * inputPitch,
        buffer + (z : Int) * destSlice + (y : Int) * destPitch)

/-- A sample image for the worked examples: 2 rows of pitch 8, internal format
`FORMAT_A8B8G8R8`, a colour plane of 16 zero bytes and a stencil plane of 8 zero bytes
with a stencil pitch of 4. -/
def sampleImage : Image :=
  ⟨GL_RGBA, .FORMAT_A8B8G8R8, 8, 16, 4, 2, List.replicate 16 0, List.replicate 8 0⟩

/-- Locks that succeed and return the start of the plane. -/
def sampleLocks : Locking := ⟨fun _ _ _ => some 0, fun _ _ _ => some 0⟩

/-- Locks that fail: `lock` and `lockStencil` return null. -/
def nullLocks : Locking := ⟨fun _ _ _ => none, fun _ _ _ => none⟩

/-- Sixteen client bytes `1, 2, .., 16`: a 2x2 region of `GL_RGBA` / `GL_UNSIGNED_BYTE`. -/
def sampleClient : List Byte := [1, 2, 3, 4, 5, 6, 7, 8, 9, 10, 11, 12, 13, 14, 15, 16]

/-- A sample depth/stencil image: 2 rows, colour pitch 8 and slice 16 (two slices, 32 zero
bytes), stencil pitch 4 (16 zero bytes). -/
def depthStencilImage : Image :=
  ⟨GL_DEPTH_STENCIL, .FORMAT_D32FS8_TEXTURE, 8, 16, 4, 2, List.replicate 32 0,
    List.replicate 16 0⟩

/-- Locks whose answer depends on the offset: `lock(x, y, z)` returns the address
`4 * x + 8 * y` of the colour plane, `lockStencil` the start of the stencil plane. -/
def offsetLocks : Locking := ⟨fun x y _ => some (4 * x + 8 * y), fun _ _ _ => some 0⟩

/-- The client bytes a row transcoder consumes per pixel, as `(stride, offset, length)`:
pixel `x` of a row is read at `source + stride * x + offset`, `length` bytes. The stride
is the size of a client pixel: 1, 2, 4, 8 or 16 for `Bytes_N`; 3, 6 or 12 for the RGB
widening strategies; 2 for `RGBA4444`, `RGBA5551` and `D16`; 4 for `R11G11B10F`,
`RGB9E5`, `D32`, `D32F` and the pair `D24` / `S8`; 8 for the pair `D32FS8` / `S24_8`,
which reads the first and the second word of the pixel. -/
def readShape : DataType → Int × Int × Nat
  | .Bytes_1 => (1, 0, 1)
  | .Bytes_2 => (2, 0, 2)
  | .Bytes_4 => (4, 0, 4)
  | .Bytes_8 => (8, 0, 8)
  | .Bytes_16 => (16, 0, 16)
  | .ByteRGB => (3, 0, 3)
  | .UByteRGB => (3, 0, 3)
  | .ShortRGB => (6, 0, 6)
  | .UShortRGB => (6, 0, 6)
  | .IntRGB => (12, 0, 12)
  | .UIntRGB => (12, 0, 12)
  | .FloatRGB => (12, 0, 12)
  | .HalfFloatRGB => (6, 0, 6)
  | .RGBA4444 => (2, 0, 2)
  | .RGBA5551 => (2, 0, 2)
  | .R11G11B10F => (4, 0, 4)
  | .RGB9E5 => (4, 0, 4)
  | .D16 => (2, 0, 2)
  | .D24 => (4, 0, 4)
  | .D32 => (4, 0, 4)
  | .D32F => (4, 0, 4)
  | .D32FS8 => (8, 0, 4)
  | .S8 => (4, 0, 4)
  | .S24_8 => (8, 4, 4)

/-- The size in bytes of the client pixel a dispatched transcoder works on. -/
def clientBytes : Transcode → Int
  | .row dataType => (readShape dataType).1
  | .d24s8 => 4
  | .d32fs8 => 8
  | .nothing => 0

/-- A row transcoder reads whole pixels one after the other: no offset inside the pixel,
and as many bytes as the stride. -/
def rowShapeOk : Transcode → Bool
  | .row dataType =>
    decide ((readShape dataType).2.1 = 0 ∧ ((readShape dataType).2.2 : Int) = (readShape dataType).1)
  | _ => true

/-- What C30 says of one outcome `t` of the dispatch for the pair (format, type): unless
nothing is run, `ComputePixelSize` is defined and is the pixel size of the transcoder. -/
def DispatchSpec (format type : Nat) (t : Checked Transcode) : Prop :=
  t.value ≠ .nothing →
    ComputePixelSize format type = ⟨clientBytes t.value, false⟩ ∧ rowShapeOk t.value = true

instance (format type : Nat) (t : Checked Transcode) : Decidable (DispatchSpec format type t) := by
  unfold DispatchSpec; exact inferInstance

/-- The rational number an IEEE 754 binary32 bit pattern denotes, the value of a C++
`float` on the hosts the library is built for: sign bit 31, exponent bits 30..23,
fraction bits 22..0; `none` for an infinity or a NaN. -/
def binary32Value (bits : Nat) : Option ℚ :=
  let e := bits / 2 ^ 23 % 256
  let m := bits % 2 ^ 23
  let sign : ℚ := if bits / 2 ^ 31 % 2 = 1 then -1 else 1
  if e = 255 then none
  else some (sign * ((if e = 0 then m else (2 ^ 23 + m) * 2 ^ (e - 1) : Nat) : ℚ) / 2 ^ 149)

/-! ## Machine integer lemmas -/

theorem wrap32_of_inInt32 {x : Int} (h : InInt32 x) : wrap32 x = x := by
  unfold InInt32 at h
  unfold wrap32 toI32 toU32
  split_ifs <;> omega

theorem wrap32_zero : wrap32 0 = 0 := by decide

theorem testBit_two_pow_sub_two_pow (k i : Nat) (hk : k ≤ 32) :
    (4294967296 - 2 ^ k).testBit i = (decide (k ≤ i) && decide (i < 32)) := by
  have h : 4294967296 - 2 ^ k = 2 ^ k * (2 ^ (32 - k) - 1) := by
    have h32 : (4294967296 : Nat) = 2 ^ k * 2 ^ (32 - k) := by
      have e : k + (32 - k) = 32 := by omega
      rw [← pow_add, e]; norm_num
    rw [h32, Nat.mul_sub, Nat.mul_one]
  rw [h, Nat.testBit_mul_pow_two, Nat.testBit_two_pow_sub_one]
  by_cases hki : k ≤ i
  · simp [hki]; omega
  · simp [hki]

theorem and_high_mask (n k : Nat) (hn : n < 4294967296) (hk : k ≤ 32) :
    n &&& (4294967296 - 2 ^ k) = n - n % 2 ^ k := by
  have hr : n - n % 2 ^ k = 2 ^ k * (n / 2 ^ k) := by
    have := Nat.div_add_mod n (2 ^ k)
    omega
  rw [hr]
  apply Nat.eq_of_testBit_eq
  intro i
  rw [Nat.testBit_and, testBit_two_pow_sub_two_pow k i hk, Nat.testBit_mul_pow_two,
    ← Nat.shiftRight_eq_div_pow, Nat.testBit_shiftRight]
  by_cases hki : k ≤ i
  · by_cases hi : i < 32
    · have e : k + (i - k) = i := by omega
      simp [hki, hi, e]
    · have hlt : n < 2 ^ i := by
        calc n < 2 ^ 32 := by simpa using hn
          _ ≤ 2 ^ i := Nat.pow_le_pow_right (by decide) (by omega)
      have e : k + (i - k) = i := by omega
      simp [hki, hi, e, Nat.testBit_lt_two_pow hlt]
  · simp [hki]

theorem and32_not32_low_mask (x : Int) (k : Nat) (hx0 : 0 ≤ x) (hx : x < 2147483648)
    (hk : k ≤ 30) : and32 x (not32 (wrap32 (2 ^ k - 1))) = x - x % 2 ^ k := by
  have hpos : (0 : Int) < 2 ^ k := by positivity
  have hle : (2 : Int) ^ k ≤ 2 ^ 30 := pow_le_pow_right₀ (by norm_num) hk
  have hle2 : (2 : Int) ^ 30 = 1073741824 := by norm_num
  have hw : wrap32 (2 ^ k - 1) = 2 ^ k - 1 := wrap32_of_inInt32 ⟨by omega, by omega⟩
  obtain ⟨n, rfl⟩ := Int.eq_ofNat_of_zero_le hx0
  have hn : n < 2147483648 := by exact_mod_cast hx
  have hnot : toU32 (not32 ((2 : Int) ^ k - 1)) = 4294967296 - 2 ^ k := by
    have hkn : (2 : Nat) ^ k ≤ 1073741824 := by
      have : (2 : Nat) ^ k ≤ 2 ^ 30 := Nat.pow_le_pow_right (by decide) hk
      simpa using this
    have hkp : 0 < (2 : Nat) ^ k := by positivity
    have hu : toU32 ((2 : Int) ^ k - 1) = 2 ^ k - 1 := by
      unfold toU32
      have : ((2 : Int) ^ k - 1) = ((2 ^ k - 1 : Nat) : Int) := by
        push_cast [Nat.cast_sub hkp]; ring
      rw [this]; omega
    unfold not32
    rw [hu]
    unfold toI32 toU32
    split_ifs <;> omega
  have hx32 : toU32 (n : Int) = n := by unfold toU32; omega
  unfold and32
  rw [hw, hnot, hx32, and_high_mask n k (by omega) (by omega)]
  have hmod : n % 2 ^ k ≤ n := Nat.mod_le _ _
  unfold toI32
  have hcast : ((n - n % 2 ^ k : Nat) : Int) = (n : Int) - (n : Int) % 2 ^ k := by
    push_cast [Nat.cast_sub hmod]; rfl
  split_ifs <;> omega

theorem isPow2_two_pow (k : Nat) (hk : k ≤ 30) : isPow2 (2 ^ k) = true := by
  unfold isPow2
  rw [List.any_eq_true]
  exact ⟨k, List.mem_range.mpr (by omega), by simp⟩

/-- Case analysis on an `if`: a property of both branches is a property of the whole. -/
theorem ite_cases {α : Type} {P : α → Prop} {c : Prop} [Decidable c] {a b : α}
    (ha : c → P a) (hb : ¬c → P b) : P (if c then a else b) := by
  by_cases h : c
  · rw [if_pos h]; exact ha h
  · rw [if_neg h]; exact hb h

theorem ComputePixelSize_value_bounds (format type : Nat) :
    0 ≤ (ComputePixelSize format type).value ∧ (ComputePixelSize format type).value ≤ 16 := by
  unfold ComputePixelSize ComputePixelSize.switchR ComputePixelSize.switchRG
    ComputePixelSize.switchRGB ComputePixelSize.switchRGBA ComputePixelSize.switchDepth
    ComputePixelSize.switchDepthStencil
  repeat' refine ite_cases (P := fun r : Checked Int => 0 ≤ r.value ∧ r.value ≤ 16) (fun _ => ?_) (fun _ => ?_)
  all_goals exact ⟨by decide, by decide⟩

theorem wrap32_sub_one (x : Int) : wrap32 (wrap32 x - 1) = wrap32 (x - 1) := by
  unfold wrap32 toI32 toU32
  split_ifs <;> omega

theorem sub_emod_facts (x a : Int) (ha : 0 < a) :
    (x - x % a) % a = 0 ∧ x - x % a ≤ x ∧ x < x - x % a + a ∧
      ∀ m : Int, m % a = 0 → m ≤ x → m ≤ x - x % a := by
  have h0 := Int.emod_nonneg x (ne_of_gt ha)
  have h1 := Int.emod_lt_of_pos x ha
  have hq : x - x % a = a * (x / a) := by
    have := Int.ediv_add_emod x a
    omega
  refine ⟨?_, by omega, by omega, ?_⟩
  · rw [hq]; exact Int.mul_emod_right a (x / a)
  · intro m hm hmx
    obtain ⟨j, rfl⟩ := Int.dvd_of_emod_eq_zero hm
    rw [hq]
    by_contra hlt
    push_neg at hlt
    have hj : x / a < j := lt_of_mul_lt_mul_left hlt (le_of_lt ha)
    have hj1 : a * (x / a + 1) ≤ a * j := mul_le_mul_of_nonneg_left (by omega) (le_of_lt ha)
    rw [mul_add, mul_one] at hj1
    omega

theorem ite_cases2 {α β : Type} {P : α → β → Prop} {c : Prop} [Decidable c] {a b : α}
    {x y : β} (ha : c → P a x) (hb : ¬c → P b y) :
    P (if c then a else b) (if c then x else y) := by
  by_cases h : c
  · rw [if_pos h, if_pos h]; exact ha h
  · rw [if_neg h, if_neg h]; exact hb h

theorem toSizeT_of_nonneg {x : Int} (h0 : 0 ≤ x) (h : InInt32 x) : (toSizeT x : Int) = x := by
  unfold InInt32 at h
  unfold toSizeT
  omega

theorem ceilDiv_spec (w b : Int) (hb : 0 < b) :
    w ≤ b * ceilDiv w b ∧ b * ceilDiv w b < w + b := by
  unfold ceilDiv
  have h1 := Int.ediv_add_emod (-w) b
  have h2 := Int.emod_nonneg (-w) (ne_of_gt hb)
  have h3 := Int.emod_lt_of_pos (-w) hb
  constructor
  · have : b * -(-w / b) = -(b * (-w / b)) := by ring
    omega
  · have : b * -(-w / b) = -(b * (-w / b)) := by ring
    omega

theorem ceilDiv_nonneg (w b : Int) (hw : 0 ≤ w) (hb : 0 < b) : 0 ≤ ceilDiv w b := by
  obtain ⟨h1, -⟩ := ceilDiv_spec w b hb
  by_contra hneg
  push_neg at hneg
  have : b * ceilDiv w b ≤ b * (-1) :=
    mul_le_mul_of_nonneg_left (by omega) (le_of_lt hb)
  omega

theorem ceilDiv_pos (w b : Int) (hw : 0 < w) (hb : 0 < b) : 0 < ceilDiv w b := by
  obtain ⟨h1, -⟩ := ceilDiv_spec w b hb
  by_contra hneg
  push_neg at hneg
  have : b * ceilDiv w b ≤ b * 0 := mul_le_mul_of_nonneg_left hneg (le_of_lt hb)
  omega

theorem ceilDiv_zero (b : Int) : ceilDiv 0 b = 0 := by
  unfold ceilDiv; simp

/-- The rounded-up division of `getNumBlocks` on an axis whose sum does not overflow. -/
theorem tdiv_round_up (w b : Int) (hw : 0 ≤ w) (hb : 0 < b) (hfit : w + b - 1 < 2147483648) :
    Int.tdiv (wrap32 (wrap32 (w + b) - 1)) b = ceilDiv w b := by
  rw [wrap32_sub_one, wrap32_of_inInt32 ⟨by omega, by omega⟩]
  rw [Int.tdiv_eq_ediv (by omega) (by omega)]
  obtain ⟨h1, h2⟩ := ceilDiv_spec w b hb
  have hc := ceilDiv_nonneg w b hw hb
  apply le_antisymm
  · have : (w + b - 1) / b < ceilDiv w b + 1 := by
      apply Int.ediv_lt_of_lt_mul hb
      rw [add_mul, one_mul, mul_comm]; omega
    omega
  · apply Int.le_ediv_of_mul_le hb
    rw [mul_comm]; omega

/-- On an empty axis the rounded-up division of `getNumBlocks` gives no block. -/
theorem tdiv_round_up_zero (b : Int) (hb : 0 < b) (hb2 : b ≤ 12) :
    Int.tdiv (wrap32 (wrap32 (0 + b) - 1)) b = 0 := by
  rw [tdiv_round_up 0 b le_rfl hb (by omega), ceilDiv_zero b]

theorem getNumBlocks_scaled (w h bx bz bytes : Int)
    (hw : 0 ≤ w) (hw2 : w < 2147483648) (hh : 0 ≤ h) (hh2 : h < 2147483648)
    (hbx : 0 < bx) (hbx2 : bx ≤ 12) (hbz : 0 < bz) (hbz2 : bz ≤ 12)
    (hbytes : bx + 1 ≤ bytes) (hbytes2 : bz + 1 ≤ bytes)
    (hfit : bytes * ceilDiv w bx * ceilDiv h bz < 2147483648) :
    wrap32 (bytes * getNumBlocks w h bx bz) = bytes * ceilDiv w bx * ceilDiv h bz := by
  unfold getNumBlocks
  rcases eq_or_lt_of_le hw with hw0 | hwpos
  · subst hw0
    rw [tdiv_round_up_zero bx hbx hbx2, ceilDiv_zero bx]
    simp [wrap32, toI32, toU32]
  rcases eq_or_lt_of_le hh with hh0 | hhpos
  · subst hh0
    rw [tdiv_round_up_zero bz hbz hbz2, ceilDiv_zero bz]
    simp [wrap32, toI32, toU32]
  obtain ⟨hx1, hx2⟩ := ceilDiv_spec w bx hbx
  obtain ⟨hz1, hz2⟩ := ceilDiv_spec h bz hbz
  have hcx := ceilDiv_pos w bx hwpos hbx
  have hcz := ceilDiv_pos h bz hhpos hbz
  generalize hcxd : ceilDiv w bx = cx at *
  generalize hczd : ceilDiv h bz = cz at *
  have e1 : 0 ≤ (bytes * cx) * (cz - 1) :=
    mul_nonneg (mul_nonneg (by omega) (by omega)) (by omega)
  have e2 : 0 ≤ (bytes * cz) * (cx - 1) :=
    mul_nonneg (mul_nonneg (by omega) (by omega)) (by omega)
  have e3 : 0 ≤ (bytes - bx - 1) * cx := mul_nonneg (by omega) (by omega)
  have e4 : 0 ≤ (bytes - bz - 1) * cz := mul_nonneg (by omega) (by omega)
  have e5 : 0 ≤ (12 - bx) * cx := mul_nonneg (by omega) (by omega)
  have e6 : 0 ≤ (12 - bz) * cz := mul_nonneg (by omega) (by omega)
  have e8 : 0 ≤ cx * cz := mul_nonneg (by omega) (by omega)
  have e7 : 0 ≤ (bytes - 1) * (cx * cz) := mul_nonneg (by omega) e8
  have hwfit : w + bx - 1 < 2147483648 := by nlinarith
  have hhfit : h + bz - 1 < 2147483648 := by nlinarith
  rw [tdiv_round_up w bx hw hbx hwfit, tdiv_round_up h bz hh hbz hhfit, hcxd, hczd]
  have e9 : bytes * cx * cz = bytes * (cx * cz) := by ring
  have e10 : 0 ≤ bytes * (cx * cz) := mul_nonneg (by omega) e8
  rw [wrap32_of_inInt32 (x := cx * cz) ⟨by linarith, by nlinarith⟩,
    wrap32_of_inInt32 (x := bytes * (cx * cz)) ⟨by linarith, by linarith⟩, e9]

theorem ComputePixelSize.switchR_spec (type : Nat) :
    PixelSizeSpec 1 type (ComputePixelSize.switchR type) := by
  unfold ComputePixelSize.switchR
  repeat' refine ite_cases (P := PixelSizeSpec 1 type) (fun ht => ?_) (fun _ => ?_)
  all_goals first
    | (subst ht; decide)
    | (intro h; exact absurd h (by decide))

theorem ComputePixelSize.switchRG_spec (type : Nat) :
    PixelSizeSpec 2 type (ComputePixelSize.switchRG type) := by
  unfold ComputePixelSize.switchRG
  repeat' refine ite_cases (P := PixelSizeSpec 2 type) (fun ht => ?_) (fun _ => ?_)
  all_goals first
    | (subst ht; decide)
    | (intro h; exact absurd h (by decide))

theorem ComputePixelSize.switchRGB_spec (type : Nat) :
    PixelSizeSpec 3 type (ComputePixelSize.switchRGB type) := by
  unfold ComputePixelSize.switchRGB
  repeat' refine ite_cases (P := PixelSizeSpec 3 type) (fun ht => ?_) (fun _ => ?_)
  all_goals first
    | (subst ht; decide)
    | (intro h; exact absurd h (by decide))

theorem ComputePixelSize.switchRGBA_spec (type : Nat) :
    PixelSizeSpec 4 type (ComputePixelSize.switchRGBA type) := by
  unfold ComputePixelSize.switchRGBA
  repeat' refine ite_cases (P := PixelSizeSpec 4 type) (fun ht => ?_) (fun _ => ?_)
  all_goals first
    | (subst ht; decide)
    | (intro h; exact absurd h (by decide))

theorem ComputePixelSize.switchDepth_spec (type : Nat) :
    PixelSizeSpec 1 type (ComputePixelSize.switchDepth type) := by
  unfold ComputePixelSize.switchDepth
  repeat' refine ite_cases (P := PixelSizeSpec 1 type) (fun ht => ?_) (fun _ => ?_)
  all_goals first
    | (subst ht; decide)
    | (intro h; exact absurd h (by decide))

theorem ComputePixelSize.switchDepthStencil_spec (type : Nat) :
    PixelSizeSpec 0 type (ComputePixelSize.switchDepthStencil type) := by
  unfold ComputePixelSize.switchDepthStencil
  repeat' refine ite_cases (P := PixelSizeSpec 0 type) (fun ht => ?_) (fun _ => ?_)
  all_goals first
    | (subst ht; decide)
    | (intro h; exact absurd h (by decide))

/-! ## Memory lemmas -/

theorem readBytes_natCast (client : List Byte) (a n : Nat) (h : a + n ≤ client.length) :
    readBytes client (a : Int) n = some ((client.drop a).take n) := by
  unfold readBytes
  rw [if_pos ⟨Int.ofNat_nonneg a, by simpa using h⟩]
  simp

theorem writeBytes_natCast (m : List Byte) (a : Nat) (bs : List Byte)
    (h : a + bs.length ≤ m.length) :
    writeBytes m (a : Int) bs = some (m.take a ++ bs ++ m.drop (a + bs.length)) := by
  unfold writeBytes
  rw [if_pos ⟨Int.ofNat_nonneg a, by simpa using h⟩]
  simp

theorem transfer_natCast (client : List Byte) (s n : Nat) (f : List Byte → List Byte)
    (d : Nat) (r : Run) (hs : s + n ≤ client.length)
    (hd : d + (f ((client.drop s).take n)).length ≤ r.dest.length) :
    transfer client (s : Int) n f (d : Int) r
      = some ⟨r.dest.take d ++ f ((client.drop s).take n)
          ++ r.dest.drop (d + (f ((client.drop s).take n)).length),
        r.reads ++ addresses (s : Int) n⟩ := by
  unfold transfer
  rw [readBytes_natCast client s n hs]
  simp only
  rw [writeBytes_natCast r.dest d _ hd]

theorem length_chunk (client : List Byte) (s n : Nat) (h : s + n ≤ client.length) :
    ((client.drop s).take n).length = n := by
  simp; omega

theorem pixelsOut_length (client : List Byte) (s ss n ds : Nat) (f : List Byte → List Byte)
    (hf : ∀ p : List Byte, p.length = n → (f p).length = ds) (w : Nat)
    (hsrc : ∀ x, x < w → s + ss * x + n ≤ client.length) :
    (pixelsOut client s ss n f w).length = ds * w := by
  induction w with
  | zero => simp [pixelsOut]
  | succ w ih =>
    have h1 := ih (fun x hx => hsrc x (by omega))
    have h2 := hf _ (length_chunk client (s + ss * w) n (hsrc w (by omega)))
    simp only [pixelsOut, List.length_append, h1, h2]
    ring

theorem pixelsRead_succ (s ss : Int) (n w : Nat) :
    pixelsRead s ss n (w + 1) = pixelsRead s ss n w ++ addresses (s + ss * (w : Int)) n := by
  unfold pixelsRead
  rw [List.range_succ, List.flatMap_append]
  simp

/-- Closed form of a row loop: `w` pixels, pixel `x` read at `s + ss * x` and stored at
`d + ds * x`. -/
theorem rowLoop_closed (client : List Byte) (f : List Byte → List Byte) (n ss ds s d : Nat)
    (hf : ∀ p : List Byte, p.length = n → (f p).length = ds) (w : Nat) (r : Run)
    (hsrc : ∀ x, x < w → s + ss * x + n ≤ client.length)
    (hdst : d + ds * w ≤ r.dest.length) :
    (List.range w).foldlM (fun (r : Run) (x : Nat) =>
        transfer client ((s : Int) + (ss : Int) * (x : Int)) n f
          ((d : Int) + (ds : Int) * (x : Int)) r) r
      = some ⟨r.dest.take d ++ pixelsOut client s ss n f w ++ r.dest.drop (d + ds * w),
          r.reads ++ pixelsRead s ss n w⟩ := by
  induction w with
  | zero =>
    simp [pixelsOut, pixelsRead]
  | succ w ih =>
    have hlenw := pixelsOut_length client s ss n ds f hf w (fun x hx => hsrc x (by omega))
    have hchunk := hf _ (length_chunk client (s + ss * w) n (hsrc w (by omega)))
    have hmul : ds * (w + 1) = ds * w + ds := by ring
    rw [List.range_succ, List.foldlM_append, ih (fun x hx => hsrc x (by omega)) (by omega)]
    simp only [List.foldlM_cons, List.foldlM_nil, Option.some_bind, Option.pure_def,
      Option.bind_eq_bind]
    have e1 : ((s : Int) + (ss : Int) * (w : Int)) = ((s + ss * w : Nat) : Int) := by
      push_cast; ring
    have e2 : ((d : Int) + (ds : Int) * (w : Int)) = ((d + ds * w : Nat) : Int) := by
      push_cast; ring
    rw [e1, e2, transfer_natCast _ _ _ _ _ _ (hsrc w (by omega))
      (by simp only [hchunk, List.length_append, List.length_take, List.length_drop, hlenw]
          omega)]
    rw [hchunk, pixelsRead_succ, ← e1]
    simp only [Option.bind_some, Option.some.injEq, Run.mk.injEq, List.append_assoc,
      and_true]
    have hA : (r.dest.take d).length = d := by simp; omega
    have hAB : (r.dest.take d ++ pixelsOut client s ss n f w).length = d + ds * w := by
      simp [hA, hlenw]
    have htake : List.take (d + ds * w)
        (r.dest.take d ++ (pixelsOut client s ss n f w ++ r.dest.drop (d + ds * w)))
        = r.dest.take d ++ pixelsOut client s ss n f w := by
      rw [← List.append_assoc, List.take_left' hAB]
    have hdrop : List.drop (d + ds * w + ds)
        (r.dest.take d ++ (pixelsOut client s ss n f w ++ r.dest.drop (d + ds * w)))
        = r.dest.drop (d + ds * (w + 1)) := by
      have : d + ds * w + ds = (r.dest.take d ++ pixelsOut client s ss n f w).length + ds := by
        rw [hAB]
      rw [← List.append_assoc, this, List.drop_append, List.drop_drop, hmul]
      congr 1
      omega
    rw [htake, hdrop]
    simp [pixelsOut, List.append_assoc]

theorem pixelsOut_chunk (client : List Byte) (s ss n ds : Nat) (f : List Byte → List Byte)
    (hf : ∀ p : List Byte, p.length = n → (f p).length = ds) (w : Nat)
    (hsrc : ∀ x, x < w → s + ss * x + n ≤ client.length) (x : Nat) (hx : x < w) :
    ((pixelsOut client s ss n f w).drop (ds * x)).take ds
      = f ((client.drop (s + ss * x)).take n) := by
  induction w with
  | zero => omega
  | succ w ih =>
    have hlenw := pixelsOut_length client s ss n ds f hf w (fun y hy => hsrc y (by omega))
    have hchunk := hf _ (length_chunk client (s + ss * w) n (hsrc w (by omega)))
    simp only [pixelsOut]
    rcases Nat.lt_or_ge x w with hlt | hge
    · have hle : ds * x + ds ≤ ds * w := by
        have : ds * (x + 1) ≤ ds * w := Nat.mul_le_mul_left ds (by omega)
        rw [Nat.mul_add, Nat.mul_one] at this
        exact this
      rw [List.drop_append_of_le_length (by rw [hlenw]; omega),
        List.take_append_of_le_length (by rw [List.length_drop, hlenw]; omega)]
      exact ih (fun y hy => hsrc y (by omega)) hlt
    · have hxw : x = w := by omega
      subst hxw
      rw [List.drop_left' hlenw, List.take_of_length_le (by omega)]

/-- A row loop writes pixel `x` of the row at `d + ds * x` and nothing else. -/
theorem rowLoop_spec (client : List Byte) (f : List Byte → List Byte) (n ss ds s d : Nat)
    (hf : ∀ p : List Byte, p.length = n → (f p).length = ds) (w : Nat) (r : Run)
    (hsrc : ∀ x, x < w → s + ss * x + n ≤ client.length)
    (hdst : d + ds * w ≤ r.dest.length) :
    ∃ r' : Run,
      (List.range w).foldlM (fun (r : Run) (x : Nat) =>
        transfer client ((s : Int) + (ss : Int) * (x : Int)) n f
          ((d : Int) + (ds : Int) * (x : Int)) r) r = some r' ∧
      r'.dest.length = r.dest.length ∧
      r'.dest.take d = r.dest.take d ∧
      r'.dest.drop (d + ds * w) = r.dest.drop (d + ds * w) ∧
      (∀ x, x < w → (r'.dest.drop (d + ds * x)).take ds
        = f ((client.drop (s + ss * x)).take n)) ∧
      r'.reads = r.reads ++ pixelsRead s ss n w := by
  have hlenw := pixelsOut_length client s ss n ds f hf w hsrc
  have hA : (r.dest.take d).length = d := by simp; omega
  have hAB : (r.dest.take d ++ pixelsOut client s ss n f w).length = d + ds * w := by
    simp [hA, hlenw]
  refine ⟨_, rowLoop_closed client f n ss ds s d hf w r hsrc hdst, ?_, ?_, ?_, ?_, rfl⟩
  · simp only [List.length_append, hA, hlenw, List.length_drop]
    omega
  · rw [List.append_assoc, List.take_left' hA]
  · exact List.drop_left' hAB
  · intro x hx
    have hle : ds * x + ds ≤ ds * w := by
      have : ds * (x + 1) ≤ ds * w := Nat.mul_le_mul_left ds (by omega)
      rw [Nat.mul_add, Nat.mul_one] at this
      exact this
    show ((r.dest.take d ++ pixelsOut client s ss n f w ++ r.dest.drop (d + ds * w)).drop
      (d + ds * x)).take ds = _
    rw [List.append_assoc, ← List.drop_drop, List.drop_left' hA,
      List.drop_append_of_le_length (by rw [hlenw]; omega),
      List.take_append_of_le_length (by rw [List.length_drop, hlenw]; omega)]
    exact pixelsOut_chunk client s ss n ds f hf w hsrc x hx

/-! ## Packed pixel lemmas -/

theorem memcpy_natCast (client : List Byte) (d s n : Nat) (r : Run)
    (hs : s + n ≤ client.length) (hd : d + n ≤ r.dest.length) :
    memcpy client (d : Int) (s : Int) (n : Int) r
      = some ⟨r.dest.take d ++ (client.drop s).take n ++ r.dest.drop (d + n),
          r.reads ++ addresses (s : Int) n⟩ := by
  unfold memcpy
  rw [if_neg (by omega), Int.toNat_ofNat]
  have hl : ((client.drop s).take n).length = n := length_chunk client s n hs
  rw [transfer_natCast client s n id d r hs (by simp only [id, hl]; exact hd)]
  simp only [id, hl]

/-- A `Bytes_N` row whose byte count `N * w` is an `int` is one `memcpy` of that count. -/
theorem LoadImageRow_verbatim_eq (fp : FloatOps) (dt : DataType) (N : Nat)
    (hN : (dt, N) ∈ verbatimTable) (client : List Byte) (s d w : Nat) (r : Run)
    (hfit : N * w < 2147483648) :
    LoadImageRow fp dt client (s : Int) (d : Int) (w : Int) r
      = memcpy client (d : Int) (s : Int) ((N * w : Nat) : Int) r := by
  simp only [verbatimTable, List.mem_cons, Prod.mk.injEq, List.mem_singleton,
    List.not_mem_nil, or_false] at hN
  rcases hN with ⟨rfl, rfl⟩ | ⟨rfl, rfl⟩ | ⟨rfl, rfl⟩ | ⟨rfl, rfl⟩ | ⟨rfl, rfl⟩ <;>
    simp only [LoadImageRow] <;> congr 1 <;>
    first
      | (rw [wrap32_of_inInt32 ⟨by omega, by omega⟩]; push_cast; ring)
      | (push_cast; ring)

/-- A `Bytes_16` row of `2^28` pixels: the `int` product `width * 16` is 0 and the row
copies nothing, whatever the buffers hold. -/
theorem LoadImageRow_Bytes_16_wrapped (fp : FloatOps) (client dest : List Byte)
    (reads : List Int) :
    LoadImageRow fp .Bytes_16 client 0 0 268435456 ⟨dest, reads⟩ = some ⟨dest, reads⟩ := by
  have e : wrap32 (268435456 * 16) = 0 := by decide
  simp only [LoadImageRow, e, memcpy, transfer, readBytes, writeBytes]
  simp [addresses]

theorem sub_chunk (m : List Byte) (a N i L : Nat) (h : i + L ≤ N) :
    (m.drop (a + i)).take L = (((m.drop a).take N).drop i).take L := by
  rw [List.drop_take, List.take_take, List.drop_drop]
  congr 1
  omega

theorem length_bytesLE (n v : Nat) : (bytesLE n v).length = n := by
  simp [bytesLE]

theorem wordLE_lt (p : List Byte) : wordLE p < 256 ^ p.length := by
  induction p with
  | nil => simp [wordLE]
  | cons b p ih =>
    have hb := b.isLt
    have e : wordLE (b :: p) = b.val + 256 * wordLE p := rfl
    rw [e, List.length_cons, pow_succ]
    omega

theorem loadDepthStencilImageData_events (fp : FloatOps) (dT sT : DataType)
    (locks : Locking) (img : Image) (client : List Byte)
    (width height depth inputPitch inputHeight input buffer : Int)
    (c s : List Byte) (rd : List Int) (ev : List Event)
    (h : loadDepthStencilImageData fp dT sT locks img client width height depth inputPitch
      inputHeight input buffer = some (c, s, rd, ev)) :
    (ev = [.lockStencil 0 0 0] ∧ s = img.stencil ∧ locks.lockStencil 0 0 0 = none) ∨
    (ev = [.lockStencil 0 0 0, .unlockStencil] ∧
      ∃ st r2, locks.lockStencil 0 0 0 = some st ∧
        LoadImageData fp sT client width height depth inputPitch inputHeight
          img.stencilPitchB img.height input st ⟨img.stencil, []⟩ = some r2 ∧ s = r2.dest) := by
  unfold loadDepthStencilImageData at h
  split at h
  · exact absurd h (by simp)
  · split at h
    · simp only [Option.some.injEq, Prod.mk.injEq] at h
      obtain ⟨-, h2, -, h4⟩ := h
      left
      exact ⟨h4.symm, h2.symm, by assumption⟩
    · split at h
      · exact absurd h (by simp)
      · simp only [Option.some.injEq, Prod.mk.injEq] at h
        obtain ⟨-, h2, -, h4⟩ := h
        right
        exact ⟨h4.symm, _, _, by assumption, by assumption, h2.symm⟩

/-- The events of an upload on the direct path: one `lock`, possibly the stencil lock and
unlock in between, one `unlock`. -/
theorem loadImageData_direct_events (fp : FloatOps) (locks : Locking) (img : Image)
    (xoffset yoffset zoffset width height depth : Int) (format type : Nat)
    (unpackParameters : PixelStorageModes) (client : List Byte) (up : Upload)
    (hnn : (SelectInternalFormat format type).value ≠ .FORMAT_NULL)
    (hdp : directPath (SelectInternalFormat format type).value img.internalFormat)
    (h : loadImageData fp locks img xoffset yoffset zoffset width height depth format type
      unpackParameters client = some up) :
    up.events = [.lock xoffset yoffset zoffset, .unlock] ∨
    up.events = [.lock xoffset yoffset zoffset, .lockStencil 0 0 0, .unlock] ∨
    up.events = [.lock xoffset yoffset zoffset, .lockStencil 0 0 0, .unlockStencil, .unlock] := by
  simp only [loadImageData, if_neg hnn, if_pos hdp] at h
  split at h
  · simp only [Option.some.injEq] at h
    subst h
    exact Or.inl rfl
  · split at h
    · split at h
      · exact absurd h (by simp)
      · simp only [Option.some.injEq] at h
        subst h
        exact Or.inl rfl
    · split at h
      · exact absurd h (by simp)
      · rename_i colour stencil reads events hds
        simp only [Option.some.injEq] at h
        subst h
        rcases loadDepthStencilImageData_events _ _ _ _ _ _ _ _ _ _ _ _ _ _ _ _ _ hds with
          ⟨e, -⟩ | ⟨e, -⟩ <;> subst e
        · exact Or.inr (Or.inl rfl)
        · exact Or.inr (Or.inr rfl)
    · split at h
      · exact absurd h (by simp)
      · rename_i colour stencil reads events hds
        simp only [Option.some.injEq] at h
        subst h
        rcases loadDepthStencilImageData_events _ _ _ _ _ _ _ _ _ _ _ _ _ _ _ _ _ hds with
          ⟨e, -⟩ | ⟨e, -⟩ <;> subst e
        · exact Or.inr (Or.inl rfl)
        · exact Or.inr (Or.inr rfl)
    · simp only [Option.some.injEq] at h
      subst h
      exact Or.inl rfl

/-- An upload on the direct path with a null lock. -/
theorem loadImageData_null_lock (fp : FloatOps) (locks : Locking) (img : Image)
    (xoffset yoffset zoffset width height depth : Int) (format type : Nat)
    (unpackParameters : PixelStorageModes) (client : List Byte)
    (hnn : (SelectInternalFormat format type).value ≠ .FORMAT_NULL)
    (hdp : directPath (SelectInternalFormat format type).value img.internalFormat)
    (hlock : locks.lock xoffset yoffset zoffset = none) :
    ∃ flt, loadImageData fp locks img xoffset yoffset zoffset width height depth format type
      unpackParameters client
        = some ⟨img.colour, img.stencil, [], [.lock xoffset yoffset zoffset, .unlock], flt⟩ := by
  simp only [loadImageData, if_neg hnn, if_pos hdp, hlock]
  exact ⟨_, rfl⟩

/-- An upload on the blit fallback. -/
theorem loadImageData_fallback (fp : FloatOps) (locks : Locking) (img : Image)
    (xoffset yoffset zoffset width height depth : Int) (format type : Nat)
    (modes : PixelStorageModes) (client : List Byte)
    (hnn : (SelectInternalFormat format type).value ≠ .FORMAT_NULL)
    (hdp : ¬ directPath (SelectInternalFormat format type).value img.internalFormat) :
    ∃ flt, loadImageData fp locks img xoffset yoffset zoffset width height depth format type
      modes client
        = some ⟨img.colour, img.stencil, [],
            [.createSurface width height depth (ConvertFormatType format type).value
                ((ComputePackingOffset format type
                  (if modes.rowLength = 0 then width else modes.rowLength)
                  (if modes.imageHeight = 0 then height else modes.imageHeight) modes).value : Int)
                (ComputePitch (if modes.rowLength = 0 then width else modes.rowLength)
                  format type modes.alignment).value
                (wrap32 ((ComputePitch (if modes.rowLength = 0 then width else modes.rowLength)
                  format type modes.alignment).value
                  * (if modes.imageHeight = 0 then height else modes.imageHeight))),
              .blit xoffset yoffset (wrap32 (xoffset + width)) (wrap32 (yoffset + height)),
              .deleteSurface], flt⟩ := by
  simp only [loadImageData, if_neg hnn, if_neg hdp]
  exact ⟨_, rfl⟩

/-- An upload for which no internal format is found. -/
theorem loadImageData_null (fp : FloatOps) (locks : Locking) (img : Image)
    (xoffset yoffset zoffset width height depth : Int) (format type : Nat)
    (modes : PixelStorageModes) (client : List Byte)
    (hnull : (SelectInternalFormat format type).value = .FORMAT_NULL) :
    loadImageData fp locks img xoffset yoffset zoffset width height depth format type
      modes client
        = some ⟨img.colour, img.stencil, [], [], (SelectInternalFormat format type).faulted⟩ := by
  simp only [loadImageData, if_pos hnull]

/-- The events of a compressed upload. -/
theorem loadCompressedData_events (locks : Locking) (img : Image)
    (xoffset yoffset zoffset width height depth imageSize : Int) (client : List Byte)
    (up : Upload)
    (h : loadCompressedData locks img xoffset yoffset zoffset width height depth imageSize
      client = some up) :
    up.events = [.lock xoffset yoffset zoffset, .unlock] ∧ up.stencil = img.stencil ∧
    (locks.lock xoffset yoffset zoffset = none → up.colour = img.colour ∧ up.reads = []) := by
  unfold loadCompressedData at h
  simp only at h
  split at h
  · exact absurd h (by simp)
  · split at h
    · exact absurd h (by simp)
    · split at h
      · simp only [Option.some.injEq] at h
        subst h
        exact ⟨rfl, rfl, fun _ => ⟨rfl, rfl⟩⟩
      · rename_i hl
        split at h
        · exact absurd h (by simp)
        · simp only [Option.some.injEq] at h
          subst h
          exact ⟨rfl, rfl, fun hn => absurd (hl.symm.trans hn) (by simp)⟩

/-! ## Strided loops over a plane -/

theorem chunk_eq_of_take_eq {l l2 : List Byte} {m : Nat} (h : l.take m = l2.take m)
    (c L : Nat) (hc : c + L ≤ m) : (l.drop c).take L = (l2.drop c).take L := by
  have e : ∀ t : List Byte, (t.drop c).take L = ((t.take m).drop c).take L := by
    intro t
    rw [List.drop_take, List.take_take]
    congr 1
    omega
  rw [e l, e l2, h]

theorem chunk_eq_of_drop_eq {l l2 : List Byte} {m : Nat} (h : l.drop m = l2.drop m)
    (c L : Nat) (hc : m ≤ c) : (l.drop c).take L = (l2.drop c).take L := by
  have e : ∀ t : List Byte, t.drop c = (t.drop m).drop (c - m) := by
    intro t
    rw [List.drop_drop]
    congr 1
    omega
  rw [e l, e l2, h]

theorem foldlM_range_succ (step : Nat → Run → Option Run) (n : Nat) (r : Run) :
    (List.range (n + 1)).foldlM (fun (r : Run) (k : Nat) => step k r) r
      = ((List.range n).foldlM (fun (r : Run) (k : Nat) => step k r) r).bind (step n) := by
  rw [List.range_succ, List.foldlM_append]
  cases (List.range n).foldlM (fun (r : Run) (k : Nat) => step k r) r <;> simp

/-- Two loops over the same list whose bodies agree on its members do the same. -/
theorem foldlM_congr_mem {α : Type} (f g : Run → α → Option Run) (l : List α)
    (h : ∀ a, a ∈ l → ∀ r, f r a = g r a) (r : Run) : l.foldlM f r = l.foldlM g r := by
  induction l generalizing r with
  | nil => rfl
  | cons a l ih =>
    rw [List.foldlM_cons, List.foldlM_cons, h a (List.mem_cons_self a l)]
    cases g r a with
    | none => rfl
    | some r1 => exact ih (fun b hb => h b (List.mem_cons_of_mem a hb)) r1

/-- A loop whose step `k` rewrites only the block `[d + P * k, d + P * k + m)` of the
destination, with `m ≤ P`: the blocks of the steps done keep what their step left, the
gaps between them and the bytes around them keep what they held. -/
theorem stridedLoop_spec (step : Nat → Run → Option Run) (rd : Nat → List Int)
    (R : Nat → List Byte → List Byte → Prop) (d P m h L : Nat) (hm : m ≤ P)
    (hstep : ∀ k, k < h → ∀ r : Run, r.dest.length = L →
      ∃ r2 : Run, step k r = some r2 ∧ r2.dest.length = L ∧
        r2.dest.take (d + P * k) = r.dest.take (d + P * k) ∧
        r2.dest.drop (d + P * k + m) = r.dest.drop (d + P * k + m) ∧
        R k ((r.dest.drop (d + P * k)).take m) ((r2.dest.drop (d + P * k)).take m) ∧
        r2.reads = r.reads ++ rd k)
    (r : Run) (hL : r.dest.length = L) (n : Nat) (hn : n ≤ h) :
    ∃ r2 : Run, (List.range n).foldlM (fun (r : Run) (k : Nat) => step k r) r = some r2 ∧
      r2.dest.length = L ∧
      r2.dest.take d = r.dest.take d ∧
      r2.dest.drop (d + P * n) = r.dest.drop (d + P * n) ∧
      (∀ k, k < n →
        R k ((r.dest.drop (d + P * k)).take m) ((r2.dest.drop (d + P * k)).take m)) ∧
      (∀ k, k < n → (r2.dest.drop (d + P * k + m)).take (P - m)
        = (r.dest.drop (d + P * k + m)).take (P - m)) ∧
      r2.reads = r.reads ++ (List.range n).flatMap rd := by
  induction n with
  | zero => exact ⟨r, rfl, hL, rfl, rfl, fun k hk => absurd hk (by omega),
      fun k hk => absurd hk (by omega), by simp⟩
  | succ n ih =>
    obtain ⟨r1, hrun, hlen, htake, hdrop, hR, hgap, hreads⟩ := ih (by omega)
    obtain ⟨r2, hs, hlen2, htake2, hdrop2, hR2, hreads2⟩ := hstep n (by omega) r1 hlen
    have hmul : P * (n + 1) = P * n + P := by ring
    have hk : ∀ k, k < n → P * k + P ≤ P * n := by
      intro k hk
      have : P * (k + 1) ≤ P * n := Nat.mul_le_mul_left P (by omega)
      rw [Nat.mul_add, Nat.mul_one] at this
      exact this
    refine ⟨r2, ?_, hlen2, ?_, ?_, ?_, ?_, ?_⟩
    · rw [foldlM_range_succ, hrun]
      exact hs
    · have e : ∀ t : List Byte, t.take d = (t.take (d + P * n)).take d := by
        intro t
        rw [List.take_take]
        congr 1
        omega
      rw [e r2.dest, htake2, ← e r1.dest, htake]
    · have e : ∀ t : List Byte, t.drop (d + P * (n + 1))
          = (t.drop (d + P * n + m)).drop (P - m) := by
        intro t
        rw [List.drop_drop]
        congr 1
        omega
      have e2 : ∀ t : List Byte, t.drop (d + P * (n + 1)) = (t.drop (d + P * n)).drop P := by
        intro t
        rw [List.drop_drop]
        congr 1
        omega
      rw [e r2.dest, hdrop2, ← e r1.dest, e2 r1.dest, hdrop, ← e2 r.dest]
    · intro k hkn
      rcases Nat.lt_or_ge k n with hlt | hge
      · have := hk k hlt
        rw [chunk_eq_of_take_eq htake2 (d + P * k) m (by omega)]
        exact hR k hlt
      · have hkn2 : k = n := by omega
        subst hkn2
        rw [← chunk_eq_of_drop_eq hdrop (d + P * k) m (by omega)]
        exact hR2
    · intro k hkn
      rcases Nat.lt_or_ge k n with hlt | hge
      · have := hk k hlt
        rw [chunk_eq_of_take_eq htake2 (d + P * k + m) (P - m) (by omega)]
        exact hgap k hlt
      · have hkn2 : k = n := by omega
        subst hkn2
        rw [hdrop2, chunk_eq_of_drop_eq hdrop (d + P * k + m) (P - m) (by omega)]
    · rw [hreads2, hreads, List.range_succ, List.flatMap_append]
      simp

/-- Rows of `w` pixels, row `y` read at `s + ip * y` and stored at `d + P * y`, with rows
that fit the pitch: `ds * w ≤ P`. -/
theorem planeLoop_spec (client : List Byte) (f : List Byte → List Byte) (n ss ds : Nat)
    (hf : ∀ p : List Byte, p.length = n → (f p).length = ds) (w h s ip d P : Nat) (r : Run)
    (hP : ds * w ≤ P)
    (hsrc : ∀ y x, y < h → x < w → s + ip * y + ss * x + n ≤ client.length)
    (hdst : d + P * h ≤ r.dest.length) :
    ∃ r2 : Run,
      (List.range h).foldlM (fun (r : Run) (y : Nat) =>
        (List.range w).foldlM (fun (r : Run) (x : Nat) =>
          transfer client (((s + ip * y : Nat) : Int) + (ss : Int) * (x : Int)) n f
            (((d + P * y : Nat) : Int) + (ds : Int) * (x : Int)) r) r) r = some r2 ∧
      r2.dest.length = r.dest.length ∧
      r2.dest.take d = r.dest.take d ∧
      r2.dest.drop (d + P * h) = r.dest.drop (d + P * h) ∧
      (∀ y x, y < h → x < w → (r2.dest.drop (d + P * y + ds * x)).take ds
        = f ((client.drop (s + ip * y + ss * x)).take n)) ∧
      (∀ y, y < h → (r2.dest.drop (d + P * y + ds * w)).take (P - ds * w)
        = (r.dest.drop (d + P * y + ds * w)).take (P - ds * w)) ∧
      r2.reads = r.reads ++ (List.range h).flatMap (fun y => pixelsRead (s + ip * y) ss n w) := by
  have hkP : ∀ k, k < h → P * k + P ≤ P * h := by
    intro k hk
    have : P * (k + 1) ≤ P * h := Nat.mul_le_mul_left P (by omega)
    rw [Nat.mul_add, Nat.mul_one] at this
    exact this
  have hxw : ∀ x, x < w → ds * x + ds ≤ ds * w := by
    intro x hx
    have : ds * (x + 1) ≤ ds * w := Nat.mul_le_mul_left ds (by omega)
    rw [Nat.mul_add, Nat.mul_one] at this
    exact this
  obtain ⟨r2, hrun, hlen, htake, hdrop, hR, hgap, hreads⟩ :=
    stridedLoop_spec
      (fun y r => (List.range w).foldlM (fun (r : Run) (x : Nat) =>
        transfer client (((s + ip * y : Nat) : Int) + (ss : Int) * (x : Int)) n f
          (((d + P * y : Nat) : Int) + (ds : Int) * (x : Int)) r) r)
      (fun y => pixelsRead (s + ip * y) ss n w)
      (fun y _ new => ∀ x, x < w → (new.drop (ds * x)).take ds
        = f ((client.drop (s + ip * y + ss * x)).take n))
      d P (ds * w) h r.dest.length hP
      (by
        intro k hk r1 hr1
        have := hkP k hk
        obtain ⟨r2, h1, h2, h3, h4, h5, h6⟩ := rowLoop_spec client f n ss ds (s + ip * k)
          (d + P * k) hf w r1 (fun x hx => hsrc k x hk hx) (by omega)
        refine ⟨r2, h1, by omega, h3, h4, ?_, ?_⟩
        · intro x hx
          rw [← sub_chunk r2.dest (d + P * k) (ds * w) (ds * x) ds (hxw x hx)]
          exact h5 x hx
        · rw [h6]
          push_cast
          rfl)
      r rfl h (le_refl h)
  refine ⟨r2, hrun, hlen, htake, hdrop, ?_, hgap, hreads⟩
  intro y x hy hx
  have := hR y hy x hx
  rw [← sub_chunk r2.dest (d + P * y) (ds * w) (ds * x) ds (hxw x hx)] at this
  exact this

theorem getElem?_of_chunk_eq {l l2 : List Byte} {a a2 k : Nat}
    (h : (l.drop a).take k = (l2.drop a2).take k) (i : Nat) (hi : i < k) :
    l[a + i]? = l2[a2 + i]? := by
  have e : ∀ (t : List Byte) (c : Nat), t[c + i]? = ((t.drop c).take k)[i]? := by
    intro t c
    rw [List.getElem?_take_of_lt hi, List.getElem?_drop]
  rw [e l a, e l2 a2, h]

/-- Rows copied by `memcpy`: row `y` of `n` bytes, read at `s + ip * y` and stored at
`d + P * y`, with `n ≤ P`. -/
theorem copyRows_spec (client : List Byte) (n h s ip d P : Nat) (r : Run) (hP : n ≤ P)
    (hsrc : ∀ y, y < h → s + ip * y + n ≤ client.length)
    (hdst : d + P * h ≤ r.dest.length) :
    ∃ r2 : Run,
      (List.range h).foldlM (fun (r : Run) (y : Nat) =>
        memcpy client ((d + P * y : Nat) : Int) ((s + ip * y : Nat) : Int) (n : Int) r) r
        = some r2 ∧
      r2.dest.length = r.dest.length ∧
      r2.dest.take d = r.dest.take d ∧
      r2.dest.drop (d + P * h) = r.dest.drop (d + P * h) ∧
      (∀ y, y < h → (r2.dest.drop (d + P * y)).take n = (client.drop (s + ip * y)).take n) ∧
      (∀ y, y < h → (r2.dest.drop (d + P * y + n)).take (P - n)
        = (r.dest.drop (d + P * y + n)).take (P - n)) ∧
      r2.reads = r.reads ++ (List.range h).flatMap (fun y => addresses ((s + ip * y : Nat) : Int) n) := by
  obtain ⟨r2, hrun, hlen, htake, hdrop, hrows, hgap, hreads⟩ :=
    planeLoop_spec client id n 0 n (fun _ hp => hp) 1 h s ip d P r (by omega)
      (fun y x hy _ => by have := hsrc y hy; omega) hdst
  have e : (fun (r : Run) (y : Nat) =>
        memcpy client ((d + P * y : Nat) : Int) ((s + ip * y : Nat) : Int) (n : Int) r)
      = (fun (r : Run) (y : Nat) =>
        (List.range 1).foldlM (fun (r : Run) (x : Nat) =>
          transfer client (((s + ip * y : Nat) : Int) + ((0 : Nat) : Int) * (x : Int)) n id
            (((d + P * y : Nat) : Int) + (n : Int) * (x : Int)) r) r) := by
    funext r y
    have hneg : ¬ ((n : Int) < 0) := by omega
    simp [memcpy, hneg, List.range_succ]
  rw [e]
  refine ⟨r2, hrun, hlen, htake, hdrop, ?_, ?_, ?_⟩
  · intro y hy
    have := hrows y 0 hy (by omega)
    simpa using this
  · intro y hy
    have := hgap y hy
    simpa using this
  · rw [hreads]
    congr 1
    simp [pixelsRead, List.range_succ]

/-- A `LoadImageData` over one slice whose row offsets are `int`s: row `y` is read at
`inp + y * ip` and stored at `b + y * P`. -/
theorem LoadImageData_depth_one (fp : FloatOps) (dt : DataType) (client : List Byte)
    (w h : Nat) (ip H P S inp b : Int) (r : Run)
    (hip : ∀ y : Nat, y < h → InInt32 ((y : Int) * ip))
    (hP : ∀ y : Nat, y < h → InInt32 ((y : Int) * P)) :
    LoadImageData fp dt client w h 1 ip H P S inp b r
      = (List.range h).foldlM (fun (r : Run) (y : Nat) =>
          LoadImageRow fp dt client (inp + (y : Int) * ip) (b + (y : Int) * P) w r) r := by
  have e1 : List.range 1 = [0] := rfl
  simp only [LoadImageData, forLoop, Int.toNat_one, e1, List.foldlM_cons,
    List.foldlM_nil, Nat.cast_zero, zero_mul, wrap32_zero, add_zero, Int.toNat_ofNat,
    bind_pure]
  apply foldlM_congr_mem
  intro y hy r1
  rw [List.mem_range] at hy
  rw [wrap32_of_inInt32 (hip y hy), wrap32_of_inInt32 (hP y hy)]

theorem ComputePitch_rgba8 (w : Nat) (hw : 4 * w + 3 < 2147483648) :
    ComputePitch w GL_RGBA GL_UNSIGNED_BYTE 4 = ⟨((4 * w : Nat) : Int), false⟩ := by
  have hs : ComputePixelSize GL_RGBA GL_UNSIGNED_BYTE = ⟨4, false⟩ := by decide
  have h1 : wrap32 (4 * (w : Int)) = 4 * (w : Int) := wrap32_of_inInt32 ⟨by omega, by omega⟩
  have h2 : wrap32 (4 * (w : Int) + 4 - 1) = 4 * (w : Int) + 4 - 1 :=
    wrap32_of_inInt32 ⟨by omega, by omega⟩
  have h3 := and32_not32_low_mask (4 * (w : Int) + 4 - 1) 2 (by omega) (by omega) (by omega)
  have h4 : isPow2 4 = true := by decide
  simp only [ComputePitch, hs, h4]
  rw [h1, wrap32_sub_one, h2]
  norm_num at h3 ⊢
  rw [h3]
  omega


/-- An upload on the direct path that runs one row transcoder. -/
theorem loadImageData_row (fp : FloatOps) (locks : Locking) (img : Image)
    (xoffset yoffset zoffset width height depth : Int) (format type : Nat)
    (modes : PixelStorageModes) (client : List Byte) (buffer : Int) (dataType : DataType)
    (hnn : (SelectInternalFormat format type).value ≠ .FORMAT_NULL)
    (hdp : directPath (SelectInternalFormat format type).value img.internalFormat)
    (hlock : locks.lock xoffset yoffset zoffset = some buffer)
    (hrow : (loadImageData.dispatch format type).value = .row dataType) :
    loadImageData fp locks img xoffset yoffset zoffset width height depth format type
        modes client
      = (LoadImageData fp dataType client width height depth
          (ComputePitch (if modes.rowLength = 0 then width else modes.rowLength) format type
            modes.alignment).value
          (if modes.imageHeight = 0 then height else modes.imageHeight) img.pitch img.slice
          ((ComputePackingOffset format type
            (if modes.rowLength = 0 then width else modes.rowLength)
            (if modes.imageHeight = 0 then height else modes.imageHeight) modes).value : Int)
          buffer ⟨img.colour, []⟩).map
        (fun r => ⟨r.dest, img.stencil, r.reads, [.lock xoffset yoffset zoffset, .unlock],
          ((SelectInternalFormat format type).faulted
            || (ComputePitch (if modes.rowLength = 0 then width else modes.rowLength) format
                type modes.alignment).faulted
            || (ComputePackingOffset format type
                (if modes.rowLength = 0 then width else modes.rowLength)
                (if modes.imageHeight = 0 then height else modes.imageHeight) modes).faulted)
            || (loadImageData.dispatch format type).faulted⟩) := by
  simp only [loadImageData, if_neg hnn, if_pos hdp, hlock, hrow]
  split <;> simp_all

/-- What one `memcpy` leaves in the destination, byte by byte. -/
theorem memcpy_bytes (client : List Byte) (d s n : Nat) (r : Run)
    (hs : s + n ≤ client.length) (hd : d + n ≤ r.dest.length) :
    ∃ r2 : Run, memcpy client (d : Int) (s : Int) (n : Int) r = some r2 ∧
      r2.dest.length = r.dest.length ∧
      (∀ i, i < n → r2.dest[d + i]? = client[s + i]?) ∧
      (∀ j, j < d ∨ d + n ≤ j → r2.dest[j]? = r.dest[j]?) ∧
      r2.reads = r.reads ++ addresses (s : Int) n := by
  have hA : (r.dest.take d).length = d := by simp; omega
  have hB : ((client.drop s).take n).length = n := length_chunk client s n hs
  refine ⟨_, memcpy_natCast client d s n r hs hd, ?_, ?_, ?_, rfl⟩
  · simp only [List.length_append, hA, hB, List.length_drop]
    omega
  · intro i hi
    show (r.dest.take d ++ (client.drop s).take n ++ r.dest.drop (d + n))[d + i]? = _
    rw [List.getElem?_append_left (by simp only [List.length_append, hA, hB]; omega),
      List.getElem?_append_right (by omega), hA, Nat.add_sub_cancel_left,
      List.getElem?_take_of_lt hi, List.getElem?_drop]
  · intro j hj
    show (r.dest.take d ++ (client.drop s).take n ++ r.dest.drop (d + n))[j]? = _
    rcases hj with hj | hj
    · rw [List.append_assoc, List.getElem?_append_left (by omega),
        List.getElem?_take_of_lt hj]
    · rw [List.getElem?_append_right (by simp only [List.length_append, hA, hB]; omega),
        List.getElem?_drop]
      simp only [List.length_append, hA, hB]
      congr 1
      omega

/-- A `GL_RGBA` / `GL_UNSIGNED_BYTE` upload of a 1 x 3 region into a plane of pitch `2^30`
locked at the address `2^31`: the offset `2 * 2^30` of row 2 is `-2^31` as an `int`, so
row 2 is stored at the address 0 and the bytes at `2^31 + 2 * 2^30` keep what they
held. -/
theorem loadImageData_rgba8_wrapped_row (m : List Byte) (hm : 5368709120 ≤ m.length) :
    ∃ up, loadImageData sampleFloatOps ⟨fun _ _ _ => some 2147483648, fun _ _ _ => none⟩
        ⟨GL_RGBA, .FORMAT_A8B8G8R8, 1073741824, 0, 0, 3, m, []⟩
        0 0 0 1 3 1 GL_RGBA GL_UNSIGNED_BYTE ⟨0, 0, 0, 4, 0, 0⟩
        [1, 2, 3, 4, 5, 6, 7, 8, 9, 10, 11, 12] = some up ∧
      up.colour[4294967296]? = m[4294967296]? ∧ up.colour[0]? = some 9 := by
  obtain ⟨r1, h1, (l1 : r1.dest.length = m.length), -,
      (out1 : ∀ j, j < 2147483648 ∨ 2147483648 + 4 ≤ j → r1.dest[j]? = m[j]?), -⟩ :=
    memcpy_bytes [1, 2, 3, 4, 5, 6, 7, 8, 9, 10, 11, 12]
      2147483648 0 4 ⟨m, []⟩ (by decide) (by show 2147483648 + 4 ≤ m.length; omega)
  obtain ⟨r2, h2, l2, -, out2, -⟩ := memcpy_bytes [1, 2, 3, 4, 5, 6, 7, 8, 9, 10, 11, 12]
    3221225472 4 4 r1 (by decide) (by omega)
  obtain ⟨r3, h3, l3, in3, out3, -⟩ := memcpy_bytes [1, 2, 3, 4, 5, 6, 7, 8, 9, 10, 11, 12]
    0 8 4 r2 (by decide) (by omega)
  have e := loadImageData_row sampleFloatOps ⟨fun _ _ _ => some 2147483648, fun _ _ _ => none⟩
    ⟨GL_RGBA, .FORMAT_A8B8G8R8, 1073741824, 0, 0, 3, m, []⟩ 0 0 0 1 3 1 GL_RGBA
    GL_UNSIGNED_BYTE ⟨0, 0, 0, 4, 0, 0⟩ [1, 2, 3, 4, 5, 6, 7, 8, 9, 10, 11, 12] 2147483648
    .Bytes_4 (by decide) (Or.inl (show _ = Format.FORMAT_A8B8G8R8 from by decide)) rfl
    (by decide)
  have hpit : ComputePitch 1 GL_RGBA GL_UNSIGNED_BYTE 4 = ⟨4, false⟩ := by decide
  have hoff : ComputePackingOffset GL_RGBA GL_UNSIGNED_BYTE 1 3 ⟨0, 0, 0, 4, 0, 0⟩
      = ⟨0, false⟩ := by decide
  simp only [if_true, hpit, hoff] at e
  have hrun : LoadImageData sampleFloatOps .Bytes_4 [1, 2, 3, 4, 5, 6, 7, 8, 9, 10, 11, 12]
      1 3 1 4 3 1073741824 0 ((0 : Nat) : Int) 2147483648 ⟨m, []⟩ = some r3 := by
    have e1 : List.range 1 = [0] := rfl
    have e3 : List.range 3 = [0, 1, 2] := rfl
    have t1 : (1 : Int).toNat = 1 := rfl
    have t3 : (3 : Int).toNat = 3 := rfl
    simp only [LoadImageData, forLoop, t1, t3, e1, e3, List.foldlM_cons, List.foldlM_nil,
      LoadImageRow]
    have a0 : (2147483648 : Int) + wrap32 (((0 : Nat) : Int) * 0)
        + wrap32 (((0 : Nat) : Int) * 1073741824) = ((2147483648 : Nat) : Int) := by decide
    have a1 : (2147483648 : Int) + wrap32 (((0 : Nat) : Int) * 0)
        + wrap32 (((1 : Nat) : Int) * 1073741824) = ((3221225472 : Nat) : Int) := by decide
    have a2 : (2147483648 : Int) + wrap32 (((0 : Nat) : Int) * 0)
        + wrap32 (((2 : Nat) : Int) * 1073741824) = ((0 : Nat) : Int) := by decide
    have s0 : ((0 : Nat) : Int) + wrap32 (wrap32 (((0 : Nat) : Int) * 4) * 3)
        + wrap32 (((0 : Nat) : Int) * 4) = ((0 : Nat) : Int) := by decide
    have s1 : ((0 : Nat) : Int) + wrap32 (wrap32 (((0 : Nat) : Int) * 4) * 3)
        + wrap32 (((1 : Nat) : Int) * 4) = ((4 : Nat) : Int) := by decide
    have s2 : ((0 : Nat) : Int) + wrap32 (wrap32 (((0 : Nat) : Int) * 4) * 3)
        + wrap32 (((2 : Nat) : Int) * 4) = ((8 : Nat) : Int) := by decide
    have c : wrap32 (1 * 4) = ((4 : Nat) : Int) := by decide
    rw [a0, a1, a2, s0, s1, s2, c, h1]
    simp only [Option.bind_eq_bind, Option.some_bind, h2, h3, Option.pure_def]
  rw [hrun] at e
  refine ⟨_, e, ?_, ?_⟩
  · show r3.dest[4294967296]? = m[4294967296]?
    rw [out3 _ (Or.inr (by decide)), out2 _ (Or.inr (by decide)), out1 _ (Or.inr (by decide))]
  · show r3.dest[0]? = some 9
    exact in3 0 (by decide)

/-- A product of a row index below `h` and a stride `a` with `a * h` inside `int`. -/
theorem inInt32_mul_of_lt (y a h : Nat) (hy : y < h) (hfit : a * h < 2147483648) :
    InInt32 ((y : Int) * (a : Int)) := by
  have h1 : y * a ≤ a * h := by rw [Nat.mul_comm]; exact Nat.mul_le_mul_left a (by omega)
  have h2 : ((y * a : Nat) : Int) = (y : Int) * (a : Int) := by push_cast; ring
  unfold InInt32
  rw [← h2]
  omega

theorem addresses_append (a : Int) (n m : Nat) :
    addresses a n ++ addresses (a + (n : Int)) m = addresses a (n + m) := by
  unfold addresses
  rw [List.range_add, List.map_append, List.map_map]
  congr 1
  apply List.map_congr_left
  intro i _
  simp only [Function.comp]
  push_cast
  ring

/-- Consecutive tiles of `n` addresses make one range. -/
theorem addresses_tiles (s n k : Nat) :
    (List.range k).flatMap (fun y => addresses ((s + n * y : Nat) : Int) n)
      = addresses (s : Int) (n * k) := by
  induction k with
  | zero => simp [addresses]
  | succ k ih =>
    rw [List.range_succ, List.flatMap_append, ih]
    simp only [List.flatMap_cons, List.flatMap_nil, List.append_nil]
    have e : ((s + n * k : Nat) : Int) = (s : Int) + ((n * k : Nat) : Int) := by push_cast; ring
    rw [e, addresses_append, Nat.mul_succ]

/-- Slices of rows copied by `memcpy`: row `y` of slice `z`, of `n` bytes, is read at
`sl * z + ip * y` and stored at `d + S * z + P * y`, with `n ≤ P` and `P * h ≤ S`. -/
theorem copySlices_spec (client : List Byte) (n h depth sl ip d P S : Nat) (r : Run)
    (hP : n ≤ P) (hS : P * h ≤ S)
    (hsrc : ∀ z y, z < depth → y < h → sl * z + ip * y + n ≤ client.length)
    (hdst : d + S * depth ≤ r.dest.length) :
    ∃ r2 : Run,
      (List.range depth).foldlM (fun (r : Run) (z : Nat) =>
        (List.range h).foldlM (fun (r : Run) (y : Nat) =>
          memcpy client ((d + S * z + P * y : Nat) : Int) ((sl * z + ip * y : Nat) : Int)
            (n : Int) r) r) r = some r2 ∧
      r2.dest.length = r.dest.length ∧
      r2.dest.take d = r.dest.take d ∧
      r2.dest.drop (d + S * depth) = r.dest.drop (d + S * depth) ∧
      (∀ z y, z < depth → y < h → (r2.dest.drop (d + S * z + P * y)).take n
        = (client.drop (sl * z + ip * y)).take n) ∧
      r2.reads = r.reads ++ (List.range depth).flatMap (fun z =>
        (List.range h).flatMap (fun y => addresses ((sl * z + ip * y : Nat) : Int) n)) := by
  have hkS : ∀ k, k < depth → S * k + S ≤ S * depth := by
    intro k hk
    have : S * (k + 1) ≤ S * depth := Nat.mul_le_mul_left S (by omega)
    rw [Nat.mul_add, Nat.mul_one] at this
    exact this
  have hyP : ∀ y, y < h → P * y + P ≤ P * h := by
    intro y hy
    have : P * (y + 1) ≤ P * h := Nat.mul_le_mul_left P (by omega)
    rw [Nat.mul_add, Nat.mul_one] at this
    exact this
  obtain ⟨r2, hrun, hlen, htake, hdrop, hR, -, hreads⟩ :=
    stridedLoop_spec
      (fun z r => (List.range h).foldlM (fun (r : Run) (y : Nat) =>
          memcpy client ((d + S * z + P * y : Nat) : Int) ((sl * z + ip * y : Nat) : Int)
            (n : Int) r) r)
      (fun z => (List.range h).flatMap (fun y => addresses ((sl * z + ip * y : Nat) : Int) n))
      (fun z _ new => ∀ y, y < h → (new.drop (P * y)).take n
        = (client.drop (sl * z + ip * y)).take n)
      d S (P * h) depth r.dest.length hS
      (by
        intro k hk r1 hr1
        have := hkS k hk
        obtain ⟨r2, h1, h2, h3, h4, h5, -, h7⟩ := copyRows_spec client n h (sl * k) ip
          (d + S * k) P r1 hP (fun y hy => hsrc k y hk hy) (by omega)
        refine ⟨r2, h1, by omega, h3, h4, ?_, h7⟩
        intro y hy
        have := hyP y hy
        rw [← sub_chunk r2.dest (d + S * k) (P * h) (P * y) n (by omega)]
        exact h5 y hy)
      r rfl depth (le_refl depth)
  refine ⟨r2, hrun, hlen, htake, hdrop, ?_, hreads⟩
  intro z y hz hy
  have := hR z hz y hy
  have h2 := hyP y hy
  rw [← sub_chunk r2.dest (d + S * z) (P * h) (P * y) n (by omega)] at this
  exact this

/-- A DXT1 upload of 131072 x 65536 pixels with `imageSize = 0`, the value an `int` holds
for the `2^32` bytes of the image: no row is copied, whatever the buffers hold. -/
theorem loadCompressedData_wrapped_size (client m : List Byte) :
    loadCompressedData sampleLocks
        ⟨GL_COMPRESSED_RGB_S3TC_DXT1_EXT, .FORMAT_DXT1, 262144, 0, 0, 65536, m, []⟩
        0 0 0 131072 65536 1 0 client
      = some ⟨m, [], [], [.lock 0 0 0, .unlock], false⟩ := by
  have hp : ComputeCompressedPitch 131072 GL_COMPRESSED_RGB_S3TC_DXT1_EXT = 262144 := by decide
  have h1 : ¬ ((1 : Int) = 0) := by decide
  have h2 : ¬ ((262144 : Int) = 0) := by decide
  have h3 : wrap32 (Int.tdiv 0 1) = 0 := by decide
  have h4 : wrap32 (Int.tdiv 0 262144) = 0 := by decide
  have e1 : List.range 1 = [0] := rfl
  have t1 : (1 : Int).toNat = 1 := rfl
  have t0 : (0 : Int).toNat = 0 := rfl
  simp only [loadCompressedData, hp, if_neg h1, if_neg h2, h3, h4, sampleLocks, forLoop,
    t1, t0, e1, List.range_zero, List.foldlM_cons, List.foldlM_nil]
  rfl

/-- Inside the `int` range `ComputeCompressedSize` is the block formula. -/
theorem ComputeCompressedSize_of_geometry (w h : Int) (format : Nat) (bw bh bytes : Int)
    (hg : blockGeometry format = some (bw, bh, bytes))
    (hw : 0 ≤ w) (hw2 : w < 2147483648) (hh : 0 ≤ h) (hh2 : h < 2147483648)
    (hfit : bytes * ceilDiv w bw * ceilDiv h bh < 2147483648) :
    ComputeCompressedSize w h format = bytes * ceilDiv w bw * ceilDiv h bh := by
  revert hg
  unfold blockGeometry ComputeCompressedSize
  repeat' refine ite_cases2 (P := fun (g : Option (Int × Int × Int)) (r : Int) => g = some (bw, bh, bytes) → r = bytes * ceilDiv w bw * ceilDiv h bh) (fun _ => ?_) (fun _ => ?_)
  all_goals intro hg
  all_goals first
    | (simp only [Option.some.injEq, Prod.mk.injEq] at hg
       obtain ⟨rfl, rfl, rfl⟩ := hg
       exact getNumBlocks_scaled w h _ _ _ hw hw2 hh hh2 (by decide) (by decide)
         (by decide) (by decide) (by decide) (by decide) hfit)
    | exact absurd hg (by simp)

theorem blockGeometry_facts (format : Nat) (bw bh bytes : Int)
    (hg : blockGeometry format = some (bw, bh, bytes)) :
    0 < bw ∧ bw ≤ 12 ∧ 0 < bh ∧ bh ≤ 12 ∧ 8 ≤ bytes ∧ bytes ≤ 16 := by
  revert hg
  unfold blockGeometry
  repeat' refine ite_cases (P := fun g : Option (Int × Int × Int) => g = some (bw, bh, bytes) → 0 < bw ∧ bw ≤ 12 ∧ 0 < bh ∧ bh ≤ 12 ∧ 8 ≤ bytes ∧ bytes ≤ 16) (fun _ => ?_) (fun _ => ?_)
  all_goals intro hg
  all_goals first
    | (simp only [Option.some.injEq, Prod.mk.injEq] at hg
       obtain ⟨rfl, rfl, rfl⟩ := hg
       decide)
    | exact absurd hg (by simp)

theorem ComputeCompressedSize_outside (w h : Int) (format : Nat)
    (hg : blockGeometry format = none) : ComputeCompressedSize w h format = 0 := by
  revert hg
  unfold blockGeometry ComputeCompressedSize
  repeat' refine ite_cases2 (P := fun (g : Option (Int × Int × Int)) (r : Int) => g = none → r = 0) (fun _ => ?_) (fun _ => ?_)
  all_goals intro hg
  all_goals first
    | rfl
    | exact absurd hg (by simp)

theorem ceilDiv_one (b : Int) (hb : 0 < b) : ceilDiv 1 b = 1 := by
  obtain ⟨h1, h2⟩ := ceilDiv_spec 1 b hb
  have h3 : 0 < ceilDiv 1 b := ceilDiv_pos 1 b (by omega) hb
  by_contra hne
  have h4 : 2 ≤ ceilDiv 1 b := by omega
  have : b * 2 ≤ b * ceilDiv 1 b := mul_le_mul_of_nonneg_left h4 (le_of_lt hb)
  omega

/-- The client pitch of a compressed format: the bytes of one row of blocks. -/
theorem ComputeCompressedPitch_of_geometry (w : Int) (format : Nat) (bw bh bytes : Int)
    (hg : blockGeometry format = some (bw, bh, bytes))
    (hw : 0 ≤ w) (hw2 : w < 2147483648) (hfit : bytes * ceilDiv w bw < 2147483648) :
    ComputeCompressedPitch w format = bytes * ceilDiv w bw := by
  obtain ⟨_, _, hbh, _, _, _⟩ := blockGeometry_facts format bw bh bytes hg
  unfold ComputeCompressedPitch
  rw [ComputeCompressedSize_of_geometry w 1 format bw bh bytes hg hw hw2 (by omega) (by omega)
    (by rw [ceilDiv_one bh hbh]; omega), ceilDiv_one bh hbh]
  ring

theorem isPow2_iff (a : Int) (ha : InInt32 a) : isPow2 a = true ↔ ∃ k : Nat, a = 2 ^ k := by
  unfold isPow2
  rw [List.any_eq_true]
  constructor
  · rintro ⟨k, -, hk⟩
    exact ⟨k, of_decide_eq_true hk⟩
  · rintro ⟨k, hk⟩
    refine ⟨k, ?_, decide_eq_true hk⟩
    rw [List.mem_range]
    by_contra hge
    have h31 : (2 : Int) ^ 31 ≤ 2 ^ k := pow_le_pow_right₀ (by norm_num) (by omega)
    have e31 : (2 : Int) ^ 31 = 2147483648 := by norm_num
    obtain ⟨-, h2⟩ := ha
    omega

theorem getElem?_of_take_one {l : List Byte} {a : Nat} {v : Byte}
    (h : (l.drop a).take 1 = [v]) : l[a]? = some v := by
  have e : l[a + 0]? = ((l.drop a).take 1)[0]? := by
    rw [List.getElem?_take_of_lt (by omega), List.getElem?_drop]
  rw [h] at e
  simpa using e

/-! ## Client addresses read -/

theorem mem_addresses (a s : Int) (n : Nat) : a ∈ addresses s n ↔ s ≤ a ∧ a < s + n := by
  unfold addresses
  simp only [List.mem_map, List.mem_range]
  constructor
  · rintro ⟨i, hi, rfl⟩
    omega
  · rintro ⟨h1, h2⟩
    exact ⟨(a - s).toNat, by omega, by omega⟩

theorem transfer_reads (client : List Byte) (src : Int) (n : Nat) (f : List Byte → List Byte)
    (dst : Int) (r r2 : Run) (h : transfer client src n f dst r = some r2) :
    r2.reads = r.reads ++ addresses src n := by
  unfold transfer at h
  split at h
  · exact absurd h (by simp)
  · split at h
    · exact absurd h (by simp)
    · simp only [Option.some.injEq] at h
      subst h
      rfl

theorem foldlM_reads (step : Nat → Run → Option Run) (rd : Nat → List Int)
    (hstep : ∀ k r r2, step k r = some r2 → r2.reads = r.reads ++ rd k) (m : Nat)
    (r r2 : Run)
    (h : (List.range m).foldlM (fun (r : Run) (k : Nat) => step k r) r = some r2) :
    r2.reads = r.reads ++ (List.range m).flatMap rd := by
  induction m generalizing r2 with
  | zero =>
    simp only [List.range_zero, List.foldlM_nil, Option.pure_def, Option.some.injEq] at h
    subst h
    simp
  | succ m ih =>
    rw [foldlM_range_succ] at h
    cases hr : (List.range m).foldlM (fun (r : Run) (k : Nat) => step k r) r with
    | none => rw [hr] at h; exact absurd h (by simp)
    | some r1 =>
      rw [hr] at h
      simp only [Option.some_bind] at h
      rw [hstep m r1 r2 h, ih r1 hr, List.range_succ, List.flatMap_append]
      simp

theorem forLoop_transfer_reads (client : List Byte) (n : Nat) (f : List Byte → List Byte)
    (src dst : Int → Int) (w : Int) (r r2 : Run)
    (h : forLoop w (fun x => transfer client (src x) n f (dst x)) r = some r2) :
    r2.reads = r.reads ++ (List.range w.toNat).flatMap (fun (x : Nat) => addresses (src x) n) :=
  foldlM_reads (fun x r => transfer client (src x) n f (dst x) r)
    (fun x => addresses (src x) n)
    (fun _ _ _ hs => transfer_reads _ _ _ _ _ _ _ hs) w.toNat r r2 h

theorem head_flatMap_addresses (src : Nat → Int) (n m : Nat) (hm : 0 < m) (hn : 0 < n) :
    ∃ tl, (List.range m).flatMap (fun (x : Nat) => addresses (src x) n) = src 0 :: tl := by
  obtain ⟨m, rfl⟩ : ∃ k, m = k + 1 := ⟨m - 1, by omega⟩
  obtain ⟨n, rfl⟩ : ∃ k, n = k + 1 := ⟨n - 1, by omega⟩
  rw [List.range_succ_eq_map, List.flatMap_cons]
  unfold addresses
  rw [List.range_succ_eq_map, List.map_cons]
  simp only [Nat.cast_zero, add_zero, List.cons_append]
  exact ⟨_, rfl⟩


theorem addresses_head (s : Int) (n : Nat) (hn : 0 < n) : ∃ tl, addresses s n = s :: tl := by
  obtain ⟨n, rfl⟩ : ∃ k, n = k + 1 := ⟨n - 1, by omega⟩
  unfold addresses
  rw [List.range_succ_eq_map, List.map_cons]
  simp only [Nat.cast_zero, add_zero]
  exact ⟨_, rfl⟩

theorem forLoop_transfer_reads_mem (client : List Byte) (n : Nat) (f : List Byte → List Byte)
    (src dst : Int → Int) (w : Int) (r r2 : Run)
    (h : forLoop w (fun x => transfer client (src x) n f (dst x)) r = some r2) :
    ∃ new, r2.reads = r.reads ++ new ∧
      (∀ a, a ∈ new ↔ ∃ x : Nat, (x : Int) < w ∧ src x ≤ a ∧ a < src x + n) ∧
      (0 < w → 0 < n → ∃ tl, new = src ((0 : Nat) : Int) :: tl) := by
  refine ⟨_, forLoop_transfer_reads _ _ _ _ _ _ _ _ h, ?_, ?_⟩
  · intro a
    simp only [List.mem_flatMap, List.mem_range, mem_addresses]
    constructor
    · rintro ⟨x, hx, h1, h2⟩
      exact ⟨x, by omega, h1, h2⟩
    · rintro ⟨x, hx, h1, h2⟩
      exact ⟨x, by omega, h1, h2⟩
  · intro hw hn
    exact head_flatMap_addresses (fun x : Nat => src x) n w.toNat (by omega) hn

theorem memcpy_reads (client : List Byte) (dest source n : Int) (r r2 : Run)
    (h : memcpy client dest source n r = some r2) :
    0 ≤ n ∧ r2.reads = r.reads ++ addresses source n.toNat := by
  unfold memcpy at h
  split at h
  · exact absurd h (by simp)
  · exact ⟨by omega, transfer_reads _ _ _ _ _ _ _ h⟩

/-- What a row transcoder reads: with `(stride, offset, length) = readShape dataType`,
pixel `x` of the row is read at `source + stride * x + offset`, `length` bytes, and
nothing else is read; the first byte read of a row with pixels is `source + offset`. -/
theorem LoadImageRow_reads (fp : FloatOps) (dt : DataType) (client : List Byte)
    (source dest w : Int) (r r2 : Run)
    (hfit : (∃ N, (dt, N) ∈ verbatimTable) → InInt32 ((readShape dt).1 * w))
    (h : LoadImageRow fp dt client source dest w r = some r2) :
    ∃ new, r2.reads = r.reads ++ new ∧
      (∀ a, a ∈ new ↔ ∃ x : Nat, (x : Int) < w ∧
        source + (readShape dt).1 * x + (readShape dt).2.1 ≤ a ∧
        a < source + (readShape dt).1 * x + (readShape dt).2.1 + (readShape dt).2.2) ∧
      (0 < w → ∃ tl, new = (source + (readShape dt).2.1) :: tl) := by
  cases dt <;> simp only [LoadImageRow] at h <;> simp only [readShape] at hfit ⊢ <;> first
    | (obtain ⟨new, hr, hmem, hhead⟩ := forLoop_transfer_reads_mem _ _ _ _ _ _ _ _ h
       refine ⟨new, hr, ?_, ?_⟩
       · intro a
         rw [hmem a]
         constructor <;> rintro ⟨x, hx, h1, h2⟩ <;> exact ⟨x, hx, by omega, by omega⟩
       · intro hw
         obtain ⟨tl, e⟩ := hhead hw (by omega)
         exact ⟨tl, by rw [e]; simp⟩)
    | (have hf := hfit (by first | exact ⟨1, by decide⟩ | exact ⟨2, by decide⟩ | exact ⟨4, by decide⟩ | exact ⟨8, by decide⟩ | exact ⟨16, by decide⟩)
       try rw [wrap32_of_inInt32 (by rw [mul_comm]; exact hf)] at h
       obtain ⟨hn, hr⟩ := memcpy_reads _ _ _ _ _ _ h
       refine ⟨_, hr, ?_, ?_⟩
       · intro a
         rw [mem_addresses]
         constructor
         · rintro ⟨h1, h2⟩
           first
             | exact ⟨(a - source).toNat, by omega, by omega, by omega⟩
             | exact ⟨((a - source) / 2).toNat, by omega, by omega, by omega⟩
             | exact ⟨((a - source) / 4).toNat, by omega, by omega, by omega⟩
             | exact ⟨((a - source) / 8).toNat, by omega, by omega, by omega⟩
             | exact ⟨((a - source) / 16).toNat, by omega, by omega, by omega⟩
         · rintro ⟨x, hx, h1, h2⟩
           omega
       · intro hw
         simp only [add_zero]
         exact addresses_head source _ (by omega))

theorem dispatch_spec (format type : Nat) :
    DispatchSpec format type (loadImageData.dispatch format type) := by
  unfold loadImageData.dispatch
  refine ite_cases (fun hf => ?_) (fun _ => ?_)
  · rcases hf with rfl | rfl | rfl | rfl <;>
    (repeat' refine ite_cases (P := DispatchSpec _ type) (fun h => ?_) (fun _ => ?_)) <;>
    first
      | (subst h; decide)
      | (rcases h with rfl | rfl <;> decide)
      | (unfold DispatchSpec; intro hn; exact absurd rfl hn)
  refine ite_cases (fun hf => ?_) (fun _ => ?_)
  · rcases hf with rfl | rfl | rfl <;>
    (repeat' refine ite_cases (P := DispatchSpec _ type) (fun h => ?_) (fun _ => ?_)) <;>
    first
      | (subst h; decide)
      | (rcases h with rfl | rfl <;> decide)
      | (unfold DispatchSpec; intro hn; exact absurd rfl hn)
  refine ite_cases (fun hf => ?_) (fun _ => ?_)
  · rcases hf with rfl | rfl <;>
    (repeat' refine ite_cases (P := DispatchSpec _ type) (fun h => ?_) (fun _ => ?_)) <;>
    first
      | (subst h; decide)
      | (rcases h with rfl | rfl <;> decide)
      | (unfold DispatchSpec; intro hn; exact absurd rfl hn)
  refine ite_cases (fun hf => ?_) (fun _ => ?_)
  · rcases hf with rfl | rfl | rfl <;>
    (repeat' refine ite_cases (P := DispatchSpec _ type) (fun h => ?_) (fun _ => ?_)) <;>
    first
      | (subst h; decide)
      | (rcases h with rfl | rfl <;> decide)
      | (unfold DispatchSpec; intro hn; exact absurd rfl hn)
  refine ite_cases (fun hf => ?_) (fun _ => ?_)
  · subst hf
    (repeat' refine ite_cases (P := DispatchSpec _ type) (fun h => ?_) (fun _ => ?_)) <;>
    first
      | (subst h; decide)
      | (unfold DispatchSpec; intro hn; exact absurd rfl hn)
  refine ite_cases (fun hf => ?_) (fun _ => ?_)
  · subst hf
    (repeat' refine ite_cases (P := DispatchSpec _ type) (fun h => ?_) (fun _ => ?_)) <;>
    first
      | (subst h; decide)
      | (unfold DispatchSpec; intro hn; exact absurd rfl hn)
  · unfold DispatchSpec
    intro hn
    exact absurd rfl hn

theorem foldlM_invariant {α : Type} (Inv : Run → Prop) (step : Run → α → Option Run)
    (hstep : ∀ a r r2, Inv r → step r a = some r2 → Inv r2) (l : List α) (r r2 : Run)
    (h0 : Inv r) (h : l.foldlM step r = some r2) : Inv r2 := by
  induction l generalizing r with
  | nil =>
    simp only [List.foldlM_nil, Option.pure_def, Option.some.injEq] at h
    subst h
    exact h0
  | cons a l ih =>
    rw [List.foldlM_cons] at h
    cases hs : step r a with
    | none => rw [hs] at h; exact absurd h (by simp)
    | some r1 =>
      rw [hs] at h
      exact ih r1 (hstep a r r1 h0 hs) h

theorem foldlM_flatMap_map {α β γ : Type} (step : Run → γ → Option Run) (g : α → β → γ)
    (l : List α) (l2 : List β) (r : Run) :
    (l.flatMap (fun z => l2.map (g z))).foldlM step r
      = l.foldlM (fun r z => l2.foldlM (fun r y => step r (g z y)) r) r := by
  induction l generalizing r with
  | nil => simp
  | cons a l ih =>
    rw [List.flatMap_cons, List.foldlM_append, List.foldlM_cons, List.foldlM_map]
    cases l2.foldlM (fun r y => step r (g a y)) r with
    | none => simp
    | some r1 => simpa using ih r1

theorem foldlM_invariant_mem {α : Type} (Inv : Run → Prop) (step : Run → α → Option Run)
    (l : List α) (hstep : ∀ a, a ∈ l → ∀ r r2, Inv r → step r a = some r2 → Inv r2)
    (r r2 : Run) (h0 : Inv r) (h : l.foldlM step r = some r2) : Inv r2 := by
  induction l generalizing r with
  | nil =>
    simp only [List.foldlM_nil, Option.pure_def, Option.some.injEq] at h
    subst h
    exact h0
  | cons a l ih =>
    rw [List.foldlM_cons] at h
    cases hs : step r a with
    | none => rw [hs] at h; exact absurd h (by simp)
    | some r1 =>
      rw [hs] at h
      exact ih (fun b hb => hstep b (List.mem_cons_of_mem a hb)) r1
        (hstep a (List.mem_cons_self a l) r r1 h0 hs) h

/-- The row addresses `LoadImageData` computes, as the `int` expressions of the source. -/
theorem LoadImageData_eq_calls (fp : FloatOps) (dt : DataType) (client : List Byte)
    (width height depth ip H P S input buffer : Int) (r : Run) :
    LoadImageData fp dt client width height depth ip H P S input buffer r
      = ((List.range depth.toNat).flatMap fun (z : Nat) =>
          (List.range height.toNat).map fun (y : Nat) =>
            (input + wrap32 (wrap32 ((z : Int) * ip) * H) + wrap32 ((y : Int) * ip),
              buffer + wrap32 ((z : Int) * S) + wrap32 ((y : Int) * P))).foldlM
          (fun r c => LoadImageRow fp dt client c.1 c.2 width r) r := by
  simp only [LoadImageData, forLoop]
  rw [foldlM_flatMap_map]

/-- When the offsets of the rows are `int`s, `LoadImageData` runs the row transcoder over
`rowCalls`, the addresses as the exact products. -/
theorem LoadImageData_eq_rowCalls (fp : FloatOps) (dt : DataType) (client : List Byte)
    (width height depth ip H P S input buffer : Int) (r : Run)
    (hz : ∀ z : Nat, (z : Int) < depth →
      InInt32 ((z : Int) * ip) ∧ InInt32 ((z : Int) * ip * H) ∧ InInt32 ((z : Int) * S))
    (hy : ∀ y : Nat, (y : Int) < height →
      InInt32 ((y : Int) * ip) ∧ InInt32 ((y : Int) * P)) :
    LoadImageData fp dt client width height depth ip H P S input buffer r
      = (rowCalls height depth ip H P S input buffer).foldlM
          (fun r c => LoadImageRow fp dt client c.1 c.2 width r) r := by
  simp only [LoadImageData, forLoop, rowCalls]
  rw [foldlM_flatMap_map]
  apply foldlM_congr_mem
  intro z hzm r1
  rw [List.mem_range] at hzm
  obtain ⟨h1, h2, h3⟩ := hz z (by omega)
  apply foldlM_congr_mem
  intro y hym r2
  rw [List.mem_range] at hym
  obtain ⟨h4, h5⟩ := hy y (by omega)
  rw [wrap32_of_inInt32 h1, wrap32_of_inInt32 h2, wrap32_of_inInt32 h3,
    wrap32_of_inInt32 h4, wrap32_of_inInt32 h5]

theorem getElem?_flatMap_map {γ : Type} (g : Nat → Nat → γ) (d h z y : Nat) (hz : z < d)
    (hy : y < h) :
    ((List.range d).flatMap (fun z => (List.range h).map (g z)))[z * h + y]? = some (g z y) := by
  induction d with
  | zero => omega
  | succ d ih =>
    have hlen : ((List.range d).flatMap (fun z => (List.range h).map (g z))).length = d * h := by
      clear ih hz
      induction d with
      | zero => simp
      | succ d ih2 =>
        rw [List.range_succ, List.flatMap_append, List.length_append, ih2]
        simp [Nat.succ_mul]
    rw [List.range_succ, List.flatMap_append]
    rcases Nat.lt_or_ge z d with hlt | hge
    · have : z * h + y < d * h := by
        have : (z + 1) * h ≤ d * h := Nat.mul_le_mul_right h (by omega)
        rw [Nat.succ_mul] at this
        omega
      rw [List.getElem?_append_left (by rw [hlen]; exact this)]
      exact ih hlt
    · have hzd : z = d := by omega
      subst hzd
      rw [List.getElem?_append_right (by rw [hlen]; omega), hlen]
      simp [hy]

theorem rowCalls_length (height depth ip H P S input buffer : Int) :
    (rowCalls height depth ip H P S input buffer).length = depth.toNat * height.toNat := by
  unfold rowCalls
  generalize depth.toNat = d
  induction d with
  | zero => simp
  | succ d ih =>
    rw [List.range_succ, List.flatMap_append, List.length_append, ih]
    simp [Nat.succ_mul]

theorem readShape_nonneg (dt : DataType) : 0 ≤ (readShape dt).1 ∧ 0 ≤ (readShape dt).2.1 := by
  cases dt <;> decide

theorem mem_rowCalls_ge (height depth ip H P S input buffer : Int) (hip : 0 ≤ ip)
    (hH : 0 ≤ H) (c : Int × Int) (hc : c ∈ rowCalls height depth ip H P S input buffer) :
    input ≤ c.1 := by
  unfold rowCalls at hc
  simp only [List.mem_flatMap, List.mem_range, List.mem_map] at hc
  obtain ⟨z, -, y, -, rfl⟩ := hc
  have h1 : 0 ≤ (z : Int) * ip * H := mul_nonneg (mul_nonneg (by omega) hip) hH
  have h2 : 0 ≤ (y : Int) * ip := mul_nonneg (by omega) hip
  simp only
  omega

/-- The client side of `LoadImageData_eq_rowCalls`: when the client offsets of the rows
are `int`s, every row is read at its address in `rowCalls`, wherever it is stored. -/
theorem LoadImageData_eq_sources (fp : FloatOps) (dt : DataType) (client : List Byte)
    (width height depth ip H P S input buffer : Int) (r : Run)
    (hz : ∀ z : Nat, (z : Int) < depth →
      InInt32 ((z : Int) * ip) ∧ InInt32 ((z : Int) * ip * H))
    (hy : ∀ y : Nat, (y : Int) < height → InInt32 ((y : Int) * ip)) :
    LoadImageData fp dt client width height depth ip H P S input buffer r
      = ((List.range depth.toNat).flatMap fun (z : Nat) =>
          (List.range height.toNat).map fun (y : Nat) =>
            (input + (z : Int) * ip * H + (y : Int) * ip,
              buffer + wrap32 ((z : Int) * S) + wrap32 ((y : Int) * P))).foldlM
          (fun r c => LoadImageRow fp dt client c.1 c.2 width r) r := by
  simp only [LoadImageData, forLoop]
  rw [foldlM_flatMap_map]
  apply foldlM_congr_mem
  intro z hzm r1
  rw [List.mem_range] at hzm
  obtain ⟨h1, h2⟩ := hz z (by omega)
  apply foldlM_congr_mem
  intro y hym r2
  rw [List.mem_range] at hym
  rw [wrap32_of_inInt32 h1, wrap32_of_inInt32 h2, wrap32_of_inInt32 (hy y (by omega))]

/-- Every client address a `LoadImageData` reads is at or after `input`, when the input
pitch and the input height are not negative. -/
theorem LoadImageData_reads_ge (fp : FloatOps) (dt : DataType) (client : List Byte)
    (width height depth ip H P S input buffer : Int) (r r2 : Run) (hip : 0 ≤ ip) (hH : 0 ≤ H)
    (hfit : InInt32 ((readShape dt).1 * width))
    (hz : ∀ z : Nat, (z : Int) < depth →
      InInt32 ((z : Int) * ip) ∧ InInt32 ((z : Int) * ip * H))
    (hy : ∀ y : Nat, (y : Int) < height → InInt32 ((y : Int) * ip))
    (h0 : ∀ a ∈ r.reads, input ≤ a)
    (h : LoadImageData fp dt client width height depth ip H P S input buffer r = some r2) :
    ∀ a ∈ r2.reads, input ≤ a := by
  rw [LoadImageData_eq_sources fp dt client width height depth ip H P S input buffer r hz hy]
    at h
  refine foldlM_invariant_mem (fun r => ∀ a ∈ r.reads, input ≤ a) _ _ ?_ r r2 h0 h
  intro c hc r1 r3 hinv hs a ha
  obtain ⟨new, hr, hmem, -⟩ :=
    LoadImageRow_reads fp dt client c.1 c.2 width r1 r3 (fun _ => hfit) hs
  rw [hr, List.mem_append] at ha
  rcases ha with ha | ha
  · exact hinv a ha
  · obtain ⟨x, -, h1, -⟩ := (hmem a).mp ha
    simp only [List.mem_flatMap, List.mem_range, List.mem_map] at hc
    obtain ⟨z, -, y, -, rfl⟩ := hc
    have h5 : 0 ≤ (z : Int) * ip * H := mul_nonneg (mul_nonneg (by omega) hip) hH
    have h6 : 0 ≤ (y : Int) * ip := mul_nonneg (by omega) hip
    obtain ⟨h2, h3⟩ := readShape_nonneg dt
    have h4 : 0 ≤ (readShape dt).1 * (x : Int) := mul_nonneg h2 (by omega)
    simp only at h1
    omega

/-- The first client address a `LoadImageData` over a non-empty region reads. -/
theorem LoadImageData_reads_head (fp : FloatOps) (dt : DataType) (client : List Byte)
    (width height depth ip H P S input buffer : Int) (dest : List Byte) (r2 : Run)
    (hw : 0 < width) (hh : 0 < height) (hd : 0 < depth)
    (hfit : InInt32 ((readShape dt).1 * width))
    (h : LoadImageData fp dt client width height depth ip H P S input buffer ⟨dest, []⟩
      = some r2) :
    ∃ tl, r2.reads = (input + (readShape dt).2.1) :: tl := by
  rw [LoadImageData_eq_calls] at h
  have h0 : ((List.range depth.toNat).flatMap fun (z : Nat) =>
          (List.range height.toNat).map fun (y : Nat) =>
            (input + wrap32 (wrap32 ((z : Int) * ip) * H) + wrap32 ((y : Int) * ip),
              buffer + wrap32 ((z : Int) * S) + wrap32 ((y : Int) * P)))[0 * height.toNat + 0]?
      = some (input + wrap32 (wrap32 (((0 : Nat) : Int) * ip) * H)
            + wrap32 (((0 : Nat) : Int) * ip),
          buffer + wrap32 (((0 : Nat) : Int) * S) + wrap32 (((0 : Nat) : Int) * P)) :=
    getElem?_flatMap_map _ depth.toNat height.toNat 0 0 (by omega) (by omega)
  simp only [Nat.zero_mul, Nat.add_zero, Nat.cast_zero, zero_mul, add_zero, wrap32_zero]
    at h0
  generalize ((List.range depth.toNat).flatMap fun (z : Nat) =>
          (List.range height.toNat).map fun (y : Nat) =>
            (input + wrap32 (wrap32 ((z : Int) * ip) * H) + wrap32 ((y : Int) * ip),
              buffer + wrap32 ((z : Int) * S) + wrap32 ((y : Int) * P))) = calls at h h0
  cases calls with
  | nil => exact absurd h0 (by simp)
  | cons c l =>
    simp only [List.getElem?_cons_zero, Option.some.injEq] at h0
    subst h0
    rw [List.foldlM_cons] at h
    cases hs : LoadImageRow fp dt client input buffer width ⟨dest, []⟩ with
    | none => simp only [hs] at h; exact absurd h (by simp)
    | some r1 =>
      simp only [hs] at h
      obtain ⟨new, hr, -, hhead⟩ :=
        LoadImageRow_reads fp dt client input buffer width _ r1 (fun _ => hfit) hs
      obtain ⟨tl, e⟩ := hhead hw
      refine foldlM_invariant_mem (fun r => ∃ tl, r.reads = (input + (readShape dt).2.1) :: tl)
        _ l ?_ r1 r2 ⟨tl, by rw [hr, e]; rfl⟩ h
      intro c _ r3 r4 ⟨tl3, e3⟩ hs3
      obtain ⟨new3, hr3, -, -⟩ :=
        LoadImageRow_reads fp dt client c.1 c.2 width r3 r4 (fun _ => hfit) hs3
      exact ⟨tl3 ++ new3, by rw [hr3, e3]; rfl⟩

theorem loadDepthStencilImageData_reads (fp : FloatOps) (dT sT : DataType)
    (locks : Locking) (img : Image) (client : List Byte)
    (width height depth inputPitch inputHeight input buffer : Int)
    (c s : List Byte) (rd : List Int) (ev : List Event)
    (h : loadDepthStencilImageData fp dT sT locks img client width height depth inputPitch
      inputHeight input buffer = some (c, s, rd, ev)) :
    ∃ r1, LoadImageData fp dT client width height depth inputPitch inputHeight img.pitch
        img.slice input buffer ⟨img.colour, []⟩ = some r1 ∧
      (rd = r1.reads ∨
        ∃ st r2, LoadImageData fp sT client width height depth inputPitch inputHeight
          img.stencilPitchB img.height input st ⟨img.stencil, []⟩ = some r2 ∧
          rd = r1.reads ++ r2.reads) := by
  unfold loadDepthStencilImageData at h
  split at h
  · exact absurd h (by simp)
  · rename_i r1 h1
    refine ⟨r1, h1, ?_⟩
    split at h
    · simp only [Option.some.injEq, Prod.mk.injEq] at h
      exact Or.inl h.2.2.1.symm
    · split at h
      · exact absurd h (by simp)
      · simp only [Option.some.injEq, Prod.mk.injEq] at h
        exact Or.inr ⟨_, _, by assumption, h.2.2.1.symm⟩

/-- The client reads of a completed upload on the direct path whose lock succeeded: those
of one `LoadImageData`, or of the depth pass followed, when the stencil lock succeeds, by
those of the stencil pass; the first pass never is `S24_8`, and the client pixels of each
pass have the size `ComputePixelSize` gives. -/
theorem loadImageData_reads (fp : FloatOps) (locks : Locking) (img : Image)
    (xoffset yoffset zoffset width height depth : Int) (format type : Nat)
    (modes : PixelStorageModes) (client : List Byte) (buffer : Int) (up : Upload)
    (hnn : (SelectInternalFormat format type).value ≠ .FORMAT_NULL)
    (hdp : directPath (SelectInternalFormat format type).value img.internalFormat)
    (hlock : locks.lock xoffset yoffset zoffset = some buffer)
    (hdisp : (loadImageData.dispatch format type).value ≠ .nothing)
    (hup : loadImageData fp locks img xoffset yoffset zoffset width height depth format type
      modes client = some up) :
    ∃ (dT : DataType) (r1 : Run), (readShape dT).2.1 = 0 ∧
      (readShape dT).1 = (ComputePixelSize format type).value ∧
      LoadImageData fp dT client width height depth
        (ComputePitch (if modes.rowLength = 0 then width else modes.rowLength) format type
          modes.alignment).value
        (if modes.imageHeight = 0 then height else modes.imageHeight) img.pitch img.slice
        ((ComputePackingOffset format type
          (if modes.rowLength = 0 then width else modes.rowLength)
          (if modes.imageHeight = 0 then height else modes.imageHeight) modes).value : Int)
        buffer ⟨img.colour, []⟩ = some r1 ∧
      (up.reads = r1.reads ∨
        ∃ (sT : DataType) (st : Int) (r2 : Run),
          (readShape sT).1 = (ComputePixelSize format type).value ∧
          LoadImageData fp sT client width height depth
            (ComputePitch (if modes.rowLength = 0 then width else modes.rowLength) format type
              modes.alignment).value
            (if modes.imageHeight = 0 then height else modes.imageHeight) img.stencilPitchB
            img.height
            ((ComputePackingOffset format type
              (if modes.rowLength = 0 then width else modes.rowLength)
              (if modes.imageHeight = 0 then height else modes.imageHeight) modes).value : Int)
            st ⟨img.stencil, []⟩ = some r2 ∧
          up.reads = r1.reads ++ r2.reads) := by
  have hspec := dispatch_spec format type hdisp
  simp only [loadImageData, if_neg hnn, if_pos hdp, hlock] at hup
  split at hup
  · rename_i dt ha
    rw [ha] at hspec
    have hoff : (readShape dt).2.1 = 0 := by
      have := hspec.2
      simp only [rowShapeOk, decide_eq_true_eq] at this
      exact this.1
    split at hup
    · exact absurd hup (by simp)
    · rename_i r1 h1
      simp only [Option.some.injEq] at hup
      subst hup
      exact ⟨dt, r1, hoff, by rw [hspec.1]; rfl, h1, Or.inl rfl⟩
  · split at hup
    · exact absurd hup (by simp)
    · rename_i ha _ c s rd ev hds
      rw [ha] at hspec
      simp only [Option.some.injEq] at hup
      subst hup
      obtain ⟨r1, h1, h2⟩ := loadDepthStencilImageData_reads _ _ _ _ _ _ _ _ _ _ _ _ _ _ _ _ _ hds
      refine ⟨.D24, r1, rfl, by rw [hspec.1]; rfl, h1, ?_⟩
      rcases h2 with h2 | ⟨st, r2, h3, h4⟩
      · exact Or.inl h2
      · exact Or.inr ⟨.S8, st, r2, by rw [hspec.1]; rfl, h3, h4⟩
  · split at hup
    · exact absurd hup (by simp)
    · rename_i ha _ c s rd ev hds
      rw [ha] at hspec
      simp only [Option.some.injEq] at hup
      subst hup
      obtain ⟨r1, h1, h2⟩ := loadDepthStencilImageData_reads _ _ _ _ _ _ _ _ _ _ _ _ _ _ _ _ _ hds
      refine ⟨.D32FS8, r1, rfl, by rw [hspec.1]; rfl, h1, ?_⟩
      rcases h2 with h2 | ⟨st, r2, h3, h4⟩
      · exact Or.inl h2
      · exact Or.inr ⟨.S24_8, st, r2, by rw [hspec.1]; rfl, h3, h4⟩
  · rename_i ha
    exact absurd ha hdisp

/-- A binary32 value is an integer multiple of `2^-149`. -/
theorem binary32Value_dyadic (bits : Nat) (q : ℚ) (h : binary32Value bits = some q) :
    ∃ k : Int, q * 2 ^ 149 = (k : ℚ) := by
  unfold binary32Value at h
  simp only at h
  split at h
  · exact absurd h (by simp)
  · simp only [Option.some.injEq] at h
    subst h
    have hpos : (2 : ℚ) ^ 149 ≠ 0 := by positivity
    rw [div_mul_cancel₀ _ hpos]
    generalize (if bits / 2 ^ 23 % 256 = 0 then bits % 2 ^ 23
      else (2 ^ 23 + bits % 2 ^ 23) * 2 ^ (bits / 2 ^ 23 % 256 - 1) : Nat) = K
    split
    · exact ⟨-(K : Int), by rw [Int.cast_neg, Int.cast_natCast]; ring⟩
    · exact ⟨(K : Int), by rw [Int.cast_natCast]; ring⟩

theorem binary32Value_ne_inv (bits : Nat) : binary32Value bits ≠ some (1 / 16777215) := by
  intro h
  obtain ⟨k, hk⟩ := binary32Value_dyadic bits _ h
  have h2 : ((2 : Int) ^ 149 : ℚ) = ((16777215 * k : Int) : ℚ) := by
    push_cast
    rw [← hk]
    ring
  have h3 : (2 : Int) ^ 149 = 16777215 * k := by exact_mod_cast h2
  omega

theorem LoadImageRow_S8_eq (fp : FloatOps) (client : List Byte) (s d w : Nat) (r : Run) :
    LoadImageRow fp .S8 client (s : Int) (d : Int) (w : Int) r
      = (List.range w).foldlM (fun (r : Run) (x : Nat) =>
        transfer client ((s : Int) + ((4 : Nat) : Int) * (x : Int)) 4
          (fun p => [toByte (wordLE p &&& 0x000000FF)])
          ((d : Int) + ((1 : Nat) : Int) * (x : Int)) r) r := by
  simp only [LoadImageRow, forLoop, Int.toNat_ofNat, Nat.cast_ofNat, Nat.cast_one, one_mul]

theorem LoadImageRow_D24_eq (fp : FloatOps) (client : List Byte) (s d w : Nat) (r : Run) :
    LoadImageRow fp .D24 client (s : Int) (d : Int) (w : Int) r
      = (List.range w).foldlM (fun (r : Run) (x : Nat) =>
        transfer client ((s : Int) + ((4 : Nat) : Int) * (x : Int)) 4
          (fun p =>
            bytesLE 4 (floatDiv (toFloat (wordLE p &&& 0xFFFFFF00)) (toFloat 0xFFFFFF00)))
          ((d : Int) + ((4 : Nat) : Int) * (x : Int)) r) r := by
  simp only [LoadImageRow, forLoop, Int.toNat_ofNat, Nat.cast_ofNat]

theorem LoadImageRow_D32FS8_eq (fp : FloatOps) (client : List Byte) (s d w : Nat) (r : Run) :
    LoadImageRow fp .D32FS8 client (s : Int) (d : Int) (w : Int) r
      = (List.range w).foldlM (fun (r : Run) (x : Nat) =>
        transfer client ((s : Int) + ((8 : Nat) : Int) * (x : Int)) 4
          (fun p => bytesLE 4 (fp.clamp01 (wordLE p)))
          ((d : Int) + ((4 : Nat) : Int) * (x : Int)) r) r := by
  simp only [LoadImageRow, forLoop, Int.toNat_ofNat, Nat.cast_ofNat]

theorem LoadImageRow_S24_8_eq (fp : FloatOps) (client : List Byte) (s d w : Nat) (r : Run) :
    LoadImageRow fp .S24_8 client (s : Int) (d : Int) (w : Int) r
      = (List.range w).foldlM (fun (r : Run) (x : Nat) =>
        transfer client (((s + 4 : Nat) : Int) + ((8 : Nat) : Int) * (x : Int)) 4
          (fun p => [toByte (wordLE p &&& 0x000000FF)])
          ((d : Int) + ((1 : Nat) : Int) * (x : Int)) r) r := by
  simp only [LoadImageRow, forLoop, Int.toNat_ofNat, Nat.cast_ofNat, Nat.cast_one, one_mul]
  congr 1
  funext r x
  congr 1
  push_cast
  ring

theorem and_low_byte (v : Nat) : v &&& 0x000000FF = v % 256 :=
  Nat.and_pow_two_sub_one_eq_mod v 8

theorem and_high_bytes (v : Nat) (hv : v < 4294967296) : v &&& 0xFFFFFF00 = v - v % 256 :=
  and_high_mask v 8 hv (by omega)

/-! ## Rounding to binary32 -/

theorem ilog2Step_spec (x : Nat) (acc : Nat × Nat) (s : Nat) (h1 : 1 ≤ acc.1)
    (h2 : acc.1 < 2 ^ (s + s)) (h3 : 2 ^ acc.2 * acc.1 ≤ x)
    (h4 : x < 2 ^ acc.2 * (acc.1 + 1)) :
    1 ≤ (ilog2Step acc s).1 ∧ (ilog2Step acc s).1 < 2 ^ s ∧
    2 ^ (ilog2Step acc s).2 * (ilog2Step acc s).1 ≤ x ∧
    x < 2 ^ (ilog2Step acc s).2 * ((ilog2Step acc s).1 + 1) := by
  have hs : 0 < 2 ^ s := Nat.two_pow_pos s
  unfold ilog2Step
  split_ifs with h
  · have hdm := Nat.div_add_mod acc.1 (2 ^ s)
    have hml := Nat.mod_lt acc.1 hs
    simp only
    refine ⟨(Nat.one_le_div_iff hs).mpr h, ?_, ?_, ?_⟩
    · rw [Nat.div_lt_iff_lt_mul hs, ← pow_add]
      exact h2
    · rw [pow_add, Nat.mul_assoc]
      exact le_trans (Nat.mul_le_mul_left _ (Nat.mul_div_le _ _)) h3
    · rw [pow_add, Nat.mul_assoc]
      refine lt_of_lt_of_le h4 (Nat.mul_le_mul_left _ ?_)
      rw [Nat.mul_add, Nat.mul_one]
      omega
  · exact ⟨h1, by omega, h3, h4⟩

theorem ilog2_spec (x : Nat) (hx : 1 ≤ x) (hx2 : x < 2 ^ 256) :
    2 ^ ilog2 x ≤ x ∧ x < 2 ^ (ilog2 x + 1) := by
  unfold ilog2
  simp only [List.foldl_cons, List.foldl_nil]
  obtain ⟨a1, a2, a3, a4⟩ := ilog2Step_spec x (x, 0) 128 hx hx2 (by simp) (by simp)
  obtain ⟨b1, b2, b3, b4⟩ := ilog2Step_spec x _ 64 a1 a2 a3 a4
  obtain ⟨c1, c2, c3, c4⟩ := ilog2Step_spec x _ 32 b1 b2 b3 b4
  obtain ⟨d1, d2, d3, d4⟩ := ilog2Step_spec x _ 16 c1 c2 c3 c4
  obtain ⟨e1, e2, e3, e4⟩ := ilog2Step_spec x _ 8 d1 d2 d3 d4
  obtain ⟨f1, f2, f3, f4⟩ := ilog2Step_spec x _ 4 e1 e2 e3 e4
  obtain ⟨g1, g2, g3, g4⟩ := ilog2Step_spec x _ 2 f1 f2 f3 f4
  obtain ⟨k1, k2, k3, k4⟩ := ilog2Step_spec x _ 1 g1 g2 g3 g4
  generalize ilog2Step (ilog2Step (ilog2Step (ilog2Step (ilog2Step (ilog2Step (ilog2Step
    (ilog2Step (x, 0) 128) 64) 32) 16) 8) 4) 2) 1 = acc at k1 k2 k3 k4 ⊢
  have e : acc.1 = 1 := by omega
  rw [e] at k3 k4
  rw [pow_succ]
  omega

theorem ilog2_unique (x a : Nat) (hx : x < 2 ^ 256) (h1 : 2 ^ a ≤ x) (h2 : x < 2 ^ (a + 1)) :
    ilog2 x = a := by
  have hx1 : 1 ≤ x := le_trans (Nat.one_le_two_pow) h1
  obtain ⟨h3, h4⟩ := ilog2_spec x hx1 hx
  have ha : a < ilog2 x + 1 :=
    (Nat.pow_lt_pow_iff_right (by decide : 1 < 2)).mp (lt_of_le_of_lt h1 h4)
  have hb : ilog2 x < a + 1 :=
    (Nat.pow_lt_pow_iff_right (by decide : 1 < 2)).mp (lt_of_le_of_lt h3 h2)
  omega

theorem roundHalfEven_spec (n d : Nat) (hd : 0 < d) :
    2 * (roundHalfEven n d * d) ≤ 2 * n + d ∧ 2 * n ≤ 2 * (roundHalfEven n d * d) + d := by
  have h1 := Nat.div_add_mod n d
  have h2 := Nat.mod_lt n hd
  have h3 : d * (n / d) = n / d * d := Nat.mul_comm _ _
  unfold roundHalfEven
  simp only
  split_ifs <;> constructor <;> first | omega | (rw [Nat.add_mul]; omega)

theorem roundHalfEven_exact (a d : Nat) (hd : 0 < d) : roundHalfEven (a * d) d = a := by
  unfold roundHalfEven
  simp only [Nat.mul_mod_left, Nat.mul_div_cancel _ hd]
  rw [if_pos (by omega)]

/-- The exponent `roundBinary32` finds for a quotient inside a binade. -/
theorem ilog2_quotient (n d E : Nat) (hd : 0 < d) (hE2 : E ≤ 253)
    (hlo : d * 2 ^ E ≤ n * 2 ^ 127) (hhi : n * 2 ^ 127 < d * 2 ^ (E + 1)) :
    ilog2 (n * 2 ^ 127 / d) = E := by
  have h1 : 2 ^ E ≤ n * 2 ^ 127 / d := by
    rw [Nat.le_div_iff_mul_le hd, Nat.mul_comm]
    exact hlo
  have h2 : n * 2 ^ 127 / d < 2 ^ (E + 1) := by
    rw [Nat.div_lt_iff_lt_mul hd, Nat.mul_comm (2 ^ (E + 1)) d]
    exact hhi
  have h3 : (2 : Nat) ^ (E + 1) ≤ 2 ^ 256 := Nat.pow_le_pow_right (by decide) (by omega)
  exact ilog2_unique _ E (by omega) h1 h2

/-- The significand `roundBinary32` rounds, as a fraction `N / D` with
`N * (d * 2^E) = n * 2^150 * D`. -/
theorem significand_fraction (n d E : Nat) (hd : 0 < d) :
    ∃ N D : Nat, 0 < D ∧ N * (d * 2 ^ E) = n * 2 ^ 150 * D ∧
      (if E ≤ 150 then roundHalfEven (n * 2 ^ (150 - E)) d
        else roundHalfEven n (d * 2 ^ (E - 150))) = roundHalfEven N D := by
  by_cases h : E ≤ 150
  · refine ⟨n * 2 ^ (150 - E), d, hd, ?_, by rw [if_pos h]⟩
    have e2 : 150 - E + E = 150 := by omega
    have e : (2 : Nat) ^ 150 = 2 ^ (150 - E) * 2 ^ E := by
      rw [← pow_add, e2]
    rw [e]
    ring
  · refine ⟨n, d * 2 ^ (E - 150), Nat.mul_pos hd (Nat.two_pow_pos _), ?_, by rw [if_neg h]⟩
    have e2 : 150 + (E - 150) = E := by omega
    have e : (2 : Nat) ^ E = 2 ^ 150 * 2 ^ (E - 150) := by
      rw [← pow_add, e2]
    rw [e]
    ring

/-- A quotient inside the binade of the biased exponent `E` is rounded to a significand
`m` of 24 bits, or to `2^24`, the nearest integer to `n * 2^150 / (d * 2^E)`. -/
theorem roundBinary32_spec (n d E : Nat) (hd : 0 < d) (hE1 : 1 ≤ E) (hE2 : E ≤ 253)
    (hlo : d * 2 ^ E ≤ n * 2 ^ 127) (hhi : n * 2 ^ 127 < d * 2 ^ (E + 1)) :
    ∃ m : Nat, 2 ^ 23 ≤ m ∧ m ≤ 2 ^ 24 ∧
      roundBinary32 n d = (E - 1) * 2 ^ 23 + m ∧
      2 * (m * (d * 2 ^ E)) ≤ 2 * (n * 2 ^ 150) + d * 2 ^ E ∧
      2 * (n * 2 ^ 150) ≤ 2 * (m * (d * 2 ^ E)) + d * 2 ^ E := by
  obtain ⟨N, D, hD, hND, hm⟩ := significand_fraction n d E hd
  obtain ⟨hs1, hs2⟩ := roundHalfEven_spec N D hD
  generalize hQ : d * 2 ^ E = Q at *
  have hQpos : 0 < Q := by rw [← hQ]; exact Nat.mul_pos hd (Nat.two_pow_pos _)
  generalize roundHalfEven N D = m at *
  have h1 : 2 * (m * Q) ≤ 2 * (n * 2 ^ 150) + Q := by
    apply Nat.le_of_mul_le_mul_left _ hD
    calc D * (2 * (m * Q)) = 2 * (m * D) * Q := by ring
      _ ≤ (2 * N + D) * Q := Nat.mul_le_mul_right _ hs1
      _ = 2 * (N * Q) + D * Q := by ring
      _ = D * (2 * (n * 2 ^ 150) + Q) := by rw [hND]; ring
  have h2 : 2 * (n * 2 ^ 150) ≤ 2 * (m * Q) + Q := by
    apply Nat.le_of_mul_le_mul_left _ hD
    calc D * (2 * (n * 2 ^ 150)) = 2 * (n * 2 ^ 150 * D) := by ring
      _ = 2 * N * Q := by rw [← hND]; ring
      _ ≤ (2 * (m * D) + D) * Q := Nat.mul_le_mul_right _ hs2
      _ = D * (2 * (m * Q) + Q) := by ring
  have e150 : n * 2 ^ 150 = n * 2 ^ 127 * 2 ^ 23 := by ring
  have hlo2 : Q * 2 ^ 23 ≤ n * 2 ^ 150 := by
    rw [e150]; exact Nat.mul_le_mul_right _ hlo
  have hhi2 : n * 2 ^ 150 < Q * 2 ^ 24 := by
    have e : d * 2 ^ (E + 1) = Q * 2 := by rw [← hQ, pow_succ]; ring
    rw [e] at hhi
    have : n * 2 ^ 127 * 2 ^ 23 < Q * 2 * 2 ^ 23 :=
      Nat.mul_lt_mul_of_pos_right hhi (Nat.two_pow_pos 23)
    rw [e150]
    calc n * 2 ^ 127 * 2 ^ 23 < Q * 2 * 2 ^ 23 := this
      _ = Q * 2 ^ 24 := by ring
  have hm2 : m ≤ 2 ^ 24 := by
    have h3 : (2 * m) * Q < (2 ^ 25 + 1) * Q := by
      calc (2 * m) * Q = 2 * (m * Q) := by ring
        _ ≤ 2 * (n * 2 ^ 150) + Q := h1
        _ < 2 * (Q * 2 ^ 24) + Q := by omega
        _ = (2 ^ 25 + 1) * Q := by ring
    have h4 := Nat.lt_of_mul_lt_mul_right h3
    omega
  have hm1 : 2 ^ 23 ≤ m := by
    have h3 : 2 ^ 24 * Q ≤ (2 * m + 1) * Q := by
      calc 2 ^ 24 * Q = 2 * (Q * 2 ^ 23) := by ring
        _ ≤ 2 * (n * 2 ^ 150) := by omega
        _ ≤ 2 * (m * Q) + Q := h2
        _ = (2 * m + 1) * Q := by ring
    have h4 := Nat.le_of_mul_le_mul_right h3 hQpos
    omega
  refine ⟨m, hm1, hm2, ?_, h1, h2⟩
  have hE : ilog2 (n * 2 ^ 127 / d) = E :=
    ilog2_quotient n d E hd hE2 (by rw [hQ]; exact hlo) hhi
  unfold roundBinary32
  simp only [hE, max_eq_left hE1, hm]
  apply min_eq_left
  have : (E - 1) * 2 ^ 23 ≤ 252 * 2 ^ 23 := Nat.mul_le_mul_right _ (by omega)
  omega

/-- The value of a bit pattern that is not an infinity or a NaN, from its magnitude in
units of `2^-149`. -/
theorem binary32Value_eq (bits : Nat) (h : bits / 2 ^ 23 % 256 ≠ 255) :
    binary32Value bits
      = some ((if bits / 2 ^ 31 % 2 = 1 then -1 else 1) * (binary32Scaled bits : ℚ) / 2 ^ 149) := by
  unfold binary32Value binary32Scaled
  simp only [if_neg h]

/-- The magnitude of a bit pattern is a significand below `2^24` times a power of two. -/
theorem binary32Scaled_shape (bits : Nat) :
    ∃ M t : Nat, M < 2 ^ 24 ∧ binary32Scaled bits = M * 2 ^ t := by
  unfold binary32Scaled
  have hm : bits % 2 ^ 23 < 2 ^ 23 := Nat.mod_lt _ (Nat.two_pow_pos 23)
  split_ifs
  · exact ⟨bits % 2 ^ 23, 0, by omega, by simp⟩
  · exact ⟨2 ^ 23 + bits % 2 ^ 23, bits / 2 ^ 23 % 256 - 1, by omega, rfl⟩

/-- The bit pattern with biased exponent `E` and significand `m` (`m = 2^24` carries into
the next exponent) has the magnitude `m * 2^(E - 1)` and is positive and finite. -/
theorem binary32_decode (E m : Nat) (hE1 : 1 ≤ E) (hE2 : E ≤ 253) (hm1 : 2 ^ 23 ≤ m)
    (hm2 : m ≤ 2 ^ 24) :
    binary32Scaled ((E - 1) * 2 ^ 23 + m) = m * 2 ^ (E - 1) ∧
    binary32Value ((E - 1) * 2 ^ 23 + m) = some (((m * 2 ^ (E - 1) : Nat) : ℚ) / 2 ^ 149) := by
  obtain ⟨F, rfl⟩ : ∃ F, E = F + 1 := ⟨E - 1, by omega⟩
  simp only [Nat.add_sub_cancel]
  have e23 : (2 : Nat) ^ 23 = 8388608 := by norm_num
  have e24 : (2 : Nat) ^ 24 = 16777216 := by norm_num
  have e31 : (2 : Nat) ^ 31 = 2147483648 := by norm_num
  rw [e23] at hm1
  rw [e24] at hm2
  rw [e23]
  have hs : binary32Scaled (F * 8388608 + m) = m * 2 ^ F := by
    unfold binary32Scaled
    simp only [e23]
    rcases Nat.lt_or_ge m 16777216 with hlt | hge
    · have h1 : (F * 8388608 + m) / 8388608 % 256 = F + 1 := by omega
      have h2 : (F * 8388608 + m) % 8388608 = m - 8388608 := by omega
      have e : 8388608 + (m - 8388608) = m := by omega
      rw [h1, h2, if_neg (by omega), Nat.add_sub_cancel, e]
    · have hm : m = 16777216 := by omega
      subst hm
      have h1 : (F * 8388608 + 16777216) / 8388608 % 256 = F + 2 := by omega
      have h2 : (F * 8388608 + 16777216) % 8388608 = 0 := by omega
      rw [h1, h2, if_neg (by omega)]
      have : F + 2 - 1 = F + 1 := by omega
      rw [this, pow_succ]
      ring
  refine ⟨hs, ?_⟩
  have hfin : (F * 8388608 + m) / 2 ^ 23 % 256 ≠ 255 := by
    rw [e23]; omega
  have hsign : ¬ ((F * 8388608 + m) / 2 ^ 31 % 2 = 1) := by
    rw [e31]; omega
  rw [binary32Value_eq _ hfin, if_neg hsign, hs, one_mul]

/-- An integer within one half of `x` is at least as near to `x` as any integer. -/
theorem abs_sub_le_of_int (x : ℚ) (m k : ℤ) (h : |(m : ℚ) - x| ≤ 1 / 2) :
    |(m : ℚ) - x| ≤ |(k : ℚ) - x| := by
  by_cases hmk : k = m
  · rw [hmk]
  · have h1 : (1 : ℚ) ≤ |(k : ℚ) - (m : ℚ)| := by
      have h0 : (1 : ℤ) ≤ |k - m| := Int.one_le_abs (sub_ne_zero.mpr hmk)
      exact_mod_cast h0
    have h2 : |(k : ℚ) - (m : ℚ)| ≤ |(k : ℚ) - x| + |(m : ℚ) - x| := by
      have h3 := abs_sub_le (k : ℚ) x (m : ℚ)
      rw [abs_sub_comm x (m : ℚ)] at h3
      exact h3
    linarith

/-- Inside a binade with spacing `2^F` (in units of `2^-149`), where the quotient is `x`
spacings with `2^23 ≤ x` and `m` is an integer within one half of `x`: no value
`± M * 2^t` with `M < 2^24`, in spacings `± M * 2^t / 2^F`, is nearer to `x` than `m`. -/
theorem nearest_in_binade (x : ℚ) (m F M t : Nat) (hx1 : |(m : ℚ) - x| ≤ 1 / 2)
    (hx2 : (2 : ℚ) ^ 23 ≤ x) (hM : M < 2 ^ 24) (sgn : ℚ) (hs : sgn = 1 ∨ sgn = -1) :
    |(m : ℚ) - x| ≤ |sgn * ((M : ℚ) * 2 ^ t) / 2 ^ F - x| := by
  have hG : (0 : ℚ) < (2 : ℚ) ^ F := by positivity
  have far : ∀ U : ℚ, U ≤ 2 ^ 23 - 1 / 2 → |(m : ℚ) - x| ≤ |U - x| := by
    intro U hU
    have h3 : (1 : ℚ) / 2 ≤ -(U - x) := by linarith
    exact le_trans hx1 (le_trans h3 (neg_le_abs _))
  have hMq : (M : ℚ) ≤ 2 ^ 24 - 1 := by
    have h0 : M + 1 ≤ 16777216 := hM
    have h3 : ((M + 1 : Nat) : ℚ) ≤ ((16777216 : Nat) : ℚ) := Nat.cast_le.mpr h0
    push_cast at h3
    norm_num
    linarith
  have hM0 : (0 : ℚ) ≤ (M : ℚ) := Nat.cast_nonneg M
  have hK0 : (0 : ℚ) ≤ (M : ℚ) * 2 ^ t := mul_nonneg hM0 (by positivity)
  rcases hs with hs | hs
  · subst hs
    rw [one_mul]
    by_cases ht : F ≤ t
    · have e : F + (t - F) = t := by omega
      have hpow : (2 : ℚ) ^ t = 2 ^ F * 2 ^ (t - F) := by rw [← pow_add, e]
      have hU : (M : ℚ) * 2 ^ t / 2 ^ F = (((M * 2 ^ (t - F) : Nat) : ℤ) : ℚ) := by
        rw [hpow]
        push_cast
        field_simp
        ring
      rw [hU]
      have := abs_sub_le_of_int x (m : ℤ) ((M * 2 ^ (t - F) : Nat) : ℤ)
        (by rw [Int.cast_natCast]; exact hx1)
      rw [Int.cast_natCast] at this
      exact this
    · apply far
      have e : t + ((F - t - 1) + 1) = F := by omega
      have hpow : (2 : ℚ) ^ F = 2 ^ t * (2 ^ (F - t - 1) * 2) := by
        rw [← pow_succ, ← pow_add, e]
      have ht0 : (0 : ℚ) < (2 : ℚ) ^ t := by positivity
      have hp1 : (1 : ℚ) ≤ 2 ^ (F - t - 1) := one_le_pow₀ (by norm_num)
      have hp2 : (0 : ℚ) < 2 ^ (F - t - 1) * 2 := by positivity
      have hU : (M : ℚ) * 2 ^ t / 2 ^ F = (M : ℚ) / (2 ^ (F - t - 1) * 2) := by
        rw [hpow]
        field_simp
        ring
      rw [hU, div_le_iff₀ hp2]
      have h5 : ((2 : ℚ) ^ 23 - 1 / 2) * 2 ≤ (2 ^ 23 - 1 / 2) * (2 ^ (F - t - 1) * 2) := by
        apply mul_le_mul_of_nonneg_left _ (by norm_num)
        linarith
      have h6 : ((2 : ℚ) ^ 23 - 1 / 2) * 2 = 2 ^ 24 - 1 := by norm_num
      linarith
  · subst hs
    apply far
    have h3 : -1 * ((M : ℚ) * 2 ^ t) / 2 ^ F ≤ 0 :=
      div_nonpos_of_nonpos_of_nonneg (by linarith) (le_of_lt hG)
    have h4 : (0 : ℚ) ≤ 2 ^ 23 - 1 / 2 := by norm_num
    linarith

/-- Rounding to binary32, for a quotient `n / d` inside the binade of the biased exponent
`E`: the result is the finite positive pattern of magnitude `m * 2^(E - 1)` (in units of
`2^-149`) with `2^23 ≤ m ≤ 2^24`; no binary32 value is nearer to `n / d`; and a quotient
that is itself `a * 2^(E - 150)` for an integer `a` is kept exactly. -/
theorem roundBinary32_nearest (n d E : Nat) (hd : 0 < d) (hE1 : 1 ≤ E) (hE2 : E ≤ 253)
    (hlo : d * 2 ^ E ≤ n * 2 ^ 127) (hhi : n * 2 ^ 127 < d * 2 ^ (E + 1)) :
    ∃ m : Nat, 2 ^ 23 ≤ m ∧ m ≤ 2 ^ 24 ∧
      binary32Scaled (roundBinary32 n d) = m * 2 ^ (E - 1) ∧
      binary32Value (roundBinary32 n d) = some (((m * 2 ^ (E - 1) : Nat) : ℚ) / 2 ^ 149) ∧
      (∀ (bits : Nat) (u : ℚ), binary32Value bits = some u →
        |((m * 2 ^ (E - 1) : Nat) : ℚ) / 2 ^ 149 - (n : ℚ) / d| ≤ |u - (n : ℚ) / d|) ∧
      (∀ a : Nat, n * 2 ^ 150 = a * (d * 2 ^ E) → m = a) := by
  obtain ⟨m, hm1, hm2, hbits, h1, h2⟩ := roundBinary32_spec n d E hd hE1 hE2 hlo hhi
  obtain ⟨hsc, hval⟩ := binary32_decode E m hE1 hE2 hm1 hm2
  rw [hbits]
  refine ⟨m, hm1, hm2, hsc, hval, ?_, ?_⟩
  · intro bits u hu
    have hfin : bits / 2 ^ 23 % 256 ≠ 255 := by
      intro h
      unfold binary32Value at hu
      simp only [h, if_true] at hu
      exact absurd hu (by simp)
    rw [binary32Value_eq bits hfin] at hu
    simp only [Option.some.injEq] at hu
    obtain ⟨M, t, hM, hK⟩ := binary32Scaled_shape bits
    rw [hK] at hu
    obtain ⟨F, rfl⟩ : ∃ F, E = F + 1 := ⟨E - 1, by omega⟩
    simp only [Nat.add_sub_cancel] at *
    have hdq : (0 : ℚ) < (d : ℚ) := Nat.cast_pos.mpr hd
    have hG : (0 : ℚ) < (2 : ℚ) ^ F := by positivity
    have hA : (0 : ℚ) < (2 : ℚ) ^ 149 := by positivity
    have e150 : (2 : ℚ) ^ 150 = 2 ^ 149 * 2 := by norm_num
    have c1 : 2 * ((m : ℚ) * ((d : ℚ) * (2 ^ F * 2)))
        ≤ 2 * ((n : ℚ) * (2 ^ 149 * 2)) + (d : ℚ) * (2 ^ F * 2) := by
      have := (Nat.cast_le (α := ℚ)).mpr h1
      simp only [Nat.cast_mul, Nat.cast_add, Nat.cast_pow, Nat.cast_ofNat] at this
      rw [pow_succ (2 : ℚ) F, e150] at this
      exact this
    have c2 : 2 * ((n : ℚ) * (2 ^ 149 * 2))
        ≤ 2 * ((m : ℚ) * ((d : ℚ) * (2 ^ F * 2))) + (d : ℚ) * (2 ^ F * 2) := by
      have := (Nat.cast_le (α := ℚ)).mpr h2
      simp only [Nat.cast_mul, Nat.cast_add, Nat.cast_pow, Nat.cast_ofNat] at this
      rw [pow_succ (2 : ℚ) F, e150] at this
      exact this
    have c3 : (d : ℚ) * (2 ^ F * 2) * 2 ^ 23 ≤ (n : ℚ) * (2 ^ 149 * 2) := by
      have h3 : d * 2 ^ (F + 1) * 2 ^ 23 ≤ n * 2 ^ 127 * 2 ^ 23 := Nat.mul_le_mul_right _ hlo
      have h4 : n * 2 ^ 127 * 2 ^ 23 = n * 2 ^ 150 := by ring
      rw [h4] at h3
      have := (Nat.cast_le (α := ℚ)).mpr h3
      simp only [Nat.cast_mul, Nat.cast_add, Nat.cast_pow, Nat.cast_ofNat] at this
      rw [pow_succ (2 : ℚ) F, e150] at this
      exact this
    have hsgn : (if bits / 2 ^ 31 % 2 = 1 then (-1 : ℚ) else 1) = 1
        ∨ (if bits / 2 ^ 31 % 2 = 1 then (-1 : ℚ) else 1) = -1 := by
      split_ifs
      · exact Or.inr rfl
      · exact Or.inl rfl
    generalize (if bits / 2 ^ 31 % 2 = 1 then (-1 : ℚ) else 1) = sgn at hu hsgn
    clear h1 h2 hlo hhi hsc hval hbits hK hfin e150
    simp only [Nat.cast_mul, Nat.cast_pow, Nat.cast_ofNat] at hu ⊢
    generalize (2 : ℚ) ^ 149 = A at *
    generalize hGdef : (2 : ℚ) ^ F = G at *
    have hQ : (0 : ℚ) < (d : ℚ) * (G * 2) := mul_pos hdq (mul_pos hG (by norm_num))
    have hxQ : (n : ℚ) * A / ((d : ℚ) * G) * ((d : ℚ) * (G * 2)) = (n : ℚ) * (A * 2) := by
      field_simp
      ring
    generalize hx : (n : ℚ) * A / ((d : ℚ) * G) = x at hxQ
    have hx1 : |(m : ℚ) - x| ≤ 1 / 2 := by
      rw [abs_le]
      constructor
      · apply le_of_mul_le_mul_right _ hQ
        rw [sub_mul, hxQ]
        linarith
      · apply le_of_mul_le_mul_right _ hQ
        rw [sub_mul, hxQ]
        linarith
    have hx2 : (2 : ℚ) ^ 23 ≤ x := by
      apply le_of_mul_le_mul_right _ hQ
      rw [hxQ]
      linarith
    have hne1 : (d : ℚ) ≠ 0 := ne_of_gt hdq
    have hne2 : G ≠ 0 := ne_of_gt hG
    have hne3 : A ≠ 0 := ne_of_gt hA
    have hq : (n : ℚ) / d = x * (G / A) := by
      rw [← hx]
      field_simp
      ring
    have hv : (m : ℚ) * G / A = (m : ℚ) * (G / A) := by ring
    have hU : u = (sgn * ((M : ℚ) * 2 ^ t) / G) * (G / A) := by
      rw [← hu]
      field_simp
    rw [hq, hv, hU, ← sub_mul, ← sub_mul, abs_mul, abs_mul]
    have hnear := nearest_in_binade x m F M t hx1 hx2 hM sgn hsgn
    rw [hGdef] at hnear
    exact mul_le_mul_of_nonneg_right hnear (abs_nonneg _)
  · intro a ha
    rw [ha] at h1 h2
    have hQpos : 0 < d * 2 ^ E := Nat.mul_pos hd (Nat.two_pow_pos _)
    have h3 : (2 * m) * (d * 2 ^ E) ≤ (2 * a + 1) * (d * 2 ^ E) := by
      calc (2 * m) * (d * 2 ^ E) = 2 * (m * (d * 2 ^ E)) := by ring
        _ ≤ 2 * (a * (d * 2 ^ E)) + d * 2 ^ E := h1
        _ = (2 * a + 1) * (d * 2 ^ E) := by ring
    have h4 : (2 * a) * (d * 2 ^ E) ≤ (2 * m + 1) * (d * 2 ^ E) := by
      calc (2 * a) * (d * 2 ^ E) = 2 * (a * (d * 2 ^ E)) := by ring
        _ ≤ 2 * (m * (d * 2 ^ E)) + d * 2 ^ E := h2
        _ = (2 * m + 1) * (d * 2 ^ E) := by ring
    have h5 := Nat.le_of_mul_le_mul_right h3 hQpos
    have h6 := Nat.le_of_mul_le_mul_right h4 hQpos
    omega

theorem roundHalfEven_scale (n d c : Nat) (hc : 0 < c) :
    roundHalfEven (n * c) (d * c) = roundHalfEven n d := by
  unfold roundHalfEven
  simp only [Nat.mul_div_mul_right _ _ hc, Nat.mul_mod_mul_right]
  have h1 : 2 * (n % d * c) < d * c ↔ 2 * (n % d) < d := by
    rw [← Nat.mul_assoc]
    exact Nat.mul_lt_mul_right hc
  have h2 : d * c < 2 * (n % d * c) ↔ d < 2 * (n % d) := by
    rw [← Nat.mul_assoc]
    exact Nat.mul_lt_mul_right hc
  simp only [h1, h2]

/-- Rounding depends on the quotient only: a common factor of the two terms cancels. -/
theorem roundBinary32_scale (n d c : Nat) (hc : 0 < c) :
    roundBinary32 (n * c) (d * c) = roundBinary32 n d := by
  unfold roundBinary32
  have e1 : n * c * 2 ^ 127 / (d * c) = n * 2 ^ 127 / d := by
    rw [Nat.mul_right_comm, Nat.mul_div_mul_right _ _ hc]
  have e2 : ∀ s : Nat, roundHalfEven (n * c * 2 ^ s) (d * c) = roundHalfEven (n * 2 ^ s) d := by
    intro s
    rw [Nat.mul_right_comm, roundHalfEven_scale _ _ _ hc]
  have e3 : ∀ s : Nat, roundHalfEven (n * c) (d * c * 2 ^ s) = roundHalfEven n (d * 2 ^ s) := by
    intro s
    rw [Nat.mul_right_comm d c, roundHalfEven_scale _ _ _ hc]
  simp only [e1, e2, e3]

/-- A quotient in the range of the normal binary32 values lies in a binade. -/
theorem exists_binade (n d : Nat) (hd : 0 < d) (h1 : 2 * d ≤ n * 2 ^ 127)
    (h2 : n * 2 ^ 127 < d * 2 ^ 254) :
    ∃ E : Nat, 1 ≤ E ∧ E ≤ 253 ∧ d * 2 ^ E ≤ n * 2 ^ 127 ∧ n * 2 ^ 127 < d * 2 ^ (E + 1) := by
  have hT1 : 2 ≤ n * 2 ^ 127 / d := by
    rw [Nat.le_div_iff_mul_le hd]
    exact h1
  have hT2 : n * 2 ^ 127 / d < 2 ^ 254 := by
    rw [Nat.div_lt_iff_lt_mul hd, Nat.mul_comm (2 ^ 254) d]
    exact h2
  have h256 : (2 : Nat) ^ 254 ≤ 2 ^ 256 := Nat.pow_le_pow_right (by decide) (by decide)
  obtain ⟨h3, h4⟩ := ilog2_spec (n * 2 ^ 127 / d) (by omega) (by omega)
  refine ⟨ilog2 (n * 2 ^ 127 / d), ?_, ?_, ?_, ?_⟩
  · by_contra h
    have h0 : ilog2 (n * 2 ^ 127 / d) = 0 := by omega
    rw [h0] at h4
    simp only [Nat.zero_add, pow_one] at h4
    omega
  · have : ilog2 (n * 2 ^ 127 / d) < 254 :=
      (Nat.pow_lt_pow_iff_right (by decide : 1 < 2)).mp (lt_of_le_of_lt h3 hT2)
    omega
  · rw [Nat.le_div_iff_mul_le hd] at h3
    rw [Nat.mul_comm d]
    exact h3
  · rw [Nat.div_lt_iff_lt_mul hd] at h4
    rw [Nat.mul_comm d]
    exact h4

/-- Rounding to binary32 of a quotient in the range of the normal values: the result is
finite and no binary32 value is nearer to the quotient. -/
theorem roundBinary32_correct (n d : Nat) (hd : 0 < d) (h1 : 2 * d ≤ n * 2 ^ 127)
    (h2 : n * 2 ^ 127 < d * 2 ^ 254) :
    ∃ v : ℚ, binary32Value (roundBinary32 n d) = some v ∧
      ∀ (bits : Nat) (u : ℚ), binary32Value bits = some u →
        |v - (n : ℚ) / d| ≤ |u - (n : ℚ) / d| := by
  obtain ⟨E, hE1, hE2, hlo, hhi⟩ := exists_binade n d hd h1 h2
  obtain ⟨m, -, -, -, hval, hnear, -⟩ := roundBinary32_nearest n d E hd hE1 hE2 hlo hhi
  exact ⟨_, hval, hnear⟩

/-- The conversion to `float` of an unsigned 32-bit value whose low 8 bits are clear is
exact: such a value has at most 24 significant bits. -/
theorem toFloat_exact (k : Nat) (hk1 : 1 ≤ k) (hk2 : k < 2 ^ 32) (hk : k % 256 = 0) :
    binary32Scaled (toFloat k) = k * 2 ^ 149 := by
  have h256 : (2 : Nat) ^ 32 ≤ 2 ^ 256 := Nat.pow_le_pow_right (by decide) (by decide)
  obtain ⟨h3, h4⟩ := ilog2_spec k hk1 (by omega)
  generalize ilog2 k = l at h3 h4
  have hl : l < 32 := (Nat.pow_lt_pow_iff_right (by decide : 1 < 2)).mp (lt_of_le_of_lt h3 hk2)
  have hlo : 1 * 2 ^ (l + 127) ≤ k * 2 ^ 127 := by
    rw [Nat.one_mul, pow_add]
    exact Nat.mul_le_mul_right _ h3
  have hhi : k * 2 ^ 127 < 1 * 2 ^ (l + 127 + 1) := by
    have e : l + 127 + 1 = l + 1 + 127 := by omega
    rw [Nat.one_mul, e, pow_add]
    exact Nat.mul_lt_mul_of_pos_right h4 (Nat.two_pow_pos 127)
  obtain ⟨m, -, -, hsc, -, -, hex⟩ :=
    roundBinary32_nearest k 1 (l + 127) (by decide) (by omega) (by omega) hlo hhi
  unfold toFloat
  rw [hsc]
  have e126 : l + 127 - 1 = l + 126 := by omega
  rw [e126]
  by_cases h : l ≤ 23
  · have hm : m = k * 2 ^ (23 - l) := by
      apply hex
      have e : 23 - l + (l + 127) = 150 := by omega
      rw [Nat.one_mul, Nat.mul_assoc, ← pow_add, e]
    have e : 23 - l + (l + 126) = 149 := by omega
    rw [hm, Nat.mul_assoc, ← pow_add, e]
  · have hdvd : 2 ^ (l - 23) ∣ k := by
      have h8 : (2 : Nat) ^ (l - 23) ∣ 2 ^ 8 := pow_dvd_pow 2 (by omega)
      exact Nat.dvd_trans h8 (Nat.dvd_of_mod_eq_zero hk)
    obtain ⟨a, ha⟩ := hdvd
    have hm : m = a := by
      apply hex
      have e : l - 23 + 150 = l + 127 := by omega
      rw [Nat.one_mul, ha, ← e, pow_add]
      ring
    have e : l - 23 + 149 = l + 126 := by omega
    rw [hm, ha, ← e, pow_add]
    ring

theorem binary32Value_zero : binary32Value 0 = some 0 := by
  unfold binary32Value
  norm_num

theorem binary32Value_one : binary32Value 0x3F800000 = some 1 := by
  unfold binary32Value
  norm_num

/-- The division of the row transcoder `D24`: for a 32-bit value `k` whose low 8 bits are
clear, `(float)k / (float)0xFFFFFF00` is a finite binary32 value in `[0, 1]`, and no
binary32 value is nearer to the quotient `k / 0xFFFFFF00`. -/
theorem floatDiv_normalize24 (k : Nat) (hk : k % 256 = 0) (hk2 : k ≤ 4294967040) :
    ∃ v : ℚ, binary32Value (floatDiv (toFloat k) (toFloat 4294967040)) = some v ∧
      0 ≤ v ∧ v ≤ 1 ∧
      ∀ (bits : Nat) (u : ℚ), binary32Value bits = some u →
        |v - (k : ℚ) / 4294967040| ≤ |u - (k : ℚ) / 4294967040| := by
  have hC : binary32Scaled (toFloat 4294967040) = 4294967040 * 2 ^ 149 := by decide
  rcases Nat.eq_zero_or_pos k with h0 | hpos
  · subst h0
    have e : floatDiv (toFloat 0) (toFloat 4294967040) = 0 := by decide
    rw [e]
    refine ⟨0, binary32Value_zero, le_refl _, by norm_num, ?_⟩
    intro bits u _
    simp
  · have hbits : floatDiv (toFloat k) (toFloat 4294967040) = roundBinary32 k 4294967040 := by
      unfold floatDiv
      rw [toFloat_exact k hpos (by omega) hk, hC,
        roundBinary32_scale k 4294967040 (2 ^ 149) (Nat.two_pow_pos 149)]
    have h127 : (2 : Nat) ^ 127 = 2 ^ 34 * 2 ^ 93 := by rw [← pow_add]
    have h254 : (2 : Nat) ^ 254 = 2 ^ 127 * 2 ^ 127 := by rw [← pow_add]
    have hp93 : 0 < (2 : Nat) ^ 93 := Nat.two_pow_pos 93
    have hp127 : 0 < (2 : Nat) ^ 127 := Nat.two_pow_pos 127
    obtain ⟨v, hv, hnear⟩ := roundBinary32_correct k 4294967040 (by decide)
      (by
        rw [h127, ← Nat.mul_assoc]
        have : 2 * 4294967040 ≤ k * 2 ^ 34 := by
          have : 1 * 2 ^ 34 ≤ k * 2 ^ 34 := Nat.mul_le_mul_right _ hpos
          omega
        exact le_trans (Nat.le_mul_of_pos_right _ hp93) (Nat.mul_le_mul_right _ this))
      (by
        rw [h254, ← Nat.mul_assoc]
        apply Nat.mul_lt_mul_of_pos_right _ hp127
        have : (2 : Nat) ^ 127 = 2 ^ 34 * 2 ^ 93 := h127
        have h34 : k < 2 ^ 34 := by omega
        calc k < 2 ^ 34 := h34
          _ ≤ 4294967040 * 2 ^ 34 := Nat.le_mul_of_pos_left _ (by decide)
          _ ≤ 4294967040 * 2 ^ 127 := Nat.mul_le_mul_left _
              (Nat.pow_le_pow_right (by decide) (by decide)))
    rw [hbits]
    simp only [Nat.cast_ofNat] at hnear
    have hq0 : (0 : ℚ) ≤ (k : ℚ) / 4294967040 := by positivity
    have hq1 : (k : ℚ) / 4294967040 ≤ 1 := by
      rw [div_le_one (by norm_num)]
      exact_mod_cast hk2
    refine ⟨v, hv, ?_, ?_, hnear⟩
    · have h := hnear 0 0 binary32Value_zero
      rw [zero_sub, abs_neg, abs_of_nonneg hq0] at h
      have := neg_abs_le (v - (k : ℚ) / 4294967040)
      linarith
    · have h := hnear 0x3F800000 1 binary32Value_one
      rw [abs_of_nonneg (by linarith : (0 : ℚ) ≤ 1 - (k : ℚ) / 4294967040)] at h
      have := le_abs_self (v - (k : ℚ) / 4294967040)
      linarith

theorem roundBinary32_lt (n d : Nat) : roundBinary32 n d < 4294967296 := by
  unfold roundBinary32
  simp only
  exact lt_of_le_of_lt (Nat.min_le_right _ _) (by decide)

theorem floatDiv_lt (a b : Nat) : floatDiv a b < 4294967296 :=
  roundBinary32_lt _ _

theorem wordLE_bytesLE_four (v : Nat) (h : v < 4294967296) : wordLE (bytesLE 4 v) = v := by
  have e : List.range 4 = [0, 1, 2, 3] := rfl
  simp only [bytesLE, e, List.map_cons, List.map_nil, wordLE, List.foldr_cons, List.foldr_nil,
    toByte, Fin.ofNat, pow_zero, pow_one, Nat.div_one]
  norm_num
  omega

/-! ## Properties of the size calculators -/

/-- C1: for a supported (format, type) pair, a width `w ≥ 0` and an alignment `2^k` that
an `int` can hold, with `raw + 2^k - 1` inside the `int` range (no 32-bit overflow),
`ComputePitch` raises no fault and returns the smallest multiple of the alignment that is
at least `raw = ComputePixelSize(format, type) * w`: the pitch is `0` modulo the
alignment, `raw ≤ pitch < raw + alignment`, and no smaller multiple is `≥ raw`. -/
theorem ComputePitch_smallest_aligned (w : Int) (format type k : Nat)
    (hsup : (ComputePixelSize format type).faulted = false)
    (hw : 0 ≤ w) (hk : k ≤ 30)
    (hfit : (ComputePixelSize format type).value * w + 2 ^ k - 1 < 2147483648) :
    (ComputePitch w format type (2 ^ k)).faulted = false ∧
    (ComputePitch w format type (2 ^ k)).value % 2 ^ k = 0 ∧
    (ComputePixelSize format type).value * w ≤ (ComputePitch w format type (2 ^ k)).value ∧
    (ComputePitch w format type (2 ^ k)).value
      < (ComputePixelSize format type).value * w + 2 ^ k ∧
    ∀ m : Int, m % 2 ^ k = 0 → (ComputePixelSize format type).value * w ≤ m →
      (ComputePitch w format type (2 ^ k)).value ≤ m := by
  obtain ⟨hs0, -⟩ := ComputePixelSize_value_bounds format type
  have hpos : (0 : Int) < 2 ^ k := by positivity
  have hraw0 : 0 ≤ (ComputePixelSize format type).value * w := mul_nonneg hs0 hw
  have hfault : (ComputePitch w format type (2 ^ k)).faulted = false := by
    simp [ComputePitch, hsup, isPow2_two_pow k hk]
  have hval : (ComputePitch w format type (2 ^ k)).value
      = ((ComputePixelSize format type).value * w + 2 ^ k - 1)
        - ((ComputePixelSize format type).value * w + 2 ^ k - 1) % 2 ^ k := by
    simp only [ComputePitch]
    generalize (ComputePixelSize format type).value * w = raw at *
    have h1 : wrap32 raw = raw := wrap32_of_inInt32 ⟨by omega, by omega⟩
    have h2 : wrap32 (raw + 2 ^ k - 1) = raw + 2 ^ k - 1 :=
      wrap32_of_inInt32 ⟨by omega, by omega⟩
    rw [h1, wrap32_sub_one, h2]
    exact and32_not32_low_mask _ k (by omega) (by omega) hk
  obtain ⟨f1, f2, f3, f4⟩ :=
    sub_emod_facts ((ComputePixelSize format type).value * w + 2 ^ k - 1) (2 ^ k) hpos
  rw [hval]
  refine ⟨hfault, f1, ?_, by omega, ?_⟩
  · have := Int.emod_lt_of_pos ((ComputePixelSize format type).value * w + 2 ^ k - 1) hpos
    omega
  · intro m hm hle
    by_contra hlt
    push_neg at hlt
    obtain ⟨j, rfl⟩ := Int.dvd_of_emod_eq_zero hm
    obtain ⟨q, hq⟩ := Int.dvd_of_emod_eq_zero f1
    rw [hq] at hlt
    have hj : j < q := lt_of_mul_lt_mul_left hlt (le_of_lt hpos)
    have hj1 : 2 ^ k * (j + 1) ≤ 2 ^ k * q :=
      mul_le_mul_of_nonneg_left (by omega) (le_of_lt hpos)
    rw [mul_add, mul_one] at hj1
    omega

/-- Witness of C1: three `GL_RGB` / `GL_UNSIGNED_BYTE` pixels (9 bytes) at alignment 4. -/
theorem ComputePitch_smallest_aligned_witness :
    (ComputePitch 3 GL_RGB GL_UNSIGNED_BYTE (2 ^ 2)).faulted = false ∧
    (ComputePitch 3 GL_RGB GL_UNSIGNED_BYTE (2 ^ 2)).value % 2 ^ 2 = 0 ∧
    (ComputePixelSize GL_RGB GL_UNSIGNED_BYTE).value * 3
      ≤ (ComputePitch 3 GL_RGB GL_UNSIGNED_BYTE (2 ^ 2)).value ∧
    (ComputePitch 3 GL_RGB GL_UNSIGNED_BYTE (2 ^ 2)).value
      < (ComputePixelSize GL_RGB GL_UNSIGNED_BYTE).value * 3 + 2 ^ 2 ∧
    ∀ m : Int, m % 2 ^ 2 = 0 → (ComputePixelSize GL_RGB GL_UNSIGNED_BYTE).value * 3 ≤ m →
      (ComputePitch 3 GL_RGB GL_UNSIGNED_BYTE (2 ^ 2)).value ≤ m :=
  ComputePitch_smallest_aligned 3 GL_RGB GL_UNSIGNED_BYTE 2 (by decide) (by decide)
    (by decide) (by decide)

/-- C2, as stated, fails: for `GL_RGBA` / `GL_UNSIGNED_BYTE` rows of 1024 pixels (pitch
4096) and `skipRows = 524288` the exact value of the formula is `2^31`, which the `int`
expression cannot hold; the function returns `2^64 - 2^31`. -/
theorem ComputePackingOffset_exact_counterexample :
    (ComputePixelSize GL_RGBA GL_UNSIGNED_BYTE).faulted = false ∧ isPow2 4 = true ∧
    (ComputePackingOffset GL_RGBA GL_UNSIGNED_BYTE 1024 1024 ⟨0, 524288, 0, 4, 0, 0⟩).value
      = 18446744071562067968 ∧
    (0 * 1024 + 524288) * (ComputePitch 1024 GL_RGBA GL_UNSIGNED_BYTE 4).value
      + 0 * (ComputePixelSize GL_RGBA GL_UNSIGNED_BYTE).value = 2147483648 ∧
    ((ComputePackingOffset GL_RGBA GL_UNSIGNED_BYTE 1024 1024
        ⟨0, 524288, 0, 4, 0, 0⟩).value : Int)
      ≠ (0 * 1024 + 524288) * (ComputePitch 1024 GL_RGBA GL_UNSIGNED_BYTE 4).value
        + 0 * (ComputePixelSize GL_RGBA GL_UNSIGNED_BYTE).value := by
  decide

/-- C2, amended: for a supported (format, type) pair and an alignment `2^k` an `int` can
hold, `ComputePackingOffset` raises no fault and equals
`(skipImages * height + skipRows) * ComputePitch(..) + skipPixels * ComputePixelSize(..)`
whenever the two products, the inner sum and the final sum of that formula lie in the
range of `int` and the final sum is not negative. -/
theorem ComputePackingOffset_exact_in_range (format type : Nat) (width height : Int)
    (modes : PixelStorageModes) (k : Nat)
    (hsup : (ComputePixelSize format type).faulted = false)
    (halign : modes.alignment = 2 ^ k) (hk : k ≤ 30)
    (h1 : InInt32 (modes.skipImages * height))
    (h2 : InInt32 (modes.skipImages * height + modes.skipRows))
    (h3 : InInt32 ((modes.skipImages * height + modes.skipRows)
      * (ComputePitch width format type modes.alignment).value))
    (h4 : InInt32 (modes.skipPixels * (ComputePixelSize format type).value))
    (h5 : InInt32 ((modes.skipImages * height + modes.skipRows)
      * (ComputePitch width format type modes.alignment).value
      + modes.skipPixels * (ComputePixelSize format type).value))
    (h6 : 0 ≤ (modes.skipImages * height + modes.skipRows)
      * (ComputePitch width format type modes.alignment).value
      + modes.skipPixels * (ComputePixelSize format type).value) :
    (ComputePackingOffset format type width height modes).faulted = false ∧
    ((ComputePackingOffset format type width height modes).value : Int)
      = (modes.skipImages * height + modes.skipRows)
          * (ComputePitch width format type modes.alignment).value
        + modes.skipPixels * (ComputePixelSize format type).value := by
  constructor
  · simp [ComputePackingOffset, ComputePitch, hsup, halign, isPow2_two_pow k hk]
  · simp only [ComputePackingOffset]
    rw [wrap32_of_inInt32 h1, wrap32_of_inInt32 h2, wrap32_of_inInt32 h3,
      wrap32_of_inInt32 h4, wrap32_of_inInt32 h5]
    exact toSizeT_of_nonneg h6 h5

/-- Witness of amended C2: the 2x2 `GL_RGBA` / `GL_UNSIGNED_BYTE` region with
`skipRows = 1`, `skipPixels = 1` and alignment 4, whose offset is 12. -/
theorem ComputePackingOffset_exact_in_range_witness :
    (ComputePackingOffset GL_RGBA GL_UNSIGNED_BYTE 2 2 ⟨0, 1, 1, 4, 0, 0⟩).faulted = false ∧
    ((ComputePackingOffset GL_RGBA GL_UNSIGNED_BYTE 2 2 ⟨0, 1, 1, 4, 0, 0⟩).value : Int)
      = (0 * 2 + 1) * (ComputePitch 2 GL_RGBA GL_UNSIGNED_BYTE 4).value
        + 1 * (ComputePixelSize GL_RGBA GL_UNSIGNED_BYTE).value :=
  ComputePackingOffset_exact_in_range GL_RGBA GL_UNSIGNED_BYTE 2 2 ⟨0, 1, 1, 4, 0, 0⟩ 2
    (by decide) (by decide) (by decide) (by decide) (by decide) (by decide) (by decide)
    (by decide) (by decide)

/-- C3, as stated, fails: a 65536 x 65536 DXT1 image has `8 * 16384 * 16384 = 2^31`
bytes, which `GLsizei` cannot hold; `ComputeCompressedSize` returns `-2^31`. -/
theorem ComputeCompressedSize_blocks_counterexample :
    blockGeometry GL_COMPRESSED_RGB_S3TC_DXT1_EXT = some (4, 4, 8) ∧
    8 * ceilDiv 65536 4 * ceilDiv 65536 4 = 2147483648 ∧
    ComputeCompressedSize 65536 65536 GL_COMPRESSED_RGB_S3TC_DXT1_EXT = -2147483648 ∧
    ComputeCompressedSize 65536 65536 GL_COMPRESSED_RGB_S3TC_DXT1_EXT
      ≠ 8 * ceilDiv 65536 4 * ceilDiv 65536 4 := by
  decide

/-- C3, amended: for every format of the table, with block geometry
`(blockW, blockH, blockBytes)`, and every width and height in `[0, 2^31)`, whenever
`blockBytes * ceil(w / blockW) * ceil(h / blockH)` is below `2^31` (it fits `GLsizei`),
`ComputeCompressedSize(w, h, format)` equals it. -/
theorem ComputeCompressedSize_eq_blocks (w h : Int) (format : Nat) (bw bh bytes : Int)
    (hg : blockGeometry format = some (bw, bh, bytes))
    (hw : 0 ≤ w) (hw2 : w < 2147483648) (hh : 0 ≤ h) (hh2 : h < 2147483648)
    (hfit : bytes * ceilDiv w bw * ceilDiv h bh < 2147483648) :
    ComputeCompressedSize w h format = bytes * ceilDiv w bw * ceilDiv h bh :=
  ComputeCompressedSize_of_geometry w h format bw bh bytes hg hw hw2 hh hh2 hfit

/-- Witness of amended C3: a 4x4 / 8-byte format (ETC1) at 6 x 6 pixels, 32 bytes. -/
theorem ComputeCompressedSize_eq_blocks_witness :
    blockGeometry GL_ETC1_RGB8_OES = some (4, 4, 8) ∧
    8 * ceilDiv 6 4 * ceilDiv 6 4 = 32 ∧
    ComputeCompressedSize 6 6 GL_ETC1_RGB8_OES = 8 * ceilDiv 6 4 * ceilDiv 6 4 :=
  ⟨by decide, by decide,
    ComputeCompressedSize_eq_blocks 6 6 GL_ETC1_RGB8_OES 4 4 8 (by decide) (by decide)
      (by decide) (by decide) (by decide) (by decide)⟩

/-- C4: whenever `ComputePixelSize(format, type)` accepts the pair (raises no fault),
the type is one of the plain scalar types or one of the packed types; for a plain scalar
type the result is `channelCount(format) * scalarWidth(type)`, and for a packed type it
is the size of the packed word instead. -/
theorem ComputePixelSize_channels_or_packed (format type : Nat)
    (hsup : (ComputePixelSize format type).faulted = false) :
    (isPlainScalarType type →
      (ComputePixelSize format type).value = channelCount format * scalarWidth type) ∧
    (isPackedType type → (ComputePixelSize format type).value = packedWordSize type) ∧
    (isPlainScalarType type ∨ isPackedType type) := by
  revert hsup
  show PixelSizeSpec (channelCount format) type (ComputePixelSize format type)
  unfold ComputePixelSize
  refine ite_cases (fun hf => ?_) (fun _ => ?_)
  · rcases hf with rfl | rfl | rfl | rfl
    all_goals exact ComputePixelSize.switchR_spec type
  refine ite_cases (fun hf => ?_) (fun _ => ?_)
  · rcases hf with rfl | rfl | rfl
    all_goals exact ComputePixelSize.switchRG_spec type
  refine ite_cases (fun hf => ?_) (fun _ => ?_)
  · rcases hf with rfl | rfl
    all_goals exact ComputePixelSize.switchRGB_spec type
  refine ite_cases (fun hf => ?_) (fun _ => ?_)
  · rcases hf with rfl | rfl | rfl
    all_goals exact ComputePixelSize.switchRGBA_spec type
  refine ite_cases (fun hf => ?_) (fun _ => ?_)
  · subst hf
    exact ComputePixelSize.switchDepth_spec type
  refine ite_cases (fun hf => ?_) (fun _ => ?_)
  · subst hf
    exact ComputePixelSize.switchDepthStencil_spec type
  · intro h
    exact absurd h (by decide)

/-- Witness of C4: `GL_RGB` with the packed type `GL_UNSIGNED_SHORT_5_6_5` is accepted,
and its size is the 2 bytes of the packed word, not `3 * 2`. -/
theorem ComputePixelSize_channels_or_packed_witness :
    (ComputePixelSize GL_RGB GL_UNSIGNED_SHORT_5_6_5).faulted = false ∧
    packedWordSize GL_UNSIGNED_SHORT_5_6_5 = 2 ∧
    ((isPlainScalarType GL_UNSIGNED_SHORT_5_6_5 →
      (ComputePixelSize GL_RGB GL_UNSIGNED_SHORT_5_6_5).value
        = channelCount GL_RGB * scalarWidth GL_UNSIGNED_SHORT_5_6_5) ∧
    (isPackedType GL_UNSIGNED_SHORT_5_6_5 →
      (ComputePixelSize GL_RGB GL_UNSIGNED_SHORT_5_6_5).value
        = packedWordSize GL_UNSIGNED_SHORT_5_6_5) ∧
    (isPlainScalarType GL_UNSIGNED_SHORT_5_6_5 ∨ isPackedType GL_UNSIGNED_SHORT_5_6_5)) :=
  ⟨by decide, by decide,
    ComputePixelSize_channels_or_packed GL_RGB GL_UNSIGNED_SHORT_5_6_5 (by decide)⟩

/-! ## Properties of the row transcoders -/

/-- C5, as stated, fails: `LoadImageRow<Bytes_16>` on a row of `2^28` pixels, with a source
buffer and a destination buffer of `16 * 2^28 = 2^32` bytes each. The `int` product
`width * 16` is `2^32`, which an `int` holds as 0, so `memcpy` copies nothing: the row
returns with the destination as it was, and its first byte is not the first source
byte. -/
theorem LoadImageRow_verbatim_counterexample :
    (DataType.Bytes_16, 16) ∈ verbatimTable ∧
    16 * 268435456 ≤ (List.replicate 4294967296 (1 : Byte)).length ∧
    16 * 268435456 ≤ (List.replicate 4294967296 (0 : Byte)).length ∧
    wrap32 (268435456 * 16) = 0 ∧
    LoadImageRow sampleFloatOps .Bytes_16 (List.replicate 4294967296 1) 0 0 268435456
        ⟨List.replicate 4294967296 0, []⟩ = some ⟨List.replicate 4294967296 0, []⟩ ∧
    (List.replicate 4294967296 (0 : Byte))[0]? = some 0 ∧
    (List.replicate 4294967296 (1 : Byte))[0]? = some 1 := by
  refine ⟨by decide, ?_, ?_, by decide, LoadImageRow_Bytes_16_wrapped _ _ _ _, ?_, ?_⟩
  · rw [List.length_replicate]
  · rw [List.length_replicate]
  · rw [List.getElem?_replicate, if_pos (by decide)]
  · rw [List.getElem?_replicate, if_pos (by decide)]

/-- C5, amended: for `N` in {1, 2, 4, 8, 16}, every width `w ≥ 0` whose byte count `N * w`
is within `int` and every source and destination buffer of at least `N * w` bytes,
`LoadImageRow<Bytes_N>` returns, the first `N * w` destination bytes equal the first
`N * w` source bytes and every other destination byte is unchanged; copying the row back
into the source buffer through the same strategy reproduces the source buffer exactly. -/
theorem LoadImageRow_verbatim_copies (fp : FloatOps) (dt : DataType) (N : Nat)
    (hN : (dt, N) ∈ verbatimTable) (client : List Byte) (r : Run) (w : Nat)
    (hfit : N * w < 2147483648)
    (hs : N * w ≤ client.length) (hd : N * w ≤ r.dest.length) :
    ∃ r' : Run, LoadImageRow fp dt client 0 0 (w : Int) r = some r' ∧
      r'.dest.take (N * w) = client.take (N * w) ∧
      r'.dest.drop (N * w) = r.dest.drop (N * w) ∧
      r'.dest.length = r.dest.length ∧
      ∃ back : Run, LoadImageRow fp dt r'.dest 0 0 (w : Int) ⟨client, r'.reads⟩ = some back ∧
        back.dest = client := by
  have h1 := LoadImageRow_verbatim_eq fp dt N hN client 0 0 w r hfit
  have h2 := memcpy_natCast client 0 0 (N * w) r (by omega) (by omega)
  simp only [Nat.cast_zero, List.take_zero, List.drop_zero, List.nil_append, Nat.zero_add]
    at h1 h2
  have hlen : (client.take (N * w) ++ r.dest.drop (N * w)).length = r.dest.length := by
    simp only [List.length_append, List.length_take, List.length_drop]
    omega
  have htake : (client.take (N * w) ++ r.dest.drop (N * w)).take (N * w)
      = client.take (N * w) := List.take_left' (by simp; omega)
  refine ⟨_, h1.trans h2, htake, List.drop_left' (by simp; omega), hlen, ?_⟩
  have h3 := LoadImageRow_verbatim_eq fp dt N hN
    (client.take (N * w) ++ r.dest.drop (N * w)) 0 0 w ⟨client, r.reads ++ addresses 0 (N * w)⟩
    hfit
  have h4 := memcpy_natCast (client.take (N * w) ++ r.dest.drop (N * w)) 0 0 (N * w)
    ⟨client, r.reads ++ addresses 0 (N * w)⟩ (by omega) (by simpa using hs)
  simp only [Nat.cast_zero, List.take_zero, List.drop_zero, List.nil_append, Nat.zero_add]
    at h3 h4
  refine ⟨_, h3.trans h4, ?_⟩
  simp only [htake, List.take_append_drop]

/-- Witness of amended C5: two 4-byte pixels copied into a plane of 10 bytes. -/
theorem LoadImageRow_verbatim_copies_witness :
    (DataType.Bytes_4, 4) ∈ verbatimTable ∧ 4 * 2 < 2147483648 ∧
    4 * 2 ≤ ([1, 2, 3, 4, 5, 6, 7, 8, 9] : List Byte).length ∧
    ∃ r' : Run, LoadImageRow sampleFloatOps .Bytes_4 [1, 2, 3, 4, 5, 6, 7, 8, 9] 0 0 (2 : Nat)
        ⟨[0, 0, 0, 0, 0, 0, 0, 0, 0, 0], []⟩ = some r' ∧
      r'.dest.take (4 * 2) = ([1, 2, 3, 4, 5, 6, 7, 8, 9] : List Byte).take (4 * 2) ∧
      r'.dest.drop (4 * 2) = ([0, 0, 0, 0, 0, 0, 0, 0, 0, 0] : List Byte).drop (4 * 2) ∧
      r'.dest.length = ([0, 0, 0, 0, 0, 0, 0, 0, 0, 0] : List Byte).length ∧
      ∃ back : Run, LoadImageRow sampleFloatOps .Bytes_4 r'.dest 0 0 (2 : Nat)
          ⟨[1, 2, 3, 4, 5, 6, 7, 8, 9], r'.reads⟩ = some back ∧
        back.dest = [1, 2, 3, 4, 5, 6, 7, 8, 9] :=
  ⟨by decide, by decide, by decide,
    LoadImageRow_verbatim_copies sampleFloatOps .Bytes_4 4 (by decide)
      [1, 2, 3, 4, 5, 6, 7, 8, 9] ⟨[0, 0, 0, 0, 0, 0, 0, 0, 0, 0], []⟩ 2
      (by decide) (by decide) (by decide)⟩

/-- C12: every compressed client format of the first table of `SelectInternalFormat`
resolves, for every type value, to the compressed internal format of the same name and
raises no fault; the two DXT1 client formats both resolve to `FORMAT_DXT1`. -/
theorem SelectInternalFormat_compressed (format : Nat) (f : Format)
    (h : (format, f) ∈ compressedTable) (type : Nat) :
    SelectInternalFormat format type = ⟨f, false⟩ ∧
    SelectInternalFormat GL_COMPRESSED_RGB_S3TC_DXT1_EXT type = ⟨.FORMAT_DXT1, false⟩ ∧
    SelectInternalFormat GL_COMPRESSED_RGBA_S3TC_DXT1_EXT type = ⟨.FORMAT_DXT1, false⟩ := by
  refine ⟨?_, rfl, rfl⟩
  unfold compressedTable at h
  fin_cases h <;> rfl

/-- Witness of C12: `GL_COMPRESSED_RGBA_ASTC_8x5_KHR` with the type `GL_FLOAT`. -/
theorem SelectInternalFormat_compressed_witness :
    (GL_COMPRESSED_RGBA_ASTC_8x5_KHR, Format.FORMAT_RGBA_ASTC_8x5_KHR) ∈ compressedTable ∧
    (SelectInternalFormat GL_COMPRESSED_RGBA_ASTC_8x5_KHR GL_FLOAT
        = ⟨.FORMAT_RGBA_ASTC_8x5_KHR, false⟩ ∧
      SelectInternalFormat GL_COMPRESSED_RGB_S3TC_DXT1_EXT GL_FLOAT = ⟨.FORMAT_DXT1, false⟩ ∧
      SelectInternalFormat GL_COMPRESSED_RGBA_S3TC_DXT1_EXT GL_FLOAT = ⟨.FORMAT_DXT1, false⟩) :=
  ⟨by decide,
    SelectInternalFormat_compressed GL_COMPRESSED_RGBA_ASTC_8x5_KHR .FORMAT_RGBA_ASTC_8x5_KHR
      (by decide) GL_FLOAT⟩

/-- C13, as stated, fails: `GL_RGB` with `GL_HALF_FLOAT` resolves to
`FORMAT_X16B16G16R16F`, `GL_RGB` with `GL_UNSIGNED_INT_5_9_9_9_REV` to the different format
`FORMAT_X16B16G16R16F_UNSIGNED`; neither raises a fault. -/
theorem SelectInternalFormat_halfFloat_vs_rgb9e5_counterexample :
    SelectInternalFormat GL_RGB GL_HALF_FLOAT = ⟨.FORMAT_X16B16G16R16F, false⟩ ∧
    SelectInternalFormat GL_RGB GL_UNSIGNED_INT_5_9_9_9_REV
      = ⟨.FORMAT_X16B16G16R16F_UNSIGNED, false⟩ ∧
    (SelectInternalFormat GL_RGB GL_HALF_FLOAT).value
      ≠ (SelectInternalFormat GL_RGB GL_UNSIGNED_INT_5_9_9_9_REV).value := by
  decide

/-- C13, amended: the 9-9-9-5 shared-exponent client encoding (`GL_RGB` with
`GL_UNSIGNED_INT_5_9_9_9_REV`), the packed-float encoding (`GL_RGB` with
`GL_UNSIGNED_INT_10F_11F_11F_REV`) and half-float data for the sized format `GL_RGB9_E5`
resolve to one and the same internal format, `FORMAT_X16B16G16R16F_UNSIGNED`. -/
theorem SelectInternalFormat_rgb9e5_shared :
    SelectInternalFormat GL_RGB GL_UNSIGNED_INT_5_9_9_9_REV
      = ⟨.FORMAT_X16B16G16R16F_UNSIGNED, false⟩ ∧
    SelectInternalFormat GL_RGB GL_UNSIGNED_INT_10F_11F_11F_REV
      = SelectInternalFormat GL_RGB GL_UNSIGNED_INT_5_9_9_9_REV ∧
    SelectInternalFormat GL_RGB9_E5 GL_HALF_FLOAT
      = SelectInternalFormat GL_RGB GL_UNSIGNED_INT_5_9_9_9_REV := by
  decide

/-- C14, at the failing input: for `GL_RGBA8` with `GL_FLOAT` the `UNREACHABLE` of the
`GL_FLOAT` case is raised, and past it execution falls through the `GL_HALF_FLOAT` case
into the `GL_BYTE` case, which lists `GL_RGBA8` and returns `FORMAT_A8B8G8R8_SNORM`; an
unknown type, by contrast, reaches the final `return sw::FORMAT_NULL`. -/
theorem SelectInternalFormat_unlisted_falls_through :
    SelectInternalFormat GL_RGBA8 GL_FLOAT = ⟨.FORMAT_A8B8G8R8_SNORM, true⟩ ∧
    SelectInternalFormat GL_RGBA8 GL_BYTE = ⟨.FORMAT_A8B8G8R8_SNORM, false⟩ ∧
    SelectInternalFormat GL_RGBA8 0 = ⟨.FORMAT_NULL, true⟩ := by
  decide

/-! ## Properties of reference counting and destruction -/

/-- C18: `Image::release()` lowers the reference count by exactly one; it destroys the
image exactly when the lowered count is not positive; otherwise its only call is one
`sweep()` on the parent texture when one is set, and no call when none is set. For a live
image with count 2, the first `release()` leaves it alive and the second destroys it, so
the two calls contain exactly one `delete this`. -/
theorem Image_release_counts (s : Lifetime) (halive : s.alive = true) :
    (Image.release s).referenceCount = s.referenceCount - 1 ∧
    ((Image.release s).alive = false ↔ ¬ (s.referenceCount - 1 > 0)) ∧
    (s.referenceCount - 1 > 0 →
      (Image.release s).calls
        = s.calls ++ (match s.parentTexture with
                      | some t => [Call.sweep t]
                      | none => [])) ∧
    (s.referenceCount = 2 →
      (Image.release s).alive = true ∧
      (Image.release (Image.release s)).alive = false ∧
      Call.deleteThis ∉ (Image.release s).calls.drop s.calls.length ∧
      ((Image.release (Image.release s)).calls.drop s.calls.length).count Call.deleteThis
        = 1) := by
  obtain ⟨n, p, a, c⟩ := s
  simp only at halive
  subst halive
  refine ⟨?_, ?_, ?_, ?_⟩
  · simp only [Image.release, ImageImplementation.destructor, Image.destructor]
    split
    · cases p <;> rfl
    · rfl
  · simp only [Image.release, ImageImplementation.destructor, Image.destructor]
    split
    · rename_i h
      cases p <;> simp [h]
    · rename_i h
      simp [h]
  · intro h
    simp only [Image.release, if_pos h]
    cases p <;> simp
  · intro h
    simp only at h
    subst h
    cases p <;>
      simp [Image.release, ImageImplementation.destructor, Image.destructor]

/-- Witness of C18: an image with count 2 and the parent texture 7. -/
theorem Image_release_counts_witness :
    (Image.release ⟨2, some 7, true, []⟩).referenceCount = 2 - 1 ∧
    ((Image.release ⟨2, some 7, true, []⟩).alive = false ↔ ¬ ((2 : Int) - 1 > 0)) ∧
    ((2 : Int) - 1 > 0 →
      (Image.release ⟨2, some 7, true, []⟩).calls = [] ++ [Call.sweep 7]) ∧
    ((2 : Int) = 2 →
      (Image.release ⟨2, some 7, true, []⟩).alive = true ∧
      (Image.release (Image.release ⟨2, some 7, true, []⟩)).alive = false ∧
      Call.deleteThis ∉ (Image.release ⟨2, some 7, true, []⟩).calls.drop 0 ∧
      ((Image.release (Image.release ⟨2, some 7, true, []⟩)).calls.drop 0).count
        Call.deleteThis = 1) :=
  Image_release_counts ⟨2, some 7, true, []⟩ rfl

/-- C19: for an image with reference count `n ≥ 2` and every texture `t` (or `nullptr`),
`Image::unbind(t)` leaves the image alive with count `n - 1`; when `t` is the
back-reference, the back-reference becomes null, so that `isChildOf(t)` is false
afterwards for a non-null `t`; when `t` is another texture the back-reference is
unchanged, and one reference is consumed all the same. -/
theorem Image_unbind_keeps_alive (s : Lifetime) (t : Option Texture)
    (halive : s.alive = true) (hn : 2 ≤ s.referenceCount) :
    (Image.unbind s t).alive = true ∧
    (Image.unbind s t).referenceCount = s.referenceCount - 1 ∧
    (s.parentTexture = t → (Image.unbind s t).parentTexture = none ∧
      (t ≠ none → Image.isChildOf (Image.unbind s t) t = false)) ∧
    (s.parentTexture ≠ t → (Image.unbind s t).parentTexture = s.parentTexture) := by
  obtain ⟨n, p, a, c⟩ := s
  simp only at halive hn
  subst halive
  have hpos : n - 1 > 0 := by omega
  have hrel : ∀ q : Option Texture, Image.release ⟨n, q, true, c⟩
      = ⟨n - 1, q, true, c ++ (match q with
                                | some t => [Call.sweep t]
                                | none => [])⟩ := by
    intro q
    simp only [Image.release, if_pos hpos]
    cases q <;> simp
  by_cases hp : p = t
  · subst hp
    have e : Image.unbind ⟨n, p, true, c⟩ p = ⟨n - 1, none, true, c⟩ := by
      simp [Image.unbind, hrel]
    rw [e]
    refine ⟨rfl, rfl, fun _ => ⟨rfl, fun hne => ?_⟩, fun h => absurd rfl h⟩
    simp only [Image.isChildOf, decide_eq_false_iff_not]
    exact fun h => hne h.symm
  · have e : Image.unbind ⟨n, p, true, c⟩ t = Image.release ⟨n, p, true, c⟩ := by
      simp [Image.unbind, hp]
    rw [e, hrel]
    exact ⟨rfl, rfl, fun h => absurd h hp, fun _ => rfl⟩

/-- Witness of C19: an image with count 3 unbound from its parent texture 7. -/
theorem Image_unbind_keeps_alive_witness :
    (Image.unbind ⟨3, some 7, true, []⟩ (some 7)).alive = true ∧
    (Image.unbind ⟨3, some 7, true, []⟩ (some 7)).referenceCount = 3 - 1 ∧
    ((some 7 : Option Texture) = some 7 →
      (Image.unbind ⟨3, some 7, true, []⟩ (some 7)).parentTexture = none ∧
      ((some 7 : Option Texture) ≠ none →
        Image.isChildOf (Image.unbind ⟨3, some 7, true, []⟩ (some 7)) (some 7) = false)) ∧
    ((some 7 : Option Texture) ≠ some 7 →
      (Image.unbind ⟨3, some 7, true, []⟩ (some 7)).parentTexture = some 7) :=
  Image_unbind_keeps_alive ⟨3, some 7, true, []⟩ (some 7) rfl (by decide)

/-- C20, as stated, fails: releasing the last reference of an image whose back-reference
is still set to texture 7 destroys the image, and `~Image` calls `release()` on that
texture. -/
theorem Image_release_destroy_counterexample :
    (Image.release ⟨1, some 7, true, []⟩).alive = false ∧
    (Image.release ⟨1, some 7, true, []⟩).calls
      = [.deleteThis, .sync, .assertIsUnlocked, .textureRelease 7, .assertNotShared] ∧
    Call.textureRelease 7 ∈ (Image.release ⟨1, some 7, true, []⟩).calls := by
  decide

/-- C20, amended: a `release()` that reaches zero destroys the image, and the destruction
calls `release()` on the texture exactly once when the back-reference is still set and
makes no call on any texture when it is null; a `release()` that leaves the count
positive makes no call but the `sweep()` request on the back-reference. -/
theorem Image_release_texture_calls (s : Lifetime) :
    (s.referenceCount - 1 ≤ 0 →
      (Image.release s).alive = false ∧
      (Image.release s).calls
        = s.calls ++ [.deleteThis, .sync, .assertIsUnlocked]
          ++ (match s.parentTexture with
              | some t => [Call.textureRelease t]
              | none => [])
          ++ [.assertNotShared]) ∧
    (s.referenceCount - 1 > 0 →
      (Image.release s).calls
        = s.calls ++ (match s.parentTexture with
                      | some t => [Call.sweep t]
                      | none => [])) := by
  obtain ⟨n, p, a, c⟩ := s
  constructor
  · intro h
    simp only at h
    have hn : ¬ (n - 1 > 0) := by omega
    simp only [Image.release, if_neg hn, ImageImplementation.destructor, Image.destructor]
    cases p <;> simp
  · intro h
    simp only [Image.release, if_pos h]
    cases p <;> simp

/-- Witness of amended C20: the last reference of an image whose back-reference was
cleared is released without any call on a texture. -/
theorem Image_release_texture_calls_witness :
    ((1 : Int) - 1 ≤ 0 →
      (Image.release ⟨1, none, true, []⟩).alive = false ∧
      (Image.release ⟨1, none, true, []⟩).calls
        = [] ++ [.deleteThis, .sync, .assertIsUnlocked] ++ [] ++ [.assertNotShared]) ∧
    ((1 : Int) - 1 > 0 → (Image.release ⟨1, none, true, []⟩).calls = [] ++ []) :=
  Image_release_texture_calls ⟨1, none, true, []⟩

/-- C28: destroying a concrete image calls `sync()` first; the `isUnlocked()` assertion
and the release of the parent texture, which make up the body of the base destructor,
come after it, and `sync()` is not called again. This is also the order inside a
`release()` that reaches zero. -/
theorem ImageImplementation_destructor_sync_first (s : Lifetime) :
    ∃ rest : List Call,
      (ImageImplementation.destructor s).calls = s.calls ++ Call.sync :: rest ∧
      rest = (Image.destructor { s with calls := [] }).calls ∧
      Call.assertIsUnlocked ∈ rest ∧ Call.sync ∉ rest ∧
      (∀ t, s.parentTexture = some t → Call.textureRelease t ∈ rest) ∧
      (s.referenceCount - 1 ≤ 0 →
        (Image.release s).calls = s.calls ++ Call.deleteThis :: Call.sync :: rest) := by
  obtain ⟨n, p, a, c⟩ := s
  refine ⟨_, ?_, rfl, ?_, ?_, ?_, ?_⟩
  · simp [ImageImplementation.destructor, Image.destructor]
  · simp [Image.destructor]
  · cases p <;> simp [Image.destructor]
  · intro t ht
    simp only at ht
    subst ht
    simp [Image.destructor]
  · intro h
    simp only at h
    have hn : ¬ (1 < n) := by omega
    simp [Image.release, hn, ImageImplementation.destructor, Image.destructor]

/-- Witness of C28: the destruction of an image with the parent texture 7. -/
theorem ImageImplementation_destructor_sync_first_witness :
    (ImageImplementation.destructor ⟨0, some 7, true, []⟩).calls
      = [.sync, .assertIsUnlocked, .textureRelease 7, .assertNotShared] ∧
    ∃ rest : List Call,
      (ImageImplementation.destructor ⟨0, some 7, true, []⟩).calls = [] ++ Call.sync :: rest ∧
      rest = (Image.destructor ⟨0, some 7, true, []⟩).calls ∧
      Call.assertIsUnlocked ∈ rest ∧ Call.sync ∉ rest ∧
      (∀ t, (some 7 : Option Texture) = some t → Call.textureRelease t ∈ rest) ∧
      ((0 : Int) - 1 ≤ 0 →
        (Image.release ⟨0, some 7, true, []⟩).calls
          = [] ++ Call.deleteThis :: Call.sync :: rest) :=
  ⟨by decide, ImageImplementation_destructor_sync_first ⟨0, some 7, true, []⟩⟩

/-- C32: when `t` is the current back-reference of the image, `Image::unbind(t)` clears
the back-reference before it releases, so the release either leaves the image alive and
makes no call at all, or destroys the image without any call on a texture: no `sweep()`
and no texture `release()` is added. -/
theorem Image_unbind_no_sweep (s : Lifetime) (t : Option Texture)
    (hparent : s.parentTexture = t) :
    (s.referenceCount - 1 > 0 →
      (Image.unbind s t).alive = s.alive ∧ (Image.unbind s t).calls = s.calls) ∧
    (s.referenceCount - 1 ≤ 0 →
      (Image.unbind s t).alive = false ∧
      (Image.unbind s t).calls
        = s.calls ++ [.deleteThis, .sync, .assertIsUnlocked, .assertNotShared]) ∧
    (∀ u, (Image.unbind s t).calls.count (Call.sweep u) = s.calls.count (Call.sweep u)) := by
  obtain ⟨n, p, a, c⟩ := s
  simp only at hparent
  subst hparent
  by_cases hpos : 1 < n
  · have h1 : n - 1 > 0 := by omega
    have h2 : ¬ (n ≤ 1) := by omega
    simp [Image.unbind, Image.release, hpos, h2]
  · have h2 : n ≤ 1 := by omega
    simp [Image.unbind, Image.release, hpos, h2, ImageImplementation.destructor,
      Image.destructor]

/-- Witness of C32: an image with count 2 and with count 1, unbound from its parent 7. -/
theorem Image_unbind_no_sweep_witness :
    (Image.unbind ⟨2, some 7, true, []⟩ (some 7)).calls = [] ∧
    (Image.unbind ⟨1, some 7, true, []⟩ (some 7)).calls
      = [.deleteThis, .sync, .assertIsUnlocked, .assertNotShared] ∧
    (((2 : Int) - 1 > 0 →
      (Image.unbind ⟨2, some 7, true, []⟩ (some 7)).alive = true ∧
      (Image.unbind ⟨2, some 7, true, []⟩ (some 7)).calls = []) ∧
    ((2 : Int) - 1 ≤ 0 →
      (Image.unbind ⟨2, some 7, true, []⟩ (some 7)).alive = false ∧
      (Image.unbind ⟨2, some 7, true, []⟩ (some 7)).calls
        = [] ++ [.deleteThis, .sync, .assertIsUnlocked, .assertNotShared]) ∧
    (∀ u, (Image.unbind ⟨2, some 7, true, []⟩ (some 7)).calls.count (Call.sweep u)
      = ([] : List Call).count (Call.sweep u))) :=
  ⟨by decide, by decide, Image_unbind_no_sweep ⟨2, some 7, true, []⟩ (some 7) rfl⟩

/-! ## Properties of the upload entry points -/

/-- C11: for an upload whose resolved format `U` is not `FORMAT_NULL`, with `I` the
internal format of the image: when `U = I` or `(U, I)` is one of the pairs
`(A8B8G8R8, SRGB8_A8)`, `(X8B8G8R8, SRGB8_X8)`, `(A2B10G10R10, A2B10G10R10UI)`, every
completed upload locks the image at the region offset, unlocks it, and neither creates a
surface nor blits; in every other case the upload returns with exactly the events create
surface, blit, delete surface, never locks, and leaves both planes of the image as they
were. The reversed pairs belong to the second case. -/
theorem loadImageData_direct_iff (fp : FloatOps) (locks : Locking) (img : Image)
    (xoffset yoffset zoffset width height depth : Int) (format type : Nat)
    (modes : PixelStorageModes) (client : List Byte)
    (hnn : (SelectInternalFormat format type).value ≠ .FORMAT_NULL) :
    (((SelectInternalFormat format type).value = img.internalFormat ∨
      ((SelectInternalFormat format type).value = .FORMAT_A8B8G8R8
        ∧ img.internalFormat = .FORMAT_SRGB8_A8) ∨
      ((SelectInternalFormat format type).value = .FORMAT_X8B8G8R8
        ∧ img.internalFormat = .FORMAT_SRGB8_X8) ∨
      ((SelectInternalFormat format type).value = .FORMAT_A2B10G10R10
        ∧ img.internalFormat = .FORMAT_A2B10G10R10UI)) →
      ∀ up, loadImageData fp locks img xoffset yoffset zoffset width height depth format type
          modes client = some up →
        up.events.head? = some (.lock xoffset yoffset zoffset) ∧
        up.events.getLast? = some .unlock ∧
        up.events.filter Event.isFallback = []) ∧
    (¬ ((SelectInternalFormat format type).value = img.internalFormat ∨
      ((SelectInternalFormat format type).value = .FORMAT_A8B8G8R8
        ∧ img.internalFormat = .FORMAT_SRGB8_A8) ∨
      ((SelectInternalFormat format type).value = .FORMAT_X8B8G8R8
        ∧ img.internalFormat = .FORMAT_SRGB8_X8) ∨
      ((SelectInternalFormat format type).value = .FORMAT_A2B10G10R10
        ∧ img.internalFormat = .FORMAT_A2B10G10R10UI)) →
      ∃ up, loadImageData fp locks img xoffset yoffset zoffset width height depth format type
          modes client = some up ∧
        up.events.length = 3 ∧ up.events.filter Event.isFallback = up.events ∧
        up.events.filter Event.isLock = [] ∧
        up.colour = img.colour ∧ up.stencil = img.stencil ∧ up.reads = []) ∧
    ¬ directPath .FORMAT_SRGB8_A8 .FORMAT_A8B8G8R8 ∧
    ¬ directPath .FORMAT_SRGB8_X8 .FORMAT_X8B8G8R8 ∧
    ¬ directPath .FORMAT_A2B10G10R10UI .FORMAT_A2B10G10R10 := by
  refine ⟨fun hdp up hup => ?_, fun hdp => ?_, by decide, by decide, by decide⟩
  · rcases loadImageData_direct_events fp locks img xoffset yoffset zoffset width height depth
      format type modes client up hnn hdp hup with e | e | e <;>
      simp [e, Event.isFallback]
  · obtain ⟨flt, e⟩ := loadImageData_fallback fp locks img xoffset yoffset zoffset width
      height depth format type modes client hnn hdp
    exact ⟨_, e, by simp [Event.isFallback, Event.isLock]⟩

/-- Witness of C11: `GL_RGBA` / `GL_UNSIGNED_BYTE` resolves to `FORMAT_A8B8G8R8`; into the
sample image, whose internal format is the same, the upload locks and unlocks, and with
the internal format `FORMAT_SRGB8_A8` replaced by its reverse pair it would not. -/
theorem loadImageData_direct_iff_witness :
    (SelectInternalFormat GL_RGBA GL_UNSIGNED_BYTE).value = sampleImage.internalFormat ∧
    ∀ up, loadImageData sampleFloatOps sampleLocks sampleImage 0 0 0 2 2 1 GL_RGBA
        GL_UNSIGNED_BYTE ⟨0, 0, 0, 4, 0, 0⟩ sampleClient = some up →
      up.events.head? = some (.lock 0 0 0) ∧ up.events.getLast? = some .unlock ∧
      up.events.filter Event.isFallback = [] :=
  ⟨by decide,
    (loadImageData_direct_iff sampleFloatOps sampleLocks sampleImage 0 0 0 2 2 1 GL_RGBA
      GL_UNSIGNED_BYTE ⟨0, 0, 0, 4, 0, 0⟩ sampleClient (by decide)).1 (Or.inl (by decide))⟩

/-- C15: when `SelectInternalFormat` yields `FORMAT_NULL`, `Image::loadImageData` returns
at once: it makes no call at all (no lock, unlock, stencil lock, surface or blit), reads
no client byte and leaves the colour plane and the stencil plane as they were. -/
theorem loadImageData_null_does_nothing (fp : FloatOps) (locks : Locking) (img : Image)
    (xoffset yoffset zoffset width height depth : Int) (format type : Nat)
    (modes : PixelStorageModes) (client : List Byte)
    (hnull : (SelectInternalFormat format type).value = .FORMAT_NULL) :
    ∃ up, loadImageData fp locks img xoffset yoffset zoffset width height depth format type
        modes client = some up ∧
      up.events = [] ∧ up.colour = img.colour ∧ up.stencil = img.stencil ∧ up.reads = [] :=
  ⟨_, loadImageData_null fp locks img xoffset yoffset zoffset width height depth format type
    modes client hnull, rfl, rfl, rfl, rfl⟩

/-- Witness of C15: `GL_RGBA` with the type `GL_UNSIGNED_SHORT_4_4_4_4_REV_EXT`, which the
`switch(type)` of `SelectInternalFormat` does not list. -/
theorem loadImageData_null_does_nothing_witness :
    (SelectInternalFormat GL_RGBA GL_UNSIGNED_SHORT_4_4_4_4_REV_EXT).value = .FORMAT_NULL ∧
    ∃ up, loadImageData sampleFloatOps sampleLocks sampleImage 0 0 0 2 2 1 GL_RGBA
        GL_UNSIGNED_SHORT_4_4_4_4_REV_EXT ⟨0, 0, 0, 4, 0, 0⟩ sampleClient = some up ∧
      up.events = [] ∧ up.colour = sampleImage.colour ∧ up.stencil = sampleImage.stencil ∧
      up.reads = [] :=
  ⟨by decide,
    loadImageData_null_does_nothing sampleFloatOps sampleLocks sampleImage 0 0 0 2 2 1 GL_RGBA
      GL_UNSIGNED_SHORT_4_4_4_4_REV_EXT ⟨0, 0, 0, 4, 0, 0⟩ sampleClient (by decide)⟩

/-- C16: when `lock()` returns null, a direct-path `Image::loadImageData` and an
`Image::loadCompressedData` (whose two divisions are defined: `depth` and the client pitch
are not zero) return after `lock` and `unlock` alone: no client byte is read, so no row
transcoder or copy ran, and the colour plane and the stencil plane are unchanged. -/
theorem uploads_null_lock_unchanged (fp : FloatOps) (locks : Locking) (img : Image)
    (xoffset yoffset zoffset width height depth : Int) (client : List Byte)
    (hlock : locks.lock xoffset yoffset zoffset = none) :
    (∀ (format type : Nat) (modes : PixelStorageModes),
      (SelectInternalFormat format type).value ≠ .FORMAT_NULL →
      directPath (SelectInternalFormat format type).value img.internalFormat →
      ∃ up, loadImageData fp locks img xoffset yoffset zoffset width height depth format type
          modes client = some up ∧
        up.colour = img.colour ∧ up.stencil = img.stencil ∧ up.reads = [] ∧
        up.events = [.lock xoffset yoffset zoffset, .unlock]) ∧
    (∀ imageSize : Int, depth ≠ 0 → ComputeCompressedPitch width img.format ≠ 0 →
      ∃ up, loadCompressedData locks img xoffset yoffset zoffset width height depth imageSize
          client = some up ∧
        up.colour = img.colour ∧ up.stencil = img.stencil ∧ up.reads = [] ∧
        up.events = [.lock xoffset yoffset zoffset, .unlock]) := by
  constructor
  · intro format type modes hnn hdp
    obtain ⟨flt, e⟩ := loadImageData_null_lock fp locks img xoffset yoffset zoffset width
      height depth format type modes client hnn hdp hlock
    exact ⟨_, e, rfl, rfl, rfl, rfl⟩
  · intro imageSize hd hp
    refine ⟨⟨img.colour, img.stencil, [], [.lock xoffset yoffset zoffset, .unlock], false⟩,
      ?_, rfl, rfl, rfl, rfl⟩
    simp only [loadCompressedData, if_neg hd, if_neg hp, hlock]

/-- Witness of C16: the sample upload and a compressed upload with locks that fail. -/
theorem uploads_null_lock_unchanged_witness :
    (∃ up, loadImageData sampleFloatOps nullLocks sampleImage 0 0 0 2 2 1 GL_RGBA
        GL_UNSIGNED_BYTE ⟨0, 0, 0, 4, 0, 0⟩ sampleClient = some up ∧
      up.colour = sampleImage.colour ∧ up.stencil = sampleImage.stencil ∧ up.reads = [] ∧
      up.events = [.lock 0 0 0, .unlock]) ∧
    (∃ up, loadCompressedData nullLocks
        ⟨GL_ETC1_RGB8_OES, .FORMAT_ETC1, 8, 8, 0, 4, List.replicate 8 0, []⟩ 0 0 0 4 4 1 8
        sampleClient = some up ∧
      up.colour = List.replicate 8 0 ∧ up.stencil = [] ∧ up.reads = [] ∧
      up.events = [.lock 0 0 0, .unlock]) :=
  ⟨(uploads_null_lock_unchanged sampleFloatOps nullLocks sampleImage 0 0 0 2 2 1 sampleClient
      rfl).1 GL_RGBA GL_UNSIGNED_BYTE ⟨0, 0, 0, 4, 0, 0⟩ (by decide) (by decide),
    (uploads_null_lock_unchanged sampleFloatOps nullLocks
      ⟨GL_ETC1_RGB8_OES, .FORMAT_ETC1, 8, 8, 0, 4, List.replicate 8 0, []⟩ 0 0 0 4 4 1
      sampleClient rfl).2 8 (by decide) (by decide)⟩

/-- C33: a direct-path `Image::loadImageData` that completes, and an
`Image::loadCompressedData` that completes, made exactly one call of `lock()`, at the
region offset, and exactly one call of `unlock()`; with a null lock the direct path still
returns, after `lock` and `unlock`. The blit fallback and the `FORMAT_NULL` return always
complete and call neither. -/
theorem uploads_lock_unlock_once (fp : FloatOps) (locks : Locking) (img : Image)
    (xoffset yoffset zoffset width height depth : Int) (format type : Nat)
    (modes : PixelStorageModes) (client : List Byte) :
    ((SelectInternalFormat format type).value ≠ .FORMAT_NULL →
      directPath (SelectInternalFormat format type).value img.internalFormat →
      (∀ up, loadImageData fp locks img xoffset yoffset zoffset width height depth format type
          modes client = some up →
        up.events.filter Event.isLock = [.lock xoffset yoffset zoffset] ∧
        up.events.filter Event.isUnlock = [.unlock]) ∧
      (locks.lock xoffset yoffset zoffset = none →
        ∃ up, loadImageData fp locks img xoffset yoffset zoffset width height depth format
            type modes client = some up ∧
          up.events = [.lock xoffset yoffset zoffset, .unlock])) ∧
    ((SelectInternalFormat format type).value = .FORMAT_NULL ∨
      ¬ directPath (SelectInternalFormat format type).value img.internalFormat →
      ∃ up, loadImageData fp locks img xoffset yoffset zoffset width height depth format type
          modes client = some up ∧
        up.events.filter Event.isLock = [] ∧ up.events.filter Event.isUnlock = []) ∧
    (∀ (imageSize : Int) (up : Upload),
      loadCompressedData locks img xoffset yoffset zoffset width height depth imageSize client
        = some up →
      up.events.filter Event.isLock = [.lock xoffset yoffset zoffset] ∧
      up.events.filter Event.isUnlock = [.unlock]) := by
  refine ⟨fun hnn hdp => ⟨fun up hup => ?_, fun hlock => ?_⟩, fun hcase => ?_,
    fun imageSize up hup => ?_⟩
  · rcases loadImageData_direct_events fp locks img xoffset yoffset zoffset width height depth
      format type modes client up hnn hdp hup with e | e | e <;>
      simp [e, Event.isLock, Event.isUnlock]
  · obtain ⟨flt, e⟩ := loadImageData_null_lock fp locks img xoffset yoffset zoffset width
      height depth format type modes client hnn hdp hlock
    exact ⟨_, e, rfl⟩
  · by_cases hnull : (SelectInternalFormat format type).value = .FORMAT_NULL
    · exact ⟨_, loadImageData_null fp locks img xoffset yoffset zoffset width height depth
        format type modes client hnull, rfl, rfl⟩
    · have hdp : ¬ directPath (SelectInternalFormat format type).value img.internalFormat :=
        hcase.resolve_left hnull
      obtain ⟨flt, e⟩ := loadImageData_fallback fp locks img xoffset yoffset zoffset width
        height depth format type modes client hnull hdp
      exact ⟨_, e, by simp [Event.isLock, Event.isUnlock]⟩
  · obtain ⟨e, -, -⟩ := loadCompressedData_events locks img xoffset yoffset zoffset width
      height depth imageSize client up hup
    simp [e, Event.isLock, Event.isUnlock]

/-- Witness of C33: the sample upload, on the direct path. -/
theorem uploads_lock_unlock_once_witness :
    ∃ up, loadImageData sampleFloatOps sampleLocks sampleImage 0 0 0 2 2 1 GL_RGBA
        GL_UNSIGNED_BYTE ⟨0, 0, 0, 4, 0, 0⟩ sampleClient = some up ∧
      up.events.filter Event.isLock = [.lock 0 0 0] ∧
      up.events.filter Event.isUnlock = [.unlock] :=
  ⟨⟨sampleClient, List.replicate 8 0, [0, 1, 2, 3, 4, 5, 6, 7, 8, 9, 10, 11, 12, 13, 14, 15],
      [.lock 0 0 0, .unlock], false⟩,
    by decide,
    ((uploads_lock_unlock_once sampleFloatOps sampleLocks sampleImage 0 0 0 2 2 1 GL_RGBA
      GL_UNSIGNED_BYTE ⟨0, 0, 0, 4, 0, 0⟩ sampleClient).1 (by decide) (by decide)).1 _
      (by decide)⟩

/-- C17: `Image::loadImageData` behaves with `rowLength = 0` exactly as with `rowLength`
set to the region width, and with `imageHeight = 0` exactly as with `imageHeight` set to
the region height. With `W = rowLength` or the region width when that is 0, and
`H = imageHeight` or the region height when that is 0: the temporary surface of the blit
fallback is created at `ComputePackingOffset(format, type, W, H, ..)` with the pitch
`ComputePitch(W, ..)` and the slice `pitch * H`, and on the direct path a row transcoder
runs with that offset as input, that pitch as `inputPitch` and `H` as `inputHeight`. -/
theorem loadImageData_effective_size (fp : FloatOps) (locks : Locking) (img : Image)
    (xoffset yoffset zoffset width height depth : Int) (format type : Nat)
    (modes : PixelStorageModes) (client : List Byte) (W H : Int)
    (hW : W = if modes.rowLength = 0 then width else modes.rowLength)
    (hH : H = if modes.imageHeight = 0 then height else modes.imageHeight) :
    loadImageData fp locks img xoffset yoffset zoffset width height depth format type
        modes client
      = loadImageData fp locks img xoffset yoffset zoffset width height depth format type
        ⟨W, modes.skipRows, modes.skipPixels, modes.alignment, H, modes.skipImages⟩ client ∧
    ((SelectInternalFormat format type).value ≠ .FORMAT_NULL →
      ¬ directPath (SelectInternalFormat format type).value img.internalFormat →
      ∃ up, loadImageData fp locks img xoffset yoffset zoffset width height depth format type
          modes client = some up ∧
        up.events.head? = some (.createSurface width height depth
          (ConvertFormatType format type).value
          ((ComputePackingOffset format type W H modes).value : Int)
          (ComputePitch W format type modes.alignment).value
          (wrap32 ((ComputePitch W format type modes.alignment).value * H)))) ∧
    ((SelectInternalFormat format type).value ≠ .FORMAT_NULL →
      directPath (SelectInternalFormat format type).value img.internalFormat →
      ∀ (buffer : Int) (dataType : DataType),
        locks.lock xoffset yoffset zoffset = some buffer →
        (loadImageData.dispatch format type).value = .row dataType →
        (loadImageData fp locks img xoffset yoffset zoffset width height depth format type
          modes client).map (fun up => (up.colour, up.reads))
        = (LoadImageData fp dataType client width height depth
            (ComputePitch W format type modes.alignment).value H img.pitch img.slice
            ((ComputePackingOffset format type W H modes).value : Int) buffer
            ⟨img.colour, []⟩).map (fun r => (r.dest, r.reads))) := by
  have eW : (if W = 0 then width else W) = W := by
    rw [hW]; split <;> simp_all
  have eH : (if H = 0 then height else H) = H := by
    rw [hH]; split <;> simp_all
  refine ⟨?_, fun hnn hdp => ?_, fun hnn hdp buffer dataType hlock hrow => ?_⟩
  · simp only [loadImageData, ComputePackingOffset, eW, eH]
    rw [← hW, ← hH]
  · obtain ⟨flt, e⟩ := loadImageData_fallback fp locks img xoffset yoffset zoffset width
      height depth format type modes client hnn hdp
    rw [← hW, ← hH] at e
    exact ⟨_, e, rfl⟩
  · simp only [loadImageData, if_neg hnn, if_pos hdp, hlock, hrow]
    rw [← hW, ← hH]
    cases LoadImageData fp dataType client width height depth
      (ComputePitch W format type modes.alignment).value H img.pitch img.slice
      ((ComputePackingOffset format type W H modes).value : Int) buffer ⟨img.colour, []⟩ <;> rfl

/-- Witness of C17: the sample 2x2 upload with `rowLength = 3` and `imageHeight = 0`, into
an image of another internal format: the surface of the fallback has pitch 12 and slice
24. -/
theorem loadImageData_effective_size_witness :
    ∃ up, loadImageData sampleFloatOps sampleLocks
        ⟨GL_RGBA, .FORMAT_A8R8G8B8, 8, 16, 4, 2, List.replicate 16 0, List.replicate 8 0⟩
        0 0 0 2 2 1 GL_RGBA GL_UNSIGNED_BYTE ⟨3, 0, 0, 4, 0, 0⟩ sampleClient = some up ∧
      up.events.head? = some (.createSurface 2 2 1
        (ConvertFormatType GL_RGBA GL_UNSIGNED_BYTE).value
        ((ComputePackingOffset GL_RGBA GL_UNSIGNED_BYTE 3 2 ⟨3, 0, 0, 4, 0, 0⟩).value : Int)
        (ComputePitch 3 GL_RGBA GL_UNSIGNED_BYTE 4).value
        (wrap32 ((ComputePitch 3 GL_RGBA GL_UNSIGNED_BYTE 4).value * 2))) :=
  (loadImageData_effective_size sampleFloatOps sampleLocks
    ⟨GL_RGBA, .FORMAT_A8R8G8B8, 8, 16, 4, 2, List.replicate 16 0, List.replicate 8 0⟩
    0 0 0 2 2 1 GL_RGBA GL_UNSIGNED_BYTE ⟨3, 0, 0, 4, 0, 0⟩ sampleClient 3 2 (by decide)
    (by decide)).2.1 (by decide) (by decide)

/-- C31: in the two depth/stencil uploads the stencil plane is locked at `(0, 0, 0)`
whatever the region offset is, while the image itself is locked at the region offset: two
completed uploads that differ only in `xoffset`, `yoffset`, `zoffset` (both locks of the
image succeeding) leave the same stencil plane, and the only stencil lock among the calls
of either is `lockStencil(0, 0, 0)`. -/
theorem loadImageData_stencil_offset_independent (fp : FloatOps) (locks : Locking)
    (img : Image) (x y z x2 y2 z2 width height depth : Int) (type : Nat)
    (modes : PixelStorageModes) (client : List Byte) (b b2 : Int) (up up2 : Upload)
    (hlock : locks.lock x y z = some b) (hlock2 : locks.lock x2 y2 z2 = some b2)
    (hup : loadImageData fp locks img x y z width height depth GL_DEPTH_STENCIL type modes
      client = some up)
    (hup2 : loadImageData fp locks img x2 y2 z2 width height depth GL_DEPTH_STENCIL type
      modes client = some up2) :
    up.stencil = up2.stencil ∧
    (∀ a b c, Event.lockStencil a b c ∈ up.events → a = 0 ∧ b = 0 ∧ c = 0) ∧
    (∀ a b c, Event.lock a b c ∈ up.events → a = x ∧ b = y ∧ c = z) := by
  simp only [loadImageData] at hup hup2
  split at hup
  · rename_i hnull
    rw [if_pos hnull] at hup2
    simp only [Option.some.injEq] at hup hup2
    subst hup; subst hup2
    simp
  · rename_i hnull
    rw [if_neg hnull] at hup2
    split at hup
    · rename_i hdp
      rw [if_pos hdp] at hup2
      simp only [hlock] at hup
      simp only [hlock2] at hup2
      split at hup
      · rename_i dt ha
        simp only [ha] at hup2
        split at hup
        · exact absurd hup (by simp)
        · split at hup2
          · exact absurd hup2 (by simp)
          · simp only [Option.some.injEq] at hup hup2
            subst hup; subst hup2
            simp
      · rename_i ha
        simp only [ha] at hup2
        split at hup
        · exact absurd hup (by simp)
        · rename_i c s rd ev hds
          split at hup2
          · exact absurd hup2 (by simp)
          · rename_i c2 s2 rd2 ev2 hds2
            simp only [Option.some.injEq] at hup hup2
            subst hup; subst hup2
            rcases loadDepthStencilImageData_events _ _ _ _ _ _ _ _ _ _ _ _ _ _ _ _ _ hds with
              ⟨e, hs, hl⟩ | ⟨e, st, r2, hl, hr, hs⟩ <;>
            rcases loadDepthStencilImageData_events _ _ _ _ _ _ _ _ _ _ _ _ _ _ _ _ _ hds2 with
              ⟨e2, hs2, hl2⟩ | ⟨e2, st2, r22, hl2, hr2, hs2⟩ <;>
            subst e <;> subst e2 <;> simp_all
      · rename_i ha
        simp only [ha] at hup2
        split at hup
        · exact absurd hup (by simp)
        · rename_i c s rd ev hds
          split at hup2
          · exact absurd hup2 (by simp)
          · rename_i c2 s2 rd2 ev2 hds2
            simp only [Option.some.injEq] at hup hup2
            subst hup; subst hup2
            rcases loadDepthStencilImageData_events _ _ _ _ _ _ _ _ _ _ _ _ _ _ _ _ _ hds with
              ⟨e, hs, hl⟩ | ⟨e, st, r2, hl, hr, hs⟩ <;>
            rcases loadDepthStencilImageData_events _ _ _ _ _ _ _ _ _ _ _ _ _ _ _ _ _ hds2 with
              ⟨e2, hs2, hl2⟩ | ⟨e2, st2, r22, hl2, hr2, hs2⟩ <;>
            subst e <;> subst e2 <;> simp_all
      · rename_i ha
        simp only [ha] at hup2
        simp only [Option.some.injEq] at hup hup2
        subst hup; subst hup2
        simp
    · rename_i hdp
      rw [if_neg hdp] at hup2
      simp only [Option.some.injEq] at hup hup2
      subst hup; subst hup2
      simp

/-- C6, as stated, fails: a `GL_RGBA` / `GL_UNSIGNED_BYTE` upload with the default unpack
parameters of a 1 x 3 region (12 client bytes) into an image of internal format
`FORMAT_A8B8G8R8` with `getPitch() = 2^30 ≥ 4 * 1`, the lock returning the address `2^31`
of a plane that holds the three rows. The offset `2 * getPitch()` of row 2 is `-2^31` as
an `int`: the client byte 9 at `2 * 4 * 1 + 0` is stored at the address `2^31 - 2^31 = 0`,
and the byte at `2^31 + 2 * getPitch() + 0`, where the claim puts it, keeps its 0. -/
theorem loadImageData_rgba8_rows_counterexample :
    ∃ up, loadImageData sampleFloatOps ⟨fun _ _ _ => some 2147483648, fun _ _ _ => none⟩
        ⟨GL_RGBA, .FORMAT_A8B8G8R8, 1073741824, 0, 0, 3, List.replicate 5368709120 0, []⟩
        0 0 0 1 3 1 GL_RGBA GL_UNSIGNED_BYTE ⟨0, 0, 0, 4, 0, 0⟩
        [1, 2, 3, 4, 5, 6, 7, 8, 9, 10, 11, 12] = some up ∧
      2147483648 + 1073741824 * 3 ≤ (List.replicate 5368709120 (0 : Byte)).length ∧
      wrap32 (2 * 1073741824) = -2147483648 ∧
      ([1, 2, 3, 4, 5, 6, 7, 8, 9, 10, 11, 12] : List Byte)[2 * 4 * 1 + 0]? = some 9 ∧
      up.colour[2147483648 + 2 * 1073741824 + 0]? = some 0 ∧
      up.colour[0]? = some 9 := by
  obtain ⟨up, h, h1, h2⟩ := loadImageData_rgba8_wrapped_row (List.replicate 5368709120 0)
    (by rw [List.length_replicate])
  refine ⟨up, h, by rw [List.length_replicate], by decide, by decide, ?_, h2⟩
  show up.colour[4294967296]? = some 0
  rw [h1, List.getElem?_replicate, if_pos (by decide)]

/-- C6, amended: `Image::loadImageData` with `GL_RGBA` / `GL_UNSIGNED_BYTE`, the default
unpack parameters, a region of `w` x `h` pixels in one slice, an image of internal format
`FORMAT_A8B8G8R8`, a lock that returns the address `b` of the colour plane and a pitch
`P ≥ 4 * w`, the sizes `4 * w * h` of the client region and `P * h` of the destination
rows being within `int` (the client holding the `4 * w * h` bytes, the plane `h` rows of
`P` bytes from `b` on): the upload returns without a fault; for every row `y < h` and
every `i < 4 * w` the byte at `b + y * P + i` equals the client byte at `y * 4 * w + i`,
and the bytes of a row at positions `4 * w ≤ i < P` are unchanged, as is the stencil
plane. -/
theorem loadImageData_rgba8_rows (fp : FloatOps) (locks : Locking) (img : Image)
    (xoffset yoffset zoffset : Int) (w h b P : Nat) (client : List Byte)
    (hfmt : img.internalFormat = .FORMAT_A8B8G8R8)
    (hlock : locks.lock xoffset yoffset zoffset = some (b : Int))
    (hpitch : img.pitch = (P : Int)) (hP : 4 * w ≤ P) (hw : 4 * w + 3 < 2147483648)
    (hfitc : 4 * w * h < 2147483648) (hfitp : P * h < 2147483648)
    (hsrc : 4 * w * h ≤ client.length) (hdst : b + P * h ≤ img.colour.length) :
    ∃ up, loadImageData fp locks img xoffset yoffset zoffset w h 1 GL_RGBA GL_UNSIGNED_BYTE
        ⟨0, 0, 0, 4, 0, 0⟩ client = some up ∧
      up.faulted = false ∧ up.stencil = img.stencil ∧
      up.colour.length = img.colour.length ∧
      (∀ y i, y < h → i < 4 * w → up.colour[b + P * y + i]? = client[4 * w * y + i]?) ∧
      (∀ y i, y < h → 4 * w ≤ i → i < P →
        up.colour[b + P * y + i]? = img.colour[b + P * y + i]?) := by
  have hsel : SelectInternalFormat GL_RGBA GL_UNSIGNED_BYTE = ⟨.FORMAT_A8B8G8R8, false⟩ := by
    decide
  have hdisp : loadImageData.dispatch GL_RGBA GL_UNSIGNED_BYTE = ⟨.row .Bytes_4, false⟩ := by
    decide
  have hpit := ComputePitch_rgba8 w hw
  have hoff : ComputePackingOffset GL_RGBA GL_UNSIGNED_BYTE w h ⟨0, 0, 0, 4, 0, 0⟩
      = ⟨0, false⟩ := by
    simp only [ComputePackingOffset, hpit]
    simp [wrap32, toI32, toU32, toSizeT]
    decide
  have hrowsrc : ∀ y, y < h → 0 + 4 * w * y + 4 * w ≤ client.length := by
    intro y hy
    have : 4 * w * (y + 1) ≤ 4 * w * h := Nat.mul_le_mul_left _ (by omega)
    rw [Nat.mul_add, Nat.mul_one] at this
    omega
  obtain ⟨r2, hrun, hlen, -, -, hrows, hgap, -⟩ :=
    copyRows_spec client (4 * w) h 0 (4 * w) b P ⟨img.colour, []⟩ hP hrowsrc hdst
  have e := loadImageData_row fp locks img xoffset yoffset zoffset w h 1 GL_RGBA
    GL_UNSIGNED_BYTE ⟨0, 0, 0, 4, 0, 0⟩ client b .Bytes_4 (by rw [hsel]; decide)
    (by rw [hsel, hfmt]; exact Or.inl rfl) hlock (by rw [hdisp])
  simp only [if_true, hpit, hoff, hpitch, hsel, hdisp, Bool.or_false] at e
  rw [LoadImageData_depth_one fp .Bytes_4 client w h _ _ _ _ _ _ _
    (fun y hy => inInt32_mul_of_lt y (4 * w) h hy hfitc)
    (fun y hy => inInt32_mul_of_lt y P h hy hfitp)] at e
  have efun : (fun (r : Run) (y : Nat) =>
        LoadImageRow fp .Bytes_4 client (((0 : Nat) : Int) + (y : Int) * ((4 * w : Nat) : Int))
          ((b : Int) + (y : Int) * (P : Int)) w r)
      = (fun (r : Run) (y : Nat) =>
        memcpy client ((b + P * y : Nat) : Int) ((0 + 4 * w * y : Nat) : Int)
          ((4 * w : Nat) : Int) r) := by
    funext r y
    have e1 : ((0 : Nat) : Int) + (y : Int) * ((4 * w : Nat) : Int)
        = ((0 + 4 * w * y : Nat) : Int) := by push_cast; ring
    have e2 : (b : Int) + (y : Int) * (P : Int) = ((b + P * y : Nat) : Int) := by
      push_cast; ring
    rw [e1, e2, LoadImageRow_verbatim_eq fp .Bytes_4 4 (by decide) _ _ _ _ _ (by omega)]
  rw [efun, hrun] at e
  refine ⟨_, e, rfl, rfl, hlen, ?_, ?_⟩
  · intro y i hy hi
    have := getElem?_of_chunk_eq (hrows y hy) i hi
    simpa using this
  · intro y i hy hi hiP
    have := getElem?_of_chunk_eq (hgap y hy) (i - 4 * w) (by omega)
    have e3 : b + P * y + 4 * w + (i - 4 * w) = b + P * y + i := by omega
    rw [e3] at this
    exact this

/-- Witness of amended C6: the 2x2 region of 16 client bytes, uploaded into the sample
image, whose pitch is 8. -/
theorem loadImageData_rgba8_rows_witness :
    ∃ up, loadImageData sampleFloatOps sampleLocks sampleImage 0 0 0 (2 : Nat) (2 : Nat) 1
        GL_RGBA GL_UNSIGNED_BYTE ⟨0, 0, 0, 4, 0, 0⟩ sampleClient = some up ∧
      up.faulted = false ∧ up.stencil = sampleImage.stencil ∧
      up.colour.length = sampleImage.colour.length ∧
      (∀ y i, y < 2 → i < 4 * 2 → up.colour[0 + 8 * y + i]? = sampleClient[4 * 2 * y + i]?) ∧
      (∀ y i, y < 2 → 4 * 2 ≤ i → i < 8 →
        up.colour[0 + 8 * y + i]? = sampleImage.colour[0 + 8 * y + i]?) :=
  loadImageData_rgba8_rows sampleFloatOps sampleLocks sampleImage 0 0 0 2 2 0 8 sampleClient
    (by decide) (by decide) (by decide) (by decide) (by decide) (by decide) (by decide)
    (by decide) (by decide)

/-- C24, as stated, fails: a DXT1 image of 131072 x 65536 pixels in one slice. Its
`2^15 * 2^14` blocks of 8 bytes make `2^32` bytes, so `ComputeCompressedSize` returns 0 and
`imageSize = ComputeCompressedSize(width, height, format) * depth` is 0. The client pitch
is `2^18`, the slice size `0 / 1 = 0` and the number of rows `0 / 2^18 = 0`: the upload
locks, copies no row at all instead of the `ceil(65536 / 4) = 16384` block rows, and
unlocks, with the client holding the `2^32` bytes of the image and the plane as many. -/
theorem loadCompressedData_copies_counterexample :
    blockGeometry GL_COMPRESSED_RGB_S3TC_DXT1_EXT = some (4, 4, 8) ∧
    ComputeCompressedSize 131072 65536 GL_COMPRESSED_RGB_S3TC_DXT1_EXT * 1 = 0 ∧
    ComputeCompressedPitch 131072 GL_COMPRESSED_RGB_S3TC_DXT1_EXT = 262144 ∧
    ceilDiv 65536 4 = 16384 ∧
    loadCompressedData sampleLocks
        ⟨GL_COMPRESSED_RGB_S3TC_DXT1_EXT, .FORMAT_DXT1, 262144, 0, 0, 65536,
          List.replicate 4294967296 0, []⟩
        0 0 0 131072 65536 1
        (ComputeCompressedSize 131072 65536 GL_COMPRESSED_RGB_S3TC_DXT1_EXT * 1)
        (List.replicate 4294967296 7)
      = some ⟨List.replicate 4294967296 0, [], [], [.lock 0 0 0, .unlock], false⟩ := by
  have e : ComputeCompressedSize 131072 65536 GL_COMPRESSED_RGB_S3TC_DXT1_EXT * 1 = 0 := by
    decide
  refine ⟨by decide, e, by decide, by decide, ?_⟩
  rw [e]
  exact loadCompressedData_wrapped_size _ _

/-- C24, amended: `Image::loadCompressedData` on an image whose format is in the compressed
table, with block geometry `(bw, bh, bytes)`, a region of `w` x `h` x `depth` pixels (all
positive), `imageSize = ComputeCompressedSize(w, h, format) * depth` and a lock that
returns the address `b`, the size `bytes * ceil(w / bw) * ceil(h / bh) * depth` of the
client data and the size `getSlice() * depth` of the destination being within `int` (the
destination pitch and slice holding a client row and the rows of a slice, both buffers
holding the data): the client pitch is
`ComputeCompressedSize(w, 1, format) = bytes * ceil(w / bw)`, `ceil(h / bh)` block rows
are copied per slice, the client bytes read are exactly `0 .. imageSize - 1`, each once
and in order, and block row `y` of slice `z` is stored unchanged at
`b + y * getPitch() + z * getSlice()`. -/
theorem loadCompressedData_copies (locks : Locking) (img : Image)
    (xoffset yoffset zoffset : Int) (w h depth cw ch n b P S : Nat) (bw bh bytes : Int)
    (client : List Byte)
    (hg : blockGeometry img.format = some (bw, bh, bytes))
    (hw : 0 < w) (hh : 0 < h) (hd : 0 < depth)
    (hw2 : (w : Int) < 2147483648) (hh2 : (h : Int) < 2147483648)
    (hcw : ceilDiv w bw = cw) (hch : ceilDiv h bh = ch) (hn : bytes * cw = n)
    (hfit : n * ch * depth < 2147483648)
    (hlock : locks.lock xoffset yoffset zoffset = some (b : Int))
    (hpitch : img.pitch = P) (hslice : img.slice = S) (hP : n ≤ P) (hS : P * ch ≤ S)
    (hSr : S * depth < 2147483648)
    (hsrc : n * ch * depth ≤ client.length) (hdst : b + S * depth ≤ img.colour.length) :
    ComputeCompressedPitch w img.format = ComputeCompressedSize w 1 img.format ∧
    ComputeCompressedPitch w img.format = n ∧
    ComputeCompressedSize w h img.format * depth = ((n * ch * depth : Nat) : Int) ∧
    ∃ up, loadCompressedData locks img xoffset yoffset zoffset w h depth
        (ComputeCompressedSize w h img.format * depth) client = some up ∧
      up.reads = addresses 0 (n * ch * depth) ∧
      (∀ z y, z < depth → y < ch → (up.colour.drop (b + S * z + P * y)).take n
        = (client.drop (n * ch * z + n * y)).take n) ∧
      up.colour.length = img.colour.length ∧ up.stencil = img.stencil ∧
      up.faulted = false := by
  obtain ⟨hbw, _, hbh, _, hb8, _⟩ := blockGeometry_facts img.format bw bh bytes hg
  have hcwpos : 0 < cw := by
    have := ceilDiv_pos w bw (by omega) hbw
    omega
  have hchpos : 0 < ch := by
    have := ceilDiv_pos h bh (by omega) hbh
    omega
  have hnpos : 0 < n := by
    have : 0 < bytes * (cw : Int) := mul_pos (by omega) (by omega)
    omega
  have hle1 : n * ch ≤ n * ch * depth := Nat.le_mul_of_pos_right _ hd
  have hle2 : n ≤ n * ch := Nat.le_mul_of_pos_right _ hchpos
  have hpitchv : ComputeCompressedPitch w img.format = (n : Int) := by
    rw [ComputeCompressedPitch_of_geometry w img.format bw bh bytes hg (by omega) hw2
      (by rw [hcw, hn]; omega), hcw, hn]
  have hsize : ComputeCompressedSize w h img.format = ((n * ch : Nat) : Int) := by
    rw [ComputeCompressedSize_of_geometry w h img.format bw bh bytes hg (by omega) hw2
      (by omega) hh2
      (by
        have h3 : ((n * ch : Nat) : Int) < 2147483648 := by omega
        rw [Nat.cast_mul] at h3
        rw [hcw, hch, hn]
        exact h3), hcw, hch, hn]
    exact (Nat.cast_mul n ch).symm
  have hslicev : wrap32 (Int.tdiv (((n * ch : Nat) : Int) * (depth : Int)) (depth : Int))
      = ((n * ch : Nat) : Int) := by
    rw [Int.tdiv_eq_ediv (by positivity) (by positivity),
      Int.mul_ediv_cancel _ (by omega)]
    exact wrap32_of_inInt32 ⟨by omega, by omega⟩
  have hrowsv : wrap32 (Int.tdiv ((n * ch : Nat) : Int) (n : Int)) = (ch : Int) := by
    rw [Int.tdiv_eq_ediv (by positivity) (by positivity)]
    push_cast
    rw [Int.mul_ediv_cancel_left _ (by omega)]
    have : ch ≤ n * ch := Nat.le_mul_of_pos_left _ hnpos
    exact wrap32_of_inInt32 ⟨by omega, by omega⟩
  have hsrc2 : ∀ z y, z < depth → y < ch → n * ch * z + n * y + n ≤ client.length := by
    intro z y hz hy
    have h1 : n * ch * (z + 1) ≤ n * ch * depth := Nat.mul_le_mul_left _ (by omega)
    have h2 : n * (y + 1) ≤ n * ch := Nat.mul_le_mul_left _ (by omega)
    rw [Nat.mul_add, Nat.mul_one] at h1 h2
    omega
  obtain ⟨r2, hrun, hlen, -, -, hrows, hreads⟩ :=
    copySlices_spec client n ch depth (n * ch) n b P S ⟨img.colour, []⟩ hP hS hsrc2 hdst
  refine ⟨rfl, hpitchv, by rw [hsize]; push_cast; ring, ?_⟩
  have hd0 : ¬ ((depth : Int) = 0) := by omega
  have hn0 : ¬ ((n : Int) = 0) := by omega
  simp only [loadCompressedData, hpitchv, hsize, if_neg hd0, if_neg hn0, hslicev, hrowsv,
    hlock, hpitch, hslice, forLoop, Int.toNat_ofNat]
  have hloop : List.foldlM (fun (r : Run) (x : Nat) =>
        List.foldlM (fun (r : Run) (x_1 : Nat) =>
          memcpy client ((b : Int) + wrap32 ((x_1 : Int) * (P : Int))
              + wrap32 ((x : Int) * (S : Int)))
            (wrap32 ((x_1 : Int) * (n : Int)) + wrap32 ((x : Int) * ((n * ch : Nat) : Int)))
            (n : Int) r) r (List.range ch)) ⟨img.colour, []⟩ (List.range depth)
      = some r2 := by
    rw [← hrun]
    apply foldlM_congr_mem
    intro z hz r1
    rw [List.mem_range] at hz
    apply foldlM_congr_mem
    intro y hy r3
    rw [List.mem_range] at hy
    have hPch : P * ch ≤ S * depth := le_trans hS (Nat.le_mul_of_pos_right _ hd)
    rw [wrap32_of_inInt32 (inInt32_mul_of_lt y P ch hy (by omega)),
      wrap32_of_inInt32 (inInt32_mul_of_lt z S depth hz hSr),
      wrap32_of_inInt32 (inInt32_mul_of_lt y n ch hy (by omega)),
      wrap32_of_inInt32 (inInt32_mul_of_lt z (n * ch) depth hz (by omega))]
    congr 1 <;> (push_cast; ring)
  rw [hloop]
  refine ⟨_, rfl, ?_, hrows, hlen, rfl, rfl⟩
  show r2.reads = _
  rw [hreads]
  have e1 : ∀ z : Nat, (List.range ch).flatMap
      (fun y => addresses ((n * ch * z + n * y : Nat) : Int) n)
      = addresses ((0 + n * ch * z : Nat) : Int) (n * ch) := by
    intro z
    rw [Nat.zero_add]
    exact addresses_tiles (n * ch * z) n ch
  simp only [e1, List.nil_append]
  have e2 := addresses_tiles 0 (n * ch) depth
  rw [e2]
  rfl

/-- Witness of amended C24: an 8 x 8 ETC1 region in two slices (2 x 2 blocks of 8 bytes per
slice, 64 bytes in all) copied into a plane of pitch 16 and slice 32. -/
theorem loadCompressedData_copies_witness :
    ComputeCompressedPitch 8 GL_ETC1_RGB8_OES = 16 ∧
    ComputeCompressedSize 8 8 GL_ETC1_RGB8_OES * 2 = 64 ∧
    ∃ up, loadCompressedData sampleLocks
        ⟨GL_ETC1_RGB8_OES, .FORMAT_ETC1, 16, 32, 0, 8, List.replicate 64 0, []⟩ 0 0 0
        (8 : Nat) (8 : Nat) (2 : Nat) (ComputeCompressedSize (8 : Nat) (8 : Nat)
          GL_ETC1_RGB8_OES * (2 : Nat)) (List.replicate 64 7) = some up ∧
      up.reads = addresses 0 (16 * 2 * 2) ∧
      (∀ z y, z < 2 → y < 2 → (up.colour.drop (0 + 32 * z + 16 * y)).take 16
        = ((List.replicate 64 7 : List Byte).drop (16 * 2 * z + 16 * y)).take 16) ∧
      up.colour.length = (List.replicate 64 0 : List Byte).length ∧ up.stencil = [] ∧
      up.faulted = false :=
  ⟨by decide, by decide,
    (loadCompressedData_copies sampleLocks
      ⟨GL_ETC1_RGB8_OES, .FORMAT_ETC1, 16, 32, 0, 8, List.replicate 64 0, []⟩ 0 0 0
      8 8 2 2 2 16 0 16 32 4 4 8 (List.replicate 64 7) (by decide) (by decide) (by decide)
      (by decide) (by decide) (by decide) (by decide) (by decide) (by decide) (by decide)
      (by decide) (by decide) (by decide) (by decide) (by decide) (by decide) (by decide)
      (by decide)).2.2.2⟩

/-- C25: for a supported (format, type) pair and an alignment that is an `int`,
`ComputePitch` raises a fault, the failure of its assertion, exactly when the alignment
is not positive or is not a power of two; for a positive power of two it returns without
a fault. -/
theorem ComputePitch_fault_iff (w : Int) (format type : Nat) (alignment : Int)
    (ha : InInt32 alignment) (hsup : (ComputePixelSize format type).faulted = false) :
    ((ComputePitch w format type alignment).faulted = true
      ↔ (alignment ≤ 0 ∨ ¬ ∃ k : Nat, alignment = 2 ^ k)) ∧
    ((0 < alignment ∧ ∃ k : Nat, alignment = 2 ^ k) →
      (ComputePitch w format type alignment).faulted = false) := by
  have hp := isPow2_iff alignment ha
  have hf : (ComputePitch w format type alignment).faulted
      = !(decide (alignment > 0) && isPow2 alignment) := by
    simp [ComputePitch, hsup]
  rw [hf]
  constructor
  · constructor
    · intro h
      by_contra hcon
      push_neg at hcon
      obtain ⟨h0, hk⟩ := hcon
      have := hp.mpr hk
      simp [this, h0] at h
    · rintro (h | h)
      · have : ¬ (alignment > 0) := by omega
        simp [this]
      · have : isPow2 alignment = false := by
          cases hb : isPow2 alignment
          · rfl
          · exact absurd (hp.mp hb) h
        simp [this]
  · rintro ⟨h0, hk⟩
    have := hp.mpr hk
    simp [this, h0]

/-- Witness of C25: `GL_RGBA` / `GL_UNSIGNED_BYTE` with the alignment 8. -/
theorem ComputePitch_fault_iff_witness :
    (ComputePitch 5 GL_RGBA GL_UNSIGNED_BYTE 8).faulted = false ∧
    (ComputePitch 5 GL_RGBA GL_UNSIGNED_BYTE 6).faulted = true ∧
    (((ComputePitch 5 GL_RGBA GL_UNSIGNED_BYTE 8).faulted = true
      ↔ ((8 : Int) ≤ 0 ∨ ¬ ∃ k : Nat, (8 : Int) = 2 ^ k)) ∧
    ((0 < (8 : Int) ∧ ∃ k : Nat, (8 : Int) = 2 ^ k) →
      (ComputePitch 5 GL_RGBA GL_UNSIGNED_BYTE 8).faulted = false)) :=
  ⟨by decide, by decide,
    ComputePitch_fault_iff 5 GL_RGBA GL_UNSIGNED_BYTE 8 (by decide) (by decide)⟩

/-- C29, as stated, fails: for the DXT1 format and the positive width `2^30` the client
pitch `8 * 2^28 = 2^31` does not fit the `GLsizei` result, and `ComputeCompressedPitch`
returns `-2^31`, which is not strictly positive. -/
theorem ComputeCompressedPitch_pos_counterexample :
    blockGeometry GL_COMPRESSED_RGB_S3TC_DXT1_EXT = some (4, 4, 8) ∧
    (0 : Int) < 1073741824 ∧
    ComputeCompressedPitch 1073741824 GL_COMPRESSED_RGB_S3TC_DXT1_EXT = -2147483648 ∧
    ¬ (0 < ComputeCompressedPitch 1073741824 GL_COMPRESSED_RGB_S3TC_DXT1_EXT) := by
  decide

/-- C29, amended: for every format of the compressed table, with block geometry
`(bw, bh, bytes)`, and every width `w > 0` whose row of blocks `bytes * ceil(w / bw)` fits
`GLsizei`, `ComputeCompressedPitch(w, format)` is strictly positive; so, when `depth > 0`
as well, neither division of `Image::loadCompressedData` divides by zero: with a null
lock the call returns after `lock` and `unlock`. -/
theorem ComputeCompressedPitch_pos (format : Nat) (bw bh bytes w : Int)
    (hg : blockGeometry format = some (bw, bh, bytes))
    (hw : 0 < w) (hw2 : w < 2147483648) (hfit : bytes * ceilDiv w bw < 2147483648) :
    0 < ComputeCompressedPitch w format ∧
    ∀ (locks : Locking) (img : Image) (x y z h depth imageSize : Int) (client : List Byte),
      img.format = format → 0 < depth → locks.lock x y z = none →
      loadCompressedData locks img x y z w h depth imageSize client
        = some ⟨img.colour, img.stencil, [], [.lock x y z, .unlock], false⟩ := by
  obtain ⟨hbw, _, _, _, hb8, _⟩ := blockGeometry_facts format bw bh bytes hg
  have hc := ceilDiv_pos w bw hw hbw
  have hpos : 0 < ComputeCompressedPitch w format := by
    rw [ComputeCompressedPitch_of_geometry w format bw bh bytes hg (le_of_lt hw) hw2 hfit]
    exact mul_pos (by omega) hc
  refine ⟨hpos, ?_⟩
  intro locks img x y z h depth imageSize client hfmt hd hlock
  subst hfmt
  have hd0 : ¬ (depth = 0) := by omega
  have hp0 : ¬ (ComputeCompressedPitch w img.format = 0) := by omega
  simp only [loadCompressedData, if_neg hd0, if_neg hp0, hlock]

/-- Witness of amended C29: ETC1 at width 6, whose pitch is 16 bytes. -/
theorem ComputeCompressedPitch_pos_witness :
    ComputeCompressedPitch 6 GL_ETC1_RGB8_OES = 16 ∧
    0 < ComputeCompressedPitch 6 GL_ETC1_RGB8_OES :=
  ⟨by decide,
    (ComputeCompressedPitch_pos GL_ETC1_RGB8_OES 4 4 8 6 (by decide) (by decide) (by decide)
      (by decide)).1⟩

/-- C34, as stated, fails: the DXT1 format is inside the table and 131072 x 65536 are
both positive, yet `8 * 32768 * 16384 = 2^32` wraps to the result 0. -/
theorem ComputeCompressedSize_zero_counterexample :
    blockGeometry GL_COMPRESSED_RGB_S3TC_DXT1_EXT = some (4, 4, 8) ∧
    ComputeCompressedSize 131072 65536 GL_COMPRESSED_RGB_S3TC_DXT1_EXT = 0 ∧
    ¬ (ComputeCompressedSize 131072 65536 GL_COMPRESSED_RGB_S3TC_DXT1_EXT = 0
      ↔ ((131072 : Int) = 0 ∨ (65536 : Int) = 0)) := by
  decide

/-- C34, amended: for every format outside the table of `ComputeCompressedSize` and every
width and height, `ComputeCompressedSize` and `ComputeCompressedPitch` return 0 (the
functions raise no fault on any path); for a format inside the table, with block
geometry `(bw, bh, bytes)`, and a width and height in `[0, 2^31)` whose size
`bytes * ceil(w / bw) * ceil(h / bh)` fits `GLsizei`, the result is 0 exactly when the
width or the height is 0. -/
theorem ComputeCompressedSize_zero_iff (format : Nat) (w h : Int) :
    (blockGeometry format = none →
      ComputeCompressedSize w h format = 0 ∧ ComputeCompressedPitch w format = 0) ∧
    (∀ bw bh bytes : Int, blockGeometry format = some (bw, bh, bytes) →
      0 ≤ w → w < 2147483648 → 0 ≤ h → h < 2147483648 →
      bytes * ceilDiv w bw * ceilDiv h bh < 2147483648 →
      (ComputeCompressedSize w h format = 0 ↔ (w = 0 ∨ h = 0))) := by
  constructor
  · intro hg
    exact ⟨ComputeCompressedSize_outside w h format hg,
      ComputeCompressedSize_outside w 1 format hg⟩
  · intro bw bh bytes hg hw hw2 hh hh2 hfit
    obtain ⟨hbw, _, hbh, _, hb8, _⟩ := blockGeometry_facts format bw bh bytes hg
    rw [ComputeCompressedSize_of_geometry w h format bw bh bytes hg hw hw2 hh hh2 hfit]
    constructor
    · intro h0
      by_contra hcon
      push_neg at hcon
      have h1 := ceilDiv_pos w bw (by omega) hbw
      have h2 := ceilDiv_pos h bh (by omega) hbh
      have : 0 < bytes * ceilDiv w bw * ceilDiv h bh :=
        mul_pos (mul_pos (by omega) h1) h2
      omega
    · rintro (rfl | rfl)
      · rw [ceilDiv_zero]; ring
      · rw [ceilDiv_zero]; ring

/-- Witness of amended C34: the uncompressed format `GL_RGBA` is outside the table, and an
ETC1 image of 6 x 0 pixels has no bytes. -/
theorem ComputeCompressedSize_zero_iff_witness :
    blockGeometry GL_RGBA = none ∧
    (ComputeCompressedSize 6 6 GL_RGBA = 0 ∧ ComputeCompressedPitch 6 GL_RGBA = 0) ∧
    (ComputeCompressedSize 6 0 GL_ETC1_RGB8_OES = 0 ↔ ((6 : Int) = 0 ∨ (0 : Int) = 0)) :=
  ⟨by decide,
    (ComputeCompressedSize_zero_iff GL_RGBA 6 6).1 (by decide),
    (ComputeCompressedSize_zero_iff GL_ETC1_RGB8_OES 6 0).2 4 4 8 (by decide) (by decide)
      (by decide) (by decide) (by decide) (by decide)⟩

/-! ## Properties of the depth/stencil uploads -/

/-- C21, as stated, fails: in a `GL_DEPTH_STENCIL` / `GL_UNSIGNED_INT_24_8` upload of a
1 x 2 region into the sample depth/stencil image (`getHeight() = 2`,
`getStencilPitchB() = 4`) the stencil bytes 1 and 5 of rows 0 and 1 are written at the
offsets 0 and 4, that is `getStencilPitchB()` apart; the byte at offset
`0 + getHeight() = 2` is not written. -/
theorem loadD24S8ImageData_row_stride_counterexample :
    depthStencilImage.height = 2 ∧ depthStencilImage.stencilPitchB = 4 ∧
    (loadImageData sampleFloatOps sampleLocks depthStencilImage 0 0 0 1 2 1 GL_DEPTH_STENCIL
        GL_UNSIGNED_INT_24_8 ⟨0, 0, 0, 4, 0, 0⟩ [1, 2, 3, 4, 5, 6, 7, 8]).map Upload.stencil
      = some [1, 0, 0, 0, 5, 0, 0, 0, 0, 0, 0, 0, 0, 0, 0, 0] := by
  decide

/-- C21, amended: in the two depth/stencil loaders (`sT = S8` after `D24`, pixels of 4
bytes; `sT = S24_8` after `D32FS8`, pixels of 8 bytes with the stencil word at offset 4),
for a region of `w` x `h` pixels in one slice, whatever `h` is as long as the row offsets
stay within `int` (`inputPitch * h` and `getStencilPitchB() * h` below `2^31`), the
stencil byte of region pixel `(x, y)` is written at `y * getStencilPitchB() + x` from the
locked stencil address: rows `y` and `y + 1` lie `getStencilPitchB()` bytes apart. -/
theorem loadDepthStencilImageData_row_stride (fp : FloatOps) (dT sT : DataType)
    (k off : Nat)
    (hsT : (sT, k, off) = (DataType.S8, 4, 0) ∨ (sT, k, off) = (DataType.S24_8, 8, 4))
    (locks : Locking) (img : Image) (client : List Byte) (w h inp ip st P : Nat)
    (inputHeight buffer : Int) (c s : List Byte) (rd : List Int) (ev : List Event)
    (hres : loadDepthStencilImageData fp dT sT locks img client w h 1 ip inputHeight inp
      buffer = some (c, s, rd, ev))
    (hst : locks.lockStencil 0 0 0 = some (st : Int))
    (hP : img.stencilPitchB = P) (hw : w ≤ P)
    (hfitc : ip * h < 2147483648) (hfitp : P * h < 2147483648)
    (hsrc : ∀ y, y < h → ∀ x, x < w → inp + off + ip * y + k * x + 4 ≤ client.length)
    (hdst : st + P * h ≤ img.stencil.length) :
    ∀ y x, y < h → x < w →
      s[st + P * y + x]?
        = some (toByte (wordLE ((client.drop (inp + off + ip * y + k * x)).take 4)
            &&& 0x000000FF)) := by
  rcases loadDepthStencilImageData_events _ _ _ _ _ _ _ _ _ _ _ _ _ _ _ _ _ hres with
    ⟨-, -, hl⟩ | ⟨-, st2, r2, hl, hr, hs⟩
  · rw [hst] at hl
    exact absurd hl (by simp)
  rw [hst] at hl
  simp only [Option.some.injEq] at hl
  subst hl
  obtain ⟨r3, hrun, -, -, -, hpix, -, -⟩ :=
    planeLoop_spec client (fun p => [toByte (wordLE p &&& 0x000000FF)]) 4 k 1
      (fun _ _ => rfl) w h (inp + off) ip st P ⟨img.stencil, []⟩ (by omega)
      (fun y x hy hx => hsrc y hy x hx) hdst
  have efun : (fun (r : Run) (y : Nat) =>
        LoadImageRow fp sT client ((inp : Int) + (y : Int) * (ip : Int))
          ((st : Int) + (y : Int) * (P : Int)) w r)
      = (fun (r : Run) (y : Nat) =>
        (List.range w).foldlM (fun (r : Run) (x : Nat) =>
          transfer client (((inp + off + ip * y : Nat) : Int) + (k : Int) * (x : Int)) 4
            (fun p => [toByte (wordLE p &&& 0x000000FF)])
            (((st + P * y : Nat) : Int) + ((1 : Nat) : Int) * (x : Int)) r) r) := by
    funext r y
    rcases hsT with e | e <;>
    · simp only [Prod.mk.injEq] at e
      obtain ⟨rfl, rfl, rfl⟩ := e
      simp only [LoadImageRow, forLoop, Int.toNat_ofNat]
      congr 1
      funext r x
      congr 1 <;> (push_cast; ring)
  rw [hP, LoadImageData_depth_one fp sT client w h _ _ _ _ _ _ _
    (fun y hy => inInt32_mul_of_lt y ip h hy hfitc)
    (fun y hy => inInt32_mul_of_lt y P h hy hfitp), efun, hrun] at hr
  simp only [Option.some.injEq] at hr
  subst hr
  subst hs
  intro y x hy hx
  have := hpix y x hy hx
  rw [Nat.one_mul] at this
  exact getElem?_of_take_one this

/-- Witness of amended C21: the 1 x 2 region of the counterexample; the stencil byte of
row 1 is at offset `4 * 1`. -/
theorem loadDepthStencilImageData_row_stride_witness :
    ([1, 0, 0, 0, 5, 0, 0, 0, 0, 0, 0, 0, 0, 0, 0, 0] : List Byte)[0 + 4 * 1 + 0]?
      = some (toByte (wordLE ((([1, 2, 3, 4, 5, 6, 7, 8] : List Byte).drop
          (0 + 0 + 4 * 1 + 4 * 0)).take 4) &&& 0x000000FF)) :=
  loadDepthStencilImageData_row_stride sampleFloatOps .D24 .S8 4 0 (Or.inl rfl) sampleLocks
    depthStencilImage [1, 2, 3, 4, 5, 6, 7, 8] 1 2 0 4 0 4 2 0
    [65, 96, 128, 60, 0, 0, 0, 0, 97, 112, 0, 61, 0, 0, 0, 0, 0, 0, 0, 0, 0, 0, 0, 0, 0, 0, 0,
      0, 0, 0, 0, 0]
    [1, 0, 0, 0, 5, 0, 0, 0, 0, 0, 0, 0, 0, 0, 0, 0]
    [0, 1, 2, 3, 4, 5, 6, 7, 0, 1, 2, 3, 4, 5, 6, 7]
    [.lockStencil 0 0 0, .unlockStencil] (by decide) (by decide) (by decide) (by decide)
    (by decide) (by decide) (by decide) (by decide) 1 0 (by decide) (by decide)

/-- C22, at the failing input: a `GL_DEPTH_STENCIL` / `GL_UNSIGNED_INT_24_8` upload of a
3 x 1 region in 2 slices into the sample depth/stencil image (`getHeight() = 2`,
`getStencilPitchB() = 4`, so width 3 ≤ 4 and height 1 ≤ 2). The stencil values of the six
pixels are 1, 5, 9 (slice 0) and 13, 17, 21 (slice 1). Pixel `(0, 0, 1)` is stored at
offset `1 * getHeight() = 2`, not at `(1 * 2 + 0) * 4 = 8`, and overwrites the stencil 9
of pixel `(2, 0, 0)`: the two pixels share a destination byte. -/
theorem loadD24S8ImageData_slices_overlap :
    depthStencilImage.height = 2 ∧ depthStencilImage.stencilPitchB = 4 ∧
    (loadImageData sampleFloatOps sampleLocks depthStencilImage 0 0 0 3 1 2 GL_DEPTH_STENCIL
        GL_UNSIGNED_INT_24_8 ⟨0, 0, 0, 4, 0, 0⟩
        [1, 2, 3, 4, 5, 6, 7, 8, 9, 10, 11, 12, 13, 14, 15, 16, 17, 18, 19, 20, 21, 22, 23,
          24]).map Upload.stencil
      = some [1, 5, 13, 17, 21, 0, 0, 0, 0, 0, 0, 0, 0, 0, 0, 0] := by
  decide

/-- Witness of C31: the same 1 x 1 depth/stencil upload at the offsets `(0, 0, 0)` and
`(1, 0, 0)`, with locks that return different addresses of the colour plane: the depth
value lands at different places, the stencil planes are equal. -/
theorem loadImageData_stencil_offset_independent_witness :
    ∃ up up2 : Upload,
      loadImageData sampleFloatOps offsetLocks depthStencilImage 0 0 0 1 1 1 GL_DEPTH_STENCIL
        GL_UNSIGNED_INT_24_8 ⟨0, 0, 0, 4, 0, 0⟩ [1, 2, 3, 4] = some up ∧
      loadImageData sampleFloatOps offsetLocks depthStencilImage 1 0 0 1 1 1 GL_DEPTH_STENCIL
        GL_UNSIGNED_INT_24_8 ⟨0, 0, 0, 4, 0, 0⟩ [1, 2, 3, 4] = some up2 ∧
      up.colour ≠ up2.colour ∧
      (up.stencil = up2.stencil ∧
        (∀ a b c, Event.lockStencil a b c ∈ up.events → a = 0 ∧ b = 0 ∧ c = 0) ∧
        (∀ a b c, Event.lock a b c ∈ up.events → a = 0 ∧ b = 0 ∧ c = 0)) :=
  ⟨⟨[65, 96, 128, 60, 0, 0, 0, 0, 0, 0, 0, 0, 0, 0, 0, 0, 0, 0, 0, 0, 0, 0, 0, 0, 0, 0, 0, 0,
        0, 0, 0, 0],
      [1, 0, 0, 0, 0, 0, 0, 0, 0, 0, 0, 0, 0, 0, 0, 0], [0, 1, 2, 3, 0, 1, 2, 3],
      [.lock 0 0 0, .lockStencil 0 0 0, .unlockStencil, .unlock], false⟩,
    ⟨[0, 0, 0, 0, 65, 96, 128, 60, 0, 0, 0, 0, 0, 0, 0, 0, 0, 0, 0, 0, 0, 0, 0, 0, 0, 0, 0, 0,
        0, 0, 0, 0],
      [1, 0, 0, 0, 0, 0, 0, 0, 0, 0, 0, 0, 0, 0, 0, 0], [0, 1, 2, 3, 0, 1, 2, 3],
      [.lock 1 0 0, .lockStencil 0 0 0, .unlockStencil, .unlock], false⟩,
    by decide, by decide, by decide,
    loadImageData_stencil_offset_independent sampleFloatOps offsetLocks depthStencilImage
      0 0 0 1 0 0 1 1 1 GL_UNSIGNED_INT_24_8 ⟨0, 0, 0, 4, 0, 0⟩ [1, 2, 3, 4] 0 4 _ _
      (by decide) (by decide) (by decide) (by decide)⟩

/-! ## Properties of the client reads -/

/-- C7, as stated, fails: a `GL_RGBA` / `GL_UNSIGNED_BYTE` upload of a 1 x 1 region in 2
slices with `skipPixels = 1` and `imageHeight = 1073741823` (no negative parameter). The
packing offset is 4 and the client pitch 4; for the second slice the `int` product
`1 * inputPitch * inputHeight = 4294967292` is `-4`, so its row is read at the offsets
0 .. 3, before the packing offset. -/
theorem loadImageData_reads_from_offset_counterexample :
    (ComputePackingOffset GL_RGBA GL_UNSIGNED_BYTE 1 1073741823
      ⟨0, 0, 1, 4, 1073741823, 0⟩).value = 4 ∧
    (ComputePitch 1 GL_RGBA GL_UNSIGNED_BYTE 4).value = 4 ∧
    wrap32 (wrap32 (1 * 4) * 1073741823) = -4 ∧
    (loadImageData sampleFloatOps sampleLocks
        ⟨GL_RGBA, .FORMAT_A8B8G8R8, 8, 16, 4, 2, List.replicate 32 0, List.replicate 8 0⟩
        0 0 0 1 1 2 GL_RGBA GL_UNSIGNED_BYTE ⟨0, 0, 1, 4, 1073741823, 0⟩
        [1, 2, 3, 4, 5, 6, 7, 8]).map Upload.reads = some [4, 5, 6, 7, 0, 1, 2, 3] := by
  decide

/-- C7, amended: on the direct path of `Image::loadImageData` (lock succeeding, a
transcoder dispatched), for a region with `width`, `height`, `depth > 0`, with `W` and
`H` the effective client row width and image height, a client pitch `ComputePitch(W, ..)`
that is not negative and `imageHeight ≥ 0`, and with the row size
`ComputePixelSize * width` and the client offsets `(height - 1) * inputPitch` and
`(depth - 1) * inputPitch * inputHeight` of the last row and the last slice within `int`:
every client byte read by a completed upload lies at an offset
`≥ ComputePackingOffset(format, type, W, H, unpackParameters)` from the client pointer,
and the byte at exactly that offset is the first byte read. -/
theorem loadImageData_reads_from_offset (fp : FloatOps) (locks : Locking) (img : Image)
    (xoffset yoffset zoffset width height depth : Int) (format type : Nat)
    (modes : PixelStorageModes) (client : List Byte) (buffer W H : Int) (up : Upload)
    (hW : W = if modes.rowLength = 0 then width else modes.rowLength)
    (hH : H = if modes.imageHeight = 0 then height else modes.imageHeight)
    (hnn : (SelectInternalFormat format type).value ≠ .FORMAT_NULL)
    (hdp : directPath (SelectInternalFormat format type).value img.internalFormat)
    (hlock : locks.lock xoffset yoffset zoffset = some buffer)
    (hdisp : (loadImageData.dispatch format type).value ≠ .nothing)
    (hw : 0 < width) (hh : 0 < height) (hd : 0 < depth)
    (hih : 0 ≤ modes.imageHeight)
    (hpitch : 0 ≤ (ComputePitch W format type modes.alignment).value)
    (hfit : (ComputePixelSize format type).value * width < 2147483648)
    (hyr : (height - 1) * (ComputePitch W format type modes.alignment).value < 2147483648)
    (hzr : (depth - 1) * (ComputePitch W format type modes.alignment).value * H
      < 2147483648)
    (hup : loadImageData fp locks img xoffset yoffset zoffset width height depth format type
      modes client = some up) :
    (∀ a ∈ up.reads, ((ComputePackingOffset format type W H modes).value : Int) ≤ a) ∧
    up.reads.head? = some ((ComputePackingOffset format type W H modes).value : Int) := by
  obtain ⟨dT, r1, hoff, hsz, h1, h2⟩ := loadImageData_reads fp locks img xoffset yoffset
    zoffset width height depth format type modes client buffer up hnn hdp hlock hdisp hup
  rw [← hW, ← hH] at h1 h2
  have hH1 : 1 ≤ H := by
    rw [hH]
    split <;> omega
  have hH0 : 0 ≤ H := by omega
  have hsize0 := (ComputePixelSize_value_bounds format type).1
  have hrow : InInt32 ((ComputePixelSize format type).value * width) :=
    ⟨by have := mul_nonneg hsize0 (le_of_lt hw); omega, hfit⟩
  have hys : ∀ y : Nat, (y : Int) < height →
      InInt32 ((y : Int) * (ComputePitch W format type modes.alignment).value) := by
    intro y hy
    have h3 : (y : Int) * (ComputePitch W format type modes.alignment).value
        ≤ (height - 1) * (ComputePitch W format type modes.alignment).value :=
      mul_le_mul_of_nonneg_right (by omega) hpitch
    have h4 : 0 ≤ (y : Int) * (ComputePitch W format type modes.alignment).value :=
      mul_nonneg (by omega) hpitch
    exact ⟨by omega, by omega⟩
  have hzs : ∀ z : Nat, (z : Int) < depth →
      InInt32 ((z : Int) * (ComputePitch W format type modes.alignment).value) ∧
      InInt32 ((z : Int) * (ComputePitch W format type modes.alignment).value * H) := by
    intro z hz
    have h4 : 0 ≤ (z : Int) * (ComputePitch W format type modes.alignment).value :=
      mul_nonneg (by omega) hpitch
    have h3 : (z : Int) * (ComputePitch W format type modes.alignment).value
        ≤ (depth - 1) * (ComputePitch W format type modes.alignment).value :=
      mul_le_mul_of_nonneg_right (by omega) hpitch
    have h5 : (z : Int) * (ComputePitch W format type modes.alignment).value * H
        ≤ (depth - 1) * (ComputePitch W format type modes.alignment).value * H :=
      mul_le_mul_of_nonneg_right h3 hH0
    have h6 : (z : Int) * (ComputePitch W format type modes.alignment).value
        ≤ (z : Int) * (ComputePitch W format type modes.alignment).value * H :=
      le_mul_of_one_le_right h4 hH1
    exact ⟨⟨by omega, by omega⟩, ⟨by omega, by omega⟩⟩
  have hge1 := LoadImageData_reads_ge fp dT client width height depth _ H _ _ _ buffer _ r1
    hpitch hH0 (by rw [hsz]; exact hrow) hzs hys (by simp) h1
  obtain ⟨tl, hhead⟩ := LoadImageData_reads_head fp dT client width height depth _ H _ _ _
    buffer _ r1 hw hh hd (by rw [hsz]; exact hrow) h1
  rw [hoff, add_zero] at hhead
  rcases h2 with h2 | ⟨sT, st, r2, hsz2, h3, h4⟩
  · rw [h2]
    exact ⟨hge1, by rw [hhead]; rfl⟩
  · have hge2 := LoadImageData_reads_ge fp sT client width height depth _ H _ _ _ st _ r2
      hpitch hH0 (by rw [hsz2]; exact hrow) hzs hys (by simp) h3
    rw [h4]
    refine ⟨?_, by rw [hhead]; rfl⟩
    intro a ha
    rcases List.mem_append.mp ha with ha | ha
    · exact hge1 a ha
    · exact hge2 a ha

/-- Witness of amended C7: the 2x2 `GL_RGBA` / `GL_UNSIGNED_BYTE` region with
`skipRows = 1`, `skipPixels = 1` and alignment 4, read from 28 client bytes: the offset
is 12. -/
theorem loadImageData_reads_from_offset_witness :
    (ComputePackingOffset GL_RGBA GL_UNSIGNED_BYTE 2 2 ⟨0, 1, 1, 4, 0, 0⟩).value = 12 ∧
    ∃ up, loadImageData sampleFloatOps sampleLocks sampleImage 0 0 0 2 2 1 GL_RGBA
        GL_UNSIGNED_BYTE ⟨0, 1, 1, 4, 0, 0⟩ (List.replicate 28 7) = some up ∧
      ((∀ a ∈ up.reads,
          ((ComputePackingOffset GL_RGBA GL_UNSIGNED_BYTE 2 2 ⟨0, 1, 1, 4, 0, 0⟩).value : Int)
            ≤ a) ∧
        up.reads.head?
          = some ((ComputePackingOffset GL_RGBA GL_UNSIGNED_BYTE 2 2
              ⟨0, 1, 1, 4, 0, 0⟩).value : Int)) :=
  ⟨by decide,
    ⟨List.replicate 16 7, List.replicate 8 0,
      [12, 13, 14, 15, 16, 17, 18, 19, 20, 21, 22, 23, 24, 25, 26, 27],
      [.lock 0 0 0, .unlock], false⟩,
    by decide,
    loadImageData_reads_from_offset sampleFloatOps sampleLocks sampleImage 0 0 0 2 2 1 GL_RGBA
      GL_UNSIGNED_BYTE ⟨0, 1, 1, 4, 0, 0⟩ (List.replicate 28 7) 0 2 2 _ (by decide)
      (by decide) (by decide) (by decide) (by decide) (by decide) (by decide) (by decide)
      (by decide) (by decide) (by decide) (by decide) (by decide) (by decide)
      (by decide)⟩

/-- C27, as stated, fails: `LoadImageData<Bytes_1>` over 1 row in 2 slices with
`inputPitch = 4`, `inputHeight = 1073741823` and `input` at the client address 4. For the
second slice the `int` product `1 * inputPitch * inputHeight = 4294967292` is `-4`: the
row transcoder is run on the source `input - 4` (the client bytes 0 .. 3 are read and
stored in the second row), not on `input + 4294967292`, which lies outside the client
memory. -/
theorem LoadImageData_row_calls_counterexample :
    rowCalls 1 2 4 1073741823 4 4 4 0 = [(4, 0), (4 + 1 * 4 * 1073741823 + 0 * 4, 4)] ∧
    wrap32 (wrap32 (1 * 4) * 1073741823) = -4 ∧
    LoadImageData sampleFloatOps .Bytes_1 [1, 2, 3, 4, 5, 6, 7, 8] 4 1 2 4 1073741823 4 4 4 0
        ⟨[0, 0, 0, 0, 0, 0, 0, 0], []⟩
      = some ⟨[5, 6, 7, 8, 1, 2, 3, 4], [4, 5, 6, 7, 0, 1, 2, 3]⟩ ∧
    (rowCalls 1 2 4 1073741823 4 4 4 0).foldlM
        (fun r c => LoadImageRow sampleFloatOps .Bytes_1 [1, 2, 3, 4, 5, 6, 7, 8] c.1 c.2 4 r)
        ⟨[0, 0, 0, 0, 0, 0, 0, 0], []⟩ = none := by
  decide

/-- C27, amended: when the offsets `z * inputPitch`, `z * inputPitch * inputHeight`,
`z * destSlice` (for `z < depth`) and `y * inputPitch`, `y * destPitch` (for `y < height`)
are within `int`, `LoadImageData` runs the row transcoder once for each entry of
`rowCalls`, in order, with the given width; `rowCalls` has one entry for each `(z, y)`
with `0 ≤ z < depth` and `0 ≤ y < height`, slice by slice and row by row inside a slice
(entry `z * height + y`), namely
`source = input + z * inputPitch * inputHeight + y * inputPitch` and
`dest = buffer + z * destSlice + y * destPitch`; when `depth ≤ 0` or `height ≤ 0` there is
no entry and `LoadImageData` returns with nothing done. -/
theorem LoadImageData_row_calls (fp : FloatOps) (dt : DataType) (client : List Byte)
    (width height depth inputPitch inputHeight destPitch destSlice input buffer : Int)
    (r : Run) :
    ((∀ z : Nat, (z : Int) < depth →
        InInt32 ((z : Int) * inputPitch) ∧ InInt32 ((z : Int) * inputPitch * inputHeight) ∧
        InInt32 ((z : Int) * destSlice)) →
      (∀ y : Nat, (y : Int) < height →
        InInt32 ((y : Int) * inputPitch) ∧ InInt32 ((y : Int) * destPitch)) →
      LoadImageData fp dt client width height depth inputPitch inputHeight destPitch destSlice
          input buffer r
        = (rowCalls height depth inputPitch inputHeight destPitch destSlice input
            buffer).foldlM (fun r c => LoadImageRow fp dt client c.1 c.2 width r) r) ∧
    (rowCalls height depth inputPitch inputHeight destPitch destSlice input buffer).length
      = depth.toNat * height.toNat ∧
    (∀ z y : Nat, (z : Int) < depth → (y : Int) < height →
      (rowCalls height depth inputPitch inputHeight destPitch destSlice input
          buffer)[z * height.toNat + y]?
        = some (input + (z : Int) * inputPitch * inputHeight + (y : Int) * inputPitch,
            buffer + (z : Int) * destSlice + (y : Int) * destPitch)) ∧
    (depth ≤ 0 ∨ height ≤ 0 →
      rowCalls height depth inputPitch inputHeight destPitch destSlice input buffer = [] ∧
      LoadImageData fp dt client width height depth inputPitch inputHeight destPitch
        destSlice input buffer r = some r) := by
  refine ⟨fun hz hy => LoadImageData_eq_rowCalls _ _ _ _ _ _ _ _ _ _ _ _ _ hz hy,
    rowCalls_length _ _ _ _ _ _ _ _, ?_, ?_⟩
  · intro z y hz hy
    unfold rowCalls
    exact getElem?_flatMap_map _ depth.toNat height.toNat z y (by omega) (by omega)
  · intro h
    have hnil : rowCalls height depth inputPitch inputHeight destPitch destSlice input buffer
        = [] := by
      apply List.eq_nil_of_length_eq_zero
      rw [rowCalls_length]
      rcases h with h | h
      · have : depth.toNat = 0 := by omega
        rw [this, Nat.zero_mul]
      · have : height.toNat = 0 := by omega
        rw [this, Nat.mul_zero]
    refine ⟨hnil, ?_⟩
    rw [LoadImageData_eq_calls]
    rcases h with h | h
    · have e : depth.toNat = 0 := by omega
      rw [e]
      rfl
    · have e : height.toNat = 0 := by omega
      rw [e]
      have e2 : ((List.range depth.toNat).flatMap fun (z : Nat) =>
            (List.range 0).map fun (y : Nat) =>
              (input + wrap32 (wrap32 ((z : Int) * inputPitch) * inputHeight)
                  + wrap32 ((y : Int) * inputPitch),
                buffer + wrap32 ((z : Int) * destSlice) + wrap32 ((y : Int) * destPitch)))
          = [] := by
        generalize List.range depth.toNat = l
        induction l with
        | nil => rfl
        | cons a l ih => rw [List.flatMap_cons, ih]; rfl
      rw [e2]
      rfl

/-- Witness of amended C27: a region of 2 rows in 2 slices; the third call, entry
`1 * 2 + 0`, is the first row of the second slice. -/
theorem LoadImageData_row_calls_witness :
    rowCalls 2 2 8 3 16 64 100 1000 = [(100, 1000), (108, 1016), (124, 1064), (132, 1080)] ∧
    (rowCalls 2 2 8 3 16 64 100 1000)[1 * (2 : Int).toNat + 0]?
      = some (100 + ((1 : Nat) : Int) * 8 * 3 + ((0 : Nat) : Int) * 8,
          1000 + ((1 : Nat) : Int) * 64 + ((0 : Nat) : Int) * 16) :=
  ⟨by decide,
    (LoadImageData_row_calls sampleFloatOps .Bytes_4 [] 1 2 2 8 3 16 64 100 1000
      ⟨[], []⟩).2.2.1 1 0 (by decide) (by decide)⟩

/-- C30, as stated, fails: `GL_RGBA` / `GL_FLOAT` is sent to `Bytes_16` and
`ComputePixelSize` is 16, but a row of `2^28` pixels does not read
`ComputePixelSize * width = 2^32` client bytes: the `int` product `width * 16` passed to
`memcpy` is 0, and the row completes without reading a byte of a client buffer that holds
the `2^32` bytes. -/
theorem dispatch_pixel_size_counterexample :
    (loadImageData.dispatch GL_RGBA GL_FLOAT).value = .row .Bytes_16 ∧
    ComputePixelSize GL_RGBA GL_FLOAT = ⟨16, false⟩ ∧
    (16 : Int) * 268435456 = 4294967296 ∧ wrap32 (268435456 * 16) = 0 ∧
    (List.replicate 4294967296 (1 : Byte)).length = 4294967296 ∧
    LoadImageRow sampleFloatOps .Bytes_16 (List.replicate 4294967296 1) 0 0 268435456
        ⟨List.replicate 4294967296 0, []⟩ = some ⟨List.replicate 4294967296 0, []⟩ := by
  refine ⟨by decide, by decide, by decide, by decide, ?_,
    LoadImageRow_Bytes_16_wrapped _ _ _ _⟩
  rw [List.length_replicate]

/-- C30, amended: for every (format, type) pair the dispatch of `Image::loadImageData`
sends to a transcoder, `ComputePixelSize(format, type)` is defined (no fault) and equals
the size of the client pixel the transcoder works on (`clientBytes`: the stride of
`readShape` for a row transcoder, 4 for the `D24` / `S8` pair, 8 for the `D32FS8` /
`S24_8` pair); and the client bytes a completed row of `w` pixels reads are exactly the
`ComputePixelSize * w` bytes from `source` on, for a row transcoder when that size is
within `int`, for the two pairs in the two passes together. -/
theorem dispatch_pixel_size (format type : Nat) (t : Transcode)
    (ht : (loadImageData.dispatch format type).value = t) (hne : t ≠ .nothing) :
    ComputePixelSize format type = ⟨clientBytes t, false⟩ ∧
    (∀ dt, t = .row dt →
      ∀ (fp : FloatOps) (client : List Byte) (source dest w : Int) (r r2 : Run),
        InInt32 ((ComputePixelSize format type).value * w) →
        LoadImageRow fp dt client source dest w r = some r2 →
        ∃ new, r2.reads = r.reads ++ new ∧
          ∀ a, a ∈ new ↔
            (source ≤ a ∧ a < source + (ComputePixelSize format type).value * w)) ∧
    (t = .d24s8 →
      ∀ (fp : FloatOps) (client : List Byte) (source dest dest2 w : Int) (r r1 r2 : Run),
        LoadImageRow fp .D24 client source dest w r = some r1 →
        LoadImageRow fp .S8 client source dest2 w r1 = some r2 →
        ∃ new, r2.reads = r.reads ++ new ∧
          ∀ a, a ∈ new ↔
            (source ≤ a ∧ a < source + (ComputePixelSize format type).value * w)) ∧
    (t = .d32fs8 →
      ∀ (fp : FloatOps) (client : List Byte) (source dest dest2 w : Int) (r r1 r2 : Run),
        LoadImageRow fp .D32FS8 client source dest w r = some r1 →
        LoadImageRow fp .S24_8 client source dest2 w r1 = some r2 →
        ∃ new, r2.reads = r.reads ++ new ∧
          ∀ a, a ∈ new ↔
            (source ≤ a ∧ a < source + (ComputePixelSize format type).value * w)) := by
  have hspec := dispatch_spec format type (by rw [ht]; exact hne)
  rw [ht] at hspec
  obtain ⟨hsize, hshape⟩ := hspec
  rw [hsize]
  refine ⟨rfl, ?_, ?_, ?_⟩
  · intro dt hdt fp client source dest w r r2 hfit h
    subst hdt
    simp only [rowShapeOk, decide_eq_true_eq] at hshape
    obtain ⟨new, hr, hmem, -⟩ :=
      LoadImageRow_reads fp dt client source dest w r r2 (fun _ => hfit) h
    refine ⟨new, hr, fun a => ?_⟩
    rw [hmem a]
    simp only [clientBytes]
    cases dt <;> simp only [readShape] at hshape ⊢ <;> first
      | exact absurd hshape.2 (by decide)
      | exact absurd hshape.1 (by decide)
      | (constructor
         · rintro ⟨x, hx, h1, h2⟩
           constructor <;> omega
         · rintro ⟨h1, h2⟩
           first
             | exact ⟨(a - source).toNat, by omega, by omega, by omega⟩
             | exact ⟨((a - source) / 2).toNat, by omega, by omega, by omega⟩
             | exact ⟨((a - source) / 3).toNat, by omega, by omega, by omega⟩
             | exact ⟨((a - source) / 4).toNat, by omega, by omega, by omega⟩
             | exact ⟨((a - source) / 6).toNat, by omega, by omega, by omega⟩
             | exact ⟨((a - source) / 8).toNat, by omega, by omega, by omega⟩
             | exact ⟨((a - source) / 12).toNat, by omega, by omega, by omega⟩
             | exact ⟨((a - source) / 16).toNat, by omega, by omega, by omega⟩)
  · intro hdt fp client source dest dest2 w r r1 r2 h1 h2
    subst hdt
    obtain ⟨new1, hr1, hmem1, -⟩ := LoadImageRow_reads fp .D24 client source dest w r r1
      (fun ⟨_, hN⟩ => absurd hN (by simp [verbatimTable])) h1
    obtain ⟨new2, hr2, hmem2, -⟩ := LoadImageRow_reads fp .S8 client source dest2 w r1 r2
      (fun ⟨_, hN⟩ => absurd hN (by simp [verbatimTable])) h2
    refine ⟨new1 ++ new2, by rw [hr2, hr1, List.append_assoc], fun a => ?_⟩
    rw [List.mem_append, hmem1 a, hmem2 a]
    simp only [readShape, clientBytes]
    constructor
    · rintro (⟨x, hx, h1, h2⟩ | ⟨x, hx, h1, h2⟩) <;> constructor <;> omega
    · rintro ⟨h1, h2⟩
      exact Or.inl ⟨((a - source) / 4).toNat, by omega, by omega, by omega⟩
  · intro hdt fp client source dest dest2 w r r1 r2 h1 h2
    subst hdt
    obtain ⟨new1, hr1, hmem1, -⟩ := LoadImageRow_reads fp .D32FS8 client source dest w r r1
      (fun ⟨_, hN⟩ => absurd hN (by simp [verbatimTable])) h1
    obtain ⟨new2, hr2, hmem2, -⟩ :=
      LoadImageRow_reads fp .S24_8 client source dest2 w r1 r2
        (fun ⟨_, hN⟩ => absurd hN (by simp [verbatimTable])) h2
    refine ⟨new1 ++ new2, by rw [hr2, hr1, List.append_assoc], fun a => ?_⟩
    rw [List.mem_append, hmem1 a, hmem2 a]
    simp only [readShape, clientBytes]
    constructor
    · rintro (⟨x, hx, h1, h2⟩ | ⟨x, hx, h1, h2⟩) <;> constructor <;> omega
    · rintro ⟨h1, h2⟩
      by_cases hlow : (a - source) % 8 < 4
      · exact Or.inl ⟨((a - source) / 8).toNat, by omega, by omega, by omega⟩
      · exact Or.inr ⟨((a - source) / 8).toNat, by omega, by omega, by omega⟩

/-- Witness of amended C30: `GL_RGB` / `GL_UNSIGNED_SHORT` is sent to `UShortRGB`, whose
client pixels are 6 bytes, the value of `ComputePixelSize`. -/
theorem dispatch_pixel_size_witness :
    (loadImageData.dispatch GL_RGB GL_UNSIGNED_SHORT).value = .row .UShortRGB ∧
    ComputePixelSize GL_RGB GL_UNSIGNED_SHORT = ⟨6, false⟩ ∧
    ComputePixelSize GL_RGB GL_UNSIGNED_SHORT = ⟨clientBytes (.row .UShortRGB), false⟩ :=
  ⟨by decide, by decide,
    (dispatch_pixel_size GL_RGB GL_UNSIGNED_SHORT (.row .UShortRGB) (by decide)
      (by decide)).1⟩

/-! ## Depth/stencil demultiplexing -/

/-- C23, as stated, fails: for the D24S8 source word `w = 0x00000100` the exact quotient
`(w - w mod 256) / 0xFFFFFF00` is `1 / 16777215`, which no `float` holds: the four bytes
`LoadImageRow<D24>` stores are a binary32 pattern, and no binary32 pattern has that
value. -/
theorem LoadImageRow_D24_exact_counterexample :
    wordLE ([0, 1, 0, 0] : List Byte) = 256 ∧
    ((256 - 256 % 256 : Nat) : ℚ) / 4294967040 = 1 / 16777215 ∧
    ∀ (fp : FloatOps) (r2 : Run),
      LoadImageRow fp .D24 [0, 1, 0, 0] 0 0 1 ⟨[0, 0, 0, 0], []⟩ = some r2 →
      binary32Value (wordLE r2.dest) ≠ some (((256 - 256 % 256 : Nat) : ℚ) / 4294967040) := by
  refine ⟨by decide, by norm_num, ?_⟩
  intro fp r2 _
  have e : ((256 - 256 % 256 : Nat) : ℚ) / 4294967040 = 1 / 16777215 := by norm_num
  rw [e]
  exact binary32Value_ne_inv _

/-- C23, amended: the two planes are demultiplexed independently, the stencil exactly and
the depth up to the rounding of `float` arithmetic. In a row of `w` pixels at client
address `s`: `LoadImageRow<S8>` stores for a 32-bit source word `v` the byte `v mod 256`;
`LoadImageRow<D24>` stores the four bytes of the `float` that
`(float)(v - v mod 256) / 0xFFFFFF00` yields, a function of `v - v mod 256`, so it does
not depend on the stencil byte; that `float` is finite, its value `q` lies in `[0, 1]`,
and no binary32 value is nearer than `q` to the exact quotient
`(v - v mod 256) / 0xFFFFFF00`; for 8-byte pixels `LoadImageRow<S24_8>` stores the low 8
bits of the second word and `LoadImageRow<D32FS8>` the clamped `float` of the first word
alone. -/
theorem LoadImageRow_demultiplex (fp : FloatOps) (client : List Byte) (r : Run)
    (s d w : Nat) :
    (s + 4 * w ≤ client.length → d + w ≤ r.dest.length →
      ∃ r2, LoadImageRow fp .S8 client (s : Int) (d : Int) (w : Int) r = some r2 ∧
        ∀ x, x < w → r2.dest[d + x]?
          = some (toByte (wordLE ((client.drop (s + 4 * x)).take 4) % 256))) ∧
    (s + 4 * w ≤ client.length → d + 4 * w ≤ r.dest.length →
      ∃ r2, LoadImageRow fp .D24 client (s : Int) (d : Int) (w : Int) r = some r2 ∧
        ∀ x v, x < w → v = wordLE ((client.drop (s + 4 * x)).take 4) →
          (r2.dest.drop (d + 4 * x)).take 4
            = bytesLE 4 (floatDiv (toFloat (v - v % 256)) (toFloat 0xFFFFFF00)) ∧
          ∃ q : ℚ, binary32Value (wordLE ((r2.dest.drop (d + 4 * x)).take 4)) = some q ∧
            0 ≤ q ∧ q ≤ 1 ∧
            ∀ (bits : Nat) (u : ℚ), binary32Value bits = some u →
              |q - ((v - v % 256 : Nat) : ℚ) / 4294967040|
                ≤ |u - ((v - v % 256 : Nat) : ℚ) / 4294967040|) ∧
    (s + 8 * w ≤ client.length → d + w ≤ r.dest.length →
      ∃ r2, LoadImageRow fp .S24_8 client (s : Int) (d : Int) (w : Int) r = some r2 ∧
        ∀ x, x < w → r2.dest[d + x]?
          = some (toByte (wordLE ((client.drop (s + 4 + 8 * x)).take 4) % 256))) ∧
    (s + 8 * w ≤ client.length → d + 4 * w ≤ r.dest.length →
      ∃ r2, LoadImageRow fp .D32FS8 client (s : Int) (d : Int) (w : Int) r = some r2 ∧
        ∀ x, x < w → (r2.dest.drop (d + 4 * x)).take 4
          = bytesLE 4 (fp.clamp01 (wordLE ((client.drop (s + 8 * x)).take 4)))) := by
  refine ⟨fun hs hd => ?_, fun hs hd => ?_, fun hs hd => ?_, fun hs hd => ?_⟩
  · obtain ⟨r2, hrun, -, -, -, hpix, -⟩ :=
      rowLoop_spec client (fun p => [toByte (wordLE p &&& 0x000000FF)]) 4 4 1 s d
        (fun _ _ => rfl) w r (fun x hx => by omega) (by omega)
    refine ⟨r2, (LoadImageRow_S8_eq fp client s d w r).trans hrun, fun x hx => ?_⟩
    have := hpix x hx
    rw [Nat.one_mul, and_low_byte] at this
    exact getElem?_of_take_one this
  · obtain ⟨r2, hrun, -, -, -, hpix, -⟩ :=
      rowLoop_spec client
        (fun p => bytesLE 4 (floatDiv (toFloat (wordLE p &&& 0xFFFFFF00)) (toFloat 0xFFFFFF00)))
        4 4 4 s d (fun _ _ => length_bytesLE _ _) w r (fun x hx => by omega) hd
    refine ⟨r2, (LoadImageRow_D24_eq fp client s d w r).trans hrun, fun x v hx hv => ?_⟩
    have hlt := wordLE_lt ((client.drop (s + 4 * x)).take 4)
    rw [length_chunk client (s + 4 * x) 4 (by omega), ← hv] at hlt
    have hbytes : (r2.dest.drop (d + 4 * x)).take 4
        = bytesLE 4 (floatDiv (toFloat (v - v % 256)) (toFloat 0xFFFFFF00)) := by
      rw [hpix x hx, ← hv, and_high_bytes _ (by omega)]
    refine ⟨hbytes, ?_⟩
    rw [hbytes, wordLE_bytesLE_four _ (floatDiv_lt _ _)]
    exact floatDiv_normalize24 (v - v % 256) (by omega) (by omega)
  · obtain ⟨r2, hrun, -, -, -, hpix, -⟩ :=
      rowLoop_spec client (fun p => [toByte (wordLE p &&& 0x000000FF)]) 4 8 1 (s + 4) d
        (fun _ _ => rfl) w r (fun x hx => by omega) (by omega)
    refine ⟨r2, (LoadImageRow_S24_8_eq fp client s d w r).trans hrun, fun x hx => ?_⟩
    have := hpix x hx
    rw [Nat.one_mul, and_low_byte] at this
    exact getElem?_of_take_one this
  · obtain ⟨r2, hrun, -, -, -, hpix, -⟩ :=
      rowLoop_spec client (fun p => bytesLE 4 (fp.clamp01 (wordLE p))) 4 8 4
        s d (fun _ _ => length_bytesLE _ _) w r (fun x hx => by omega) hd
    exact ⟨r2, (LoadImageRow_D32FS8_eq fp client s d w r).trans hrun, fun x hx => hpix x hx⟩

/-- Witness of amended C23: the D24S8 word `0x04030201` has the stencil byte 1 and the
depth bits `0x04030200`; the `float` stored for it has the bits `0x3C806041`. -/
theorem LoadImageRow_demultiplex_witness :
    floatDiv (toFloat (67305985 - 67305985 % 256)) (toFloat 0xFFFFFF00) = 0x3C806041 ∧
    ∃ r2, LoadImageRow sampleFloatOps .D24 [1, 2, 3, 4] ((0 : Nat) : Int) ((0 : Nat) : Int)
        ((1 : Nat) : Int) ⟨[0, 0, 0, 0], []⟩ = some r2 ∧
      ∀ x v, x < 1 → v = wordLE ((([1, 2, 3, 4] : List Byte).drop (0 + 4 * x)).take 4) →
        (r2.dest.drop (0 + 4 * x)).take 4
          = bytesLE 4 (floatDiv (toFloat (v - v % 256)) (toFloat 0xFFFFFF00)) ∧
        ∃ q : ℚ, binary32Value (wordLE ((r2.dest.drop (0 + 4 * x)).take 4)) = some q ∧
          0 ≤ q ∧ q ≤ 1 ∧
          ∀ (bits : Nat) (u : ℚ), binary32Value bits = some u →
            |q - ((v - v % 256 : Nat) : ℚ) / 4294967040|
              ≤ |u - ((v - v % 256 : Nat) : ℚ) / 4294967040| :=
  ⟨by decide,
    (LoadImageRow_demultiplex sampleFloatOps [1, 2, 3, 4] ⟨[0, 0, 0, 0], []⟩ 0 0 1).2.1
      (by decide) (by decide)⟩

end egl
